import Mathlib

/-!
# Golly: algorithm registry (`wxalgos.cpp`)

A shallow embedding of the algorithm table set up by `InitAlgorithms`, of the icon
helpers `CreateIconBitmaps` / `ScaleIconBitmaps`, of the registration through
`AlgoData::tick` and of `CreateNewUniverse` / `GetAlgoName`, of the status bar helpers
`StatusBar::Stringify` / `StatusBar::GetCurrentDelay` (`wxstatus.cpp`), and theorems about
them.

Conventions of the embedding

* C `int` values are `Int`; loop counters that start at 0 and count upwards are `Nat`.
* `unsigned char` values are `Nat` (every literal in the source is below 256).
* A nullable pointer is an `Option`.
* A C array of fixed size `n` is a function `Fin n → α`; every indexed access goes
  through `CArray.read` / `CArray.write`, which report `Fault.outOfBounds` when the index
  leaves the array.
* wxWidgets is a library outside the repository.  Bitmaps are kept as terms that record
  which wx calls produced them, together with the dimensions wx documents for the result.
* `malloc` of the 256-pointer icon table and `new` are taken to succeed.
* During registration the objects made by `new AlgoData()` live in a list, the address of
  an object being its position, and `algoinfo` holds addresses: what a backend writes
  through the reference it got from `tick` is seen through `algoinfo` only if `tick` has
  stored that address there.
-/

namespace Golly

/-! ## Faults and loops -/

/-- Ways in which the C++ code can leave defined behaviour. -/
inductive Fault where
  | divByZero
  | outOfBounds
  | nullPointer
  | overflow
  deriving DecidableEq, Repr

/-- The loop `for (int i = start; ...; i++) body` run for `count` iterations, with the
loop body allowed to fail. -/
def forLoop {σ ε : Type} (body : Nat → σ → Except ε σ) : Nat → Nat → σ → Except ε σ
  | 0, _, s => .ok s
  | count + 1, i, s =>
    match body i s with
    | .ok s' => forLoop body count (i + 1) s'
    | .error e => .error e

/-- The loop `for (int i = 0; i < n; i++) body` for a C `int` bound `n`. -/
def forUpTo {σ ε : Type} (n : Int) (body : Nat → σ → Except ε σ) (s : σ) : Except ε σ :=
  forLoop body n.toNat 0 s

/-- The C expression `a / b` on `int`s: truncating division, undefined for a zero divisor and
for `INT_MIN / -1`, whose quotient is no `int`. -/
def cdiv (a b : Int) : Except Fault Int :=
  if b = 0 then .error .divByZero
  else if a = -2147483648 ∧ b = -1 then .error .overflow
  else .ok (Int.tdiv a b)

/-! ## Fixed-size C arrays -/

/-- A C array with `n` elements. -/
abbrev CArray (α : Type) (n : Nat) := Fin n → α

/-- The read `a[i]`. -/
def CArray.read {α : Type} {n : Nat} (a : CArray α n) (i : Nat) : Except Fault α :=
  if h : i < n then .ok (a ⟨i, h⟩) else .error .outOfBounds

/-- The assignment `a[i] = v`. -/
def CArray.write {α : Type} {n : Nat} (a : CArray α n) (i : Nat) (v : α) :
    Except Fault (CArray α n) :=
  if h : i < n then .ok (Function.update a ⟨i, h⟩ v) else .error .outOfBounds

/-- The read `a[i]` for a C `int` index. -/
def CArray.readAt {α : Type} {n : Nat} (a : CArray α n) (i : Int) : Except Fault α :=
  if i < 0 then .error .outOfBounds else a.read i.toNat

/-- The assignment `a[i] = v` for a C `int` index. -/
def CArray.writeAt {α : Type} {n : Nat} (a : CArray α n) (i : Int) (v : α) :
    Except Fault (CArray α n) :=
  if i < 0 then .error .outOfBounds else a.write i.toNat v

/-! ## wx values -/

/-- A `wxColour`, as set by `Set(r, g, b)`. -/
structure wxColour where
  r : Nat
  g : Nat
  b : Nat
  deriving DecidableEq, Repr

/-- A `wxBrush` made from a colour. -/
structure wxBrush where
  colour : wxColour
  deriving DecidableEq, Repr

/-- The picture held in a `char** xpmdata` argument, as wx decodes it. -/
structure Xpm where
  width : Int
  height : Int
  rows : List String
  deriving DecidableEq, Repr

/-- A `wxBitmap` (or the `wxImage` it converts to and from), recorded by the wx calls
that made it. -/
inductive wxBitmap where
  /-- Result of `wxImage image(xpmdata); image.SetMaskColour(r, g, b); wxBitmap(image)`. -/
  | ofXpm (data : Xpm) (mask : wxColour)
  /-- Result of `b.GetSubBitmap(wxRect(x, y, w, h))`. -/
  | sub (b : wxBitmap) (x y w h : Int)
  /-- Result of `wxBitmap(b.ConvertToImage().Scale(w, h))`. -/
  | scaled (b : wxBitmap) (w h : Int)
  deriving DecidableEq, Repr

/-- Method `wxBitmap::GetWidth`. -/
def wxBitmap.GetWidth : wxBitmap → Int
  | .ofXpm data _ => data.width
  | .sub _ _ _ w _ => w
  | .scaled _ w _ => w

/-- Method `wxBitmap::GetHeight`. -/
def wxBitmap.GetHeight : wxBitmap → Int
  | .ofXpm data _ => data.height
  | .sub _ _ _ _ h => h
  | .scaled _ _ h => h

/-- One entry of a `wxMenu`. -/
structure wxMenuItem where
  id : Int
  label : String
  checkable : Bool
  deriving DecidableEq, Repr

/-- A `wxMenu`: its entries in the order they were appended. -/
abbrev wxMenu := List wxMenuItem

/-- The call `menu->AppendCheckItem(id, label)`. -/
def wxMenu.AppendCheckItem (menu : wxMenu) (id : Int) (label : String) : wxMenu :=
  menu ++ [{ id := id, label := label, checkable := true }]

/-! ## Icon tables -/

/-- The table behind a `wxBitmap**`: 256 bitmap pointers, one per cell state. -/
abbrev IconTable := CArray (Option wxBitmap) 256

/-- The table after `for (int i = 0; i < 256; i++) iconptr[i] = NULL`. -/
def IconTable.allNull : IconTable := fun _ => none

/-- Body of the extraction loop of `CreateIconBitmaps`:
`wxRect rect(0, i*wd, wd, wd); iconptr[i+1] = new wxBitmap(allicons.GetSubBitmap(rect))`. -/
def CreateIconBitmaps.body (allicons : wxBitmap) (wd : Int) (i : Nat) (iconptr : IconTable) :
    Except Fault IconTable :=
  iconptr.write (i + 1) (some (allicons.sub 0 (i * wd) wd wd))

/-- The function `static wxBitmap** CreateIconBitmaps(char** xpmdata)`. -/
def CreateIconBitmaps (xpmdata : Option Xpm) : Except Fault (Option IconTable) :=
  match xpmdata with
  | none => .ok none
  | some data =>
    let allicons := wxBitmap.ofXpm data ⟨0, 0, 0⟩
    let wd := allicons.GetWidth
    match cdiv allicons.GetHeight wd with
    | .error f => .error f
    | .ok numicons =>
      let numicons := if numicons > 255 then 255 else numicons
      match forUpTo numicons (CreateIconBitmaps.body allicons wd) IconTable.allNull with
      | .ok iconptr => .ok (some iconptr)
      | .error f => .error f

/-- The function `static wxBitmap** ScaleIconBitmaps(wxBitmap** srcicons, int size)`. -/
def ScaleIconBitmaps (srcicons : Option IconTable) (size : Int) : Option IconTable :=
  match srcicons with
  | none => none
  | some src =>
    some (fun i =>
      match src i with
      | none => none
      | some bitmap => some (bitmap.scaled size size))

/-! ## Algorithm descriptors -/

/-- A call made on a `lifealgo` instance by this file. -/
inductive lifealgoCall where
  | setMaxMemory (mem : Int)
  | setpoll
  deriving DecidableEq, Repr

/-- A `lifealgo` instance, as far as this file touches one: a tag telling instances apart
and the calls made on it so far. -/
structure lifealgo where
  tag : Nat
  calls : List lifealgoCall
  deriving DecidableEq, Repr

/-- The fields of `AlgoData` (with those of its base `staticAlgoInfo`) used in
`wxalgos.cpp`.  `creator` is the nullable function pointer; the value under `some` is what
a call `creator()` returns. -/
structure AlgoData where
  id : Int
  algoName : Option String
  creator : Option (Option lifealgo)
  algomem : Int
  algobase : Int
  canhash : Bool
  maxstates : Int
  statusrgb : wxColour
  statusbrush : Option wxBrush
  icons7x7 : Option IconTable
  icons15x15 : Option IconTable
  defgradient : Bool
  defr1 : Nat
  defg1 : Nat
  defb1 : Nat
  defr2 : Nat
  defg2 : Nat
  defb2 : Nat
  defr : CArray Nat 256
  defg : CArray Nat 256
  defb : CArray Nat 256
  gradient : Bool
  fromrgb : wxColour
  torgb : wxColour
  algor : CArray Nat 256
  algog : CArray Nat 256
  algob : CArray Nat 256

/-- The method `void AlgoData::createIconBitmaps(int size, char** xpmdata)`. -/
def AlgoData.createIconBitmaps (ad : AlgoData) (size : Int) (xpmdata : Option Xpm) :
    Except Fault AlgoData :=
  match CreateIconBitmaps xpmdata with
  | .error f => .error f
  | .ok bm =>
    if size = 7 then .ok { ad with icons7x7 := bm }
    else if size = 15 then .ok { ad with icons15x15 := bm }
    else .ok ad

/-- The table `static unsigned char default_colors[]`. -/
def default_colors : List Nat := [
  255,127,0,0,255,127,127,0,255,148,148,148,128,255,0,255,0,128,
  0,128,255,1,159,0,159,0,1,255,254,96,0,1,159,96,255,254,
  254,96,255,126,125,21,21,126,125,125,21,126,255,116,116,116,255,116,
  116,116,255,228,227,0,28,255,27,255,27,28,0,228,227,227,0,228,
  27,28,255,59,59,59,234,195,176,175,196,255,171,194,68,194,68,171,
  68,171,194,72,184,71,184,71,72,71,72,184,169,255,188,252,179,63,
  63,252,179,179,63,252,80,9,0,0,80,9,9,0,80,255,175,250,
  199,134,213,115,100,95,188,163,0,0,188,163,163,0,188,203,73,0,
  0,203,73,73,0,203,94,189,0,189,0,94,0,94,189,187,243,119,
  55,125,32,125,32,55,32,55,125,255,102,185,102,185,255,120,209,168,
  208,166,119,135,96,192,182,255,41,83,153,130,247,88,55,89,247,55,
  88,55,247,87,75,0,0,87,75,75,0,87,200,135,59,51,213,127,
  255,255,162,255,37,182,37,182,255,228,57,117,142,163,210,57,117,228,
  193,255,246,188,107,123,123,194,107,145,59,5,5,145,59,59,5,145,
  119,39,198,40,197,23,197,23,40,23,40,197,178,199,158,255,201,121,
  134,223,223,39,253,84,149,203,15,203,15,149,15,149,203,152,144,90,
  143,75,139,71,97,132,224,65,219,65,219,224,255,255,40,218,223,69,
  74,241,0,241,0,74,0,74,241,122,171,51,220,211,227,61,127,87,
  90,124,176,36,39,13,165,142,255,255,38,255,38,255,255,83,50,107,
  224,142,165,255,181,9,9,255,181,181,9,255,140,238,70,255,74,5,
  74,5,255,138,84,51,31,172,101,177,115,17,221,0,0,0,221,0,
  0,0,221,220,255,200,0,41,50,255,150,205,178,45,116,113,255,189,
  47,0,44,40,119,171,205,107,255,177,115,172,133,73,236,109,0,168,
  168,46,207,188,181,203,212,188,35,90,97,52,39,209,184,41,164,152,
  227,46,70,46,70,227,211,156,255,98,146,222,136,56,95,102,54,152,
  86,142,0,142,0,86,0,86,142,86,223,96,246,135,46,4,208,120,
  212,233,158,177,92,214,104,147,88,149,240,147,227,93,148,72,255,133,
  209,27,194,147,255,255,44,93,0,160,36,158,182,233,0,96,94,217,
  218,103,88,163,154,38,118,114,139,94,0,43,113,164,174,168,188,114,
  0,23,119,42,86,93,255,226,202,80,191,155,255,158,136,0,247,62,
  234,146,88,0,183,229,110,212,36,0,143,161,105,191,210,133,164,0,
  41,30,89,164,0,132,30,89,42,178,222,217,121,22,11,221,107,22,
  69,151,255,45,158,3,158,3,45,3,45,158,86,42,29,9,122,22,
  213,209,110,53,221,57,159,101,91,93,140,45,247,213,37,185,34,0,
  0,185,34,34,0,185,236,0,172,210,180,78,231,107,221,162,49,43,
  43,162,49,49,43,162,36,248,213,114,0,214,213,36,248,149,34,243,
  185,158,167,144,122,224,34,245,149,255,31,98,31,98,255,152,200,193,
  255,80,95,128,123,63,102,62,72,255,62,148,151,226,108,159,99,255,
  226,255,126,98,223,136,80,95,255,225,153,15,73,41,211,212,71,41,
  83,217,187,180,235,79,0,166,127,251,135,243,229,41,0,41,0,229,
  82,255,216,141,174,249,249,215,255,167,31,79,31,79,167,213,102,185,
  255,215,83,4,2,40,224,171,220,41,0,4,6,50,90,221,15,113,
  15,113,221,33,0,115,108,23,90,182,215,36
  ]

/-- The read `*rgbptr` for `rgbptr = default_colors + p`. -/
def default_colors.read (p : Nat) : Except Fault Nat :=
  match default_colors[p]? with
  | some v => .ok v
  | none => .error .outOfBounds

/-! ## `InitAlgorithms`: the pass over `algoinfo` -/

/-- Why a run stopped early: `Fatal(msg)` ended the process, or the code left defined
behaviour. -/
inductive Stop where
  | fatal (msg : String)
  | fault (f : Fault)
  deriving DecidableEq, Repr

/-- The statement `switch (i % 9) { case 0: ad->statusrgb.Set(255, 255, 206); break; ... }`. -/
def InitAlgorithms.setStatusRGB (i : Nat) (ad : AlgoData) : AlgoData :=
  match i % 9 with
  | 0 => { ad with statusrgb := ⟨255, 255, 206⟩ }
  | 1 => { ad with statusrgb := ⟨226, 250, 248⟩ }
  | 2 => { ad with statusrgb := ⟨255, 233, 233⟩ }
  | 3 => { ad with statusrgb := ⟨225, 255, 225⟩ }
  | 4 => { ad with statusrgb := ⟨243, 225, 255⟩ }
  | 5 => { ad with statusrgb := ⟨255, 220, 180⟩ }
  | 6 => { ad with statusrgb := ⟨200, 255, 255⟩ }
  | 7 => { ad with statusrgb := ⟨200, 200, 200⟩ }
  | 8 => { ad with statusrgb := ⟨255, 255, 255⟩ }
  | _ => ad

/-- The two statements under "create scaled bitmaps if only one size is supplied". -/
def InitAlgorithms.scaleIcons (ad : AlgoData) : AlgoData :=
  let ad :=
    if ad.icons15x15.isNone then { ad with icons15x15 := ScaleIconBitmaps ad.icons7x7 15 }
    else ad
  if ad.icons7x7.isNone then { ad with icons7x7 := ScaleIconBitmaps ad.icons15x15 7 }
  else ad

/-- Body of the loop that copies `default_colors` into the descriptor; the loop state is the
offset of `rgbptr` into `default_colors` and the descriptor:
`ad->defr[c] = *rgbptr++; ad->defg[c] = *rgbptr++; ad->defb[c] = *rgbptr++;`. -/
def InitAlgorithms.fillBody (c : Nat) (st : Nat × AlgoData) : Except Fault (Nat × AlgoData) := do
  let (rgbptr, ad) := st
  let r ← default_colors.read rgbptr
  let defr ← ad.defr.write c r
  let g ← default_colors.read (rgbptr + 1)
  let defg ← ad.defg.write c g
  let b ← default_colors.read (rgbptr + 2)
  let defb ← ad.defb.write c b
  return (rgbptr + 3, { ad with defr := defr, defg := defg, defb := defb })

/-- The test `ad->defr[0] == ad->defr[1] && ad->defg[0] == ad->defg[1] &&
ad->defb[0] == ad->defb[1]`. -/
def InitAlgorithms.colorsUnset (ad : AlgoData) : Bool :=
  ad.defr 0 == ad.defr 1 && ad.defg 0 == ad.defg 1 && ad.defb 0 == ad.defb 1

/-- The statement `if (colors of state 0 and 1 agree) { rgbptr = default_colors; for (c...) }`. -/
def InitAlgorithms.defaultColors (ad : AlgoData) : Except Fault AlgoData :=
  if InitAlgorithms.colorsUnset ad then
    match forUpTo ad.maxstates InitAlgorithms.fillBody (0, ad) with
    | .ok (_, ad') => .ok ad'
    | .error f => .error f
  else .ok ad

/-- Body of the loop under "initialize default color scheme":
`ad->algor[c] = ad->defr[c]; ad->algog[c] = ad->defg[c]; ad->algob[c] = ad->defb[c];`. -/
def InitAlgorithms.copyBody (c : Nat) (ad : AlgoData) : Except Fault AlgoData := do
  let r ← ad.defr.read c
  let algor ← ad.algor.write c r
  let g ← ad.defg.read c
  let algog ← ad.algog.write c g
  let b ← ad.defb.read c
  let algob ← ad.algob.write c b
  return { ad with algor := algor, algog := algog, algob := algob }

/-- The statements under "initialize default color scheme". -/
def InitAlgorithms.colorScheme (ad : AlgoData) : Except Fault AlgoData :=
  let ad := { ad with gradient := ad.defgradient }
  let ad := { ad with fromrgb := ⟨ad.defr1, ad.defg1, ad.defb1⟩ }
  let ad := { ad with torgb := ⟨ad.defr2, ad.defg2, ad.defb2⟩ }
  forUpTo ad.maxstates InitAlgorithms.copyBody ad

/-- Body of the loop `for (int i = 0; i < NumAlgos(); i++)` of `InitAlgorithms`, for the
descriptor `ad = algoinfo[i]` and the menu built so far.  `ID_ALGO0` is a constant of
`wxmain.h`. -/
def InitAlgorithms.body (ID_ALGO0 : Int) (i : Nat) (ad : AlgoData) (algomenu : wxMenu) :
    Except Stop (AlgoData × wxMenu) :=
  match ad.algoName, ad.creator with
  | some algoName, some _ =>
    let name := algoName
    let algomenu := algomenu.AppendCheckItem (ID_ALGO0 + i) name
    let ad := { ad with canhash := ad.algobase == 8 }
    let ad := InitAlgorithms.setStatusRGB i ad
    let ad := { ad with statusbrush := some ⟨ad.statusrgb⟩ }
    let ad := InitAlgorithms.scaleIcons ad
    match InitAlgorithms.defaultColors ad with
    | .error f => .error (.fault f)
    | .ok ad =>
      match InitAlgorithms.colorScheme ad with
      | .error f => .error (.fault f)
      | .ok ad => .ok (ad, algomenu)
  | _, _ => .error (.fatal "Algorithm did not set name and/or creator")

/-- The program state `InitAlgorithms` works on: the globals `algomenu` and `algoinfo`
(its first `NumAlgos()` entries). -/
structure Registry where
  algomenu : wxMenu
  algoinfo : List AlgoData

/-- How the pass over `algoinfo` ends, with the globals at that point. -/
inductive InitResult where
  | done (reg : Registry)
  | fatal (msg : String) (reg : Registry)
  | fault (f : Fault)

/-- The loop `for (int i = 0; i < NumAlgos(); i++)` from index `i` on: `finished` are the
descriptors before `i`, `rest` those from `i` on. -/
def InitAlgorithms.loop (ID_ALGO0 : Int) :
    Nat → List AlgoData → wxMenu → List AlgoData → InitResult
  | _, finished, algomenu, [] => .done ⟨algomenu, finished⟩
  | i, finished, algomenu, ad :: rest =>
    match InitAlgorithms.body ID_ALGO0 i ad algomenu with
    | .ok (ad', algomenu') => InitAlgorithms.loop ID_ALGO0 (i + 1) (finished ++ [ad']) algomenu' rest
    | .error (.fatal msg) => .fatal msg ⟨algomenu, finished ++ ad :: rest⟩
    | .error (.fault f) => .fault f

/-- The part of `InitAlgorithms` after the registrations: `algomenu = new wxMenu()` and the
loop over the registered descriptors `algoinfo[0 .. NumAlgos()-1]`. -/
def InitAlgorithms.pass (ID_ALGO0 : Int) (algoinfo : List AlgoData) : InitResult :=
  InitAlgorithms.loop ID_ALGO0 0 [] [] algoinfo

/-! ## Registration and the query functions -/

/-- The globals behind the algorithm table: the counter `staticAlgoInfo::nextAlgoId`, the
`AlgoData` objects made by `new` so far (the address of an object is its position in
`heap`), and the array `AlgoData* algoinfo[MAX_ALGOS]` as `pointers`, holding addresses.
`MAX_ALGOS` is a constant of `wxalgos.h`. -/
structure AlgoTable (MAX_ALGOS : Nat) where
  nextAlgoId : Int
  heap : List AlgoData
  pointers : CArray (Option Nat) MAX_ALGOS

/-- The array `algoinfo` as an expression `algoinfo[i]->...` meets it: for each entry the
object its pointer leads to. -/
def AlgoTable.algoinfo {MAX_ALGOS : Nat} (t : AlgoTable MAX_ALGOS) :
    CArray (Option AlgoData) MAX_ALGOS :=
  fun i =>
    match t.pointers i with
    | none => none
    | some addr => t.heap[addr]?

/-- Modelled from the spec: the start value of `staticAlgoInfo::nextAlgoId`, defined in
lifealgo.cpp, which is not among the sources.  The spec has the identity index "dense,
zero-based", so the counter starts at 0; no descriptor has been made yet, and the global
array `algoinfo` has static storage and starts with every pointer NULL. -/
def AlgoTable.initial (MAX_ALGOS : Nat) : AlgoTable MAX_ALGOS :=
  { nextAlgoId := 0, heap := [], pointers := fun _ => none }

/-- Modelled from the spec: the constructor `staticAlgoInfo::staticAlgoInfo()` of
lifealgo.cpp, which is not among the sources.  The spec has the identity index "dense,
zero-based, assigned once at registration" and indices "assigned exactly once, in
registration order": the new descriptor takes the value of the counter as its `id` and the
counter goes up by one.  `raw` holds the fields that no constructor sets. -/
def staticAlgoInfo.new (raw : AlgoData) (nextAlgoId : Int) : AlgoData × Int :=
  ({ raw with id := nextAlgoId }, nextAlgoId + 1)

/-- Modelled from the spec: `staticAlgoInfo::getNumAlgos()` of lifealgo.h, which is not
among the sources.  The spec has `Count()` equal to "the number of registrations
performed": the value of the counter. -/
def staticAlgoInfo.getNumAlgos {MAX_ALGOS : Nat} (t : AlgoTable MAX_ALGOS) : Int :=
  t.nextAlgoId

/-- The constructor `AlgoData::AlgoData()`, run after the constructor of the base class. -/
def AlgoData.new (raw : AlgoData) (nextAlgoId : Int) : AlgoData × Int :=
  let (r, next) := staticAlgoInfo.new raw nextAlgoId
  ({ r with algomem := 0, algobase := 0, statusbrush := none, icons7x7 := none,
            icons15x15 := none }, next)

/-- The method `AlgoData& AlgoData::tick()`:
`AlgoData* r = new AlgoData(); algoinfo[r->id] = r; return *r;`.  The reference returned is
given as the address of the new object. -/
def AlgoData.tick {MAX_ALGOS : Nat} (raw : AlgoData) (t : AlgoTable MAX_ALGOS) :
    Except Fault (Nat × AlgoTable MAX_ALGOS) :=
  let (obj, next) := AlgoData.new raw t.nextAlgoId
  let r := t.heap.length
  let heap := t.heap ++ [obj]
  match t.pointers.writeAt obj.id (some r) with
  | .error f => .error f
  | .ok pointers => .ok (r, { nextAlgoId := next, heap := heap, pointers := pointers })

/-- The function `int NumAlgos()`. -/
def NumAlgos {MAX_ALGOS : Nat} (t : AlgoTable MAX_ALGOS) : Int :=
  staticAlgoInfo.getNumAlgos t

/-- A backend as `InitAlgorithms` meets it: `raw` is the memory its descriptor is built in,
`doInitializeAlgoInfo` what the backend's function of that name (in the backend's own
source file) does to the descriptor it is handed. -/
structure Backend where
  raw : AlgoData
  doInitializeAlgoInfo : AlgoData → AlgoData

/-- One statement `backend::doInitializeAlgoInfo(AlgoData::tick())`: the backend fills in,
in place, the object whose reference `tick` returns; `algoinfo` is not touched again. -/
def InitAlgorithms.register {MAX_ALGOS : Nat} (backend : Backend) (t : AlgoTable MAX_ALGOS) :
    Except Fault (AlgoTable MAX_ALGOS) :=
  match AlgoData.tick backend.raw t with
  | .error f => .error f
  | .ok (r, t) =>
    match t.heap[r]? with
    | none => .error .nullPointer
    | some obj => .ok { t with heap := t.heap.set r (backend.doInitializeAlgoInfo obj) }

/-- A sequence of registration statements, run in order. -/
def InitAlgorithms.registerAll {MAX_ALGOS : Nat} :
    List Backend → AlgoTable MAX_ALGOS → Except Fault (AlgoTable MAX_ALGOS)
  | [], t => .ok t
  | backend :: rest, t =>
    match InitAlgorithms.register backend t with
    | .error f => .error f
    | .ok t => InitAlgorithms.registerAll rest t

/-- The registration statements at the start of `InitAlgorithms`, in source order. -/
def InitAlgorithms.registrations {MAX_ALGOS : Nat}
    (qlifealgo hlifealgo generationsalgo jvnalgo ruletable_algo slifealgo wwalgo : Backend)
    (t : AlgoTable MAX_ALGOS) : Except Fault (AlgoTable MAX_ALGOS) :=
  InitAlgorithms.registerAll
    [qlifealgo, hlifealgo, generationsalgo, jvnalgo, ruletable_algo, slifealgo, wwalgo] t

/-- The global array after `InitAlgorithms`: the descriptors of the registry in the first
entries, NULL in the others. -/
def Registry.table (MAX_ALGOS : Nat) (reg : Registry) : CArray (Option AlgoData) MAX_ALGOS :=
  fun i => reg.algoinfo[i.val]?

/-- The expression `algoinfo[algotype]->...`: the array read and the dereference of the
pointer found there. -/
def algoinfoAt {MAX_ALGOS : Nat} (algoinfo : CArray (Option AlgoData) MAX_ALGOS)
    (algotype : Int) : Except Fault AlgoData :=
  match algoinfo.readAt algotype with
  | .error f => .error f
  | .ok none => .error .nullPointer
  | .ok (some ad) => .ok ad

/-- The function `const char* GetAlgoName(algo_type algotype)`, whose body is the single
statement `return algoinfo[algotype]->algoName;`.  It has no way of reporting an error: a
result `.error f` says that the call has undefined behaviour of kind `f`. -/
def GetAlgoName {MAX_ALGOS : Nat} (algoinfo : CArray (Option AlgoData) MAX_ALGOS)
    (algotype : Int) : Except Fault (Option String) :=
  match algoinfoAt algoinfo algotype with
  | .error f => .error f
  | .ok ad => .ok ad.algoName

/-- The call `newalgo->setMaxMemory(mem)`; `lifealgo` is a class of lifealgo.h, and the
call is recorded on the instance. -/
def lifealgo.setMaxMemory (newalgo : lifealgo) (mem : Int) : lifealgo :=
  { newalgo with calls := newalgo.calls ++ [.setMaxMemory mem] }

/-- The call `newalgo->setpoll(wxGetApp().Poller())`, recorded on the instance. -/
def lifealgo.setpoll (newalgo : lifealgo) : lifealgo :=
  { newalgo with calls := newalgo.calls ++ [.setpoll] }

/-- The function `lifealgo* CreateNewUniverse(algo_type algotype, bool allowcheck)`. -/
def CreateNewUniverse {MAX_ALGOS : Nat} (algoinfo : CArray (Option AlgoData) MAX_ALGOS)
    (algotype : Int) (allowcheck : Bool) : Except Stop lifealgo :=
  match algoinfoAt algoinfo algotype with
  | .error f => .error (.fault f)
  | .ok ad =>
    match ad.creator with
    | none => .error (.fault .nullPointer)
    | some none => .error (.fatal "Failed to create new universe!")
    | some (some newalgo) =>
      let newalgo := if ad.algomem ≥ 0 then newalgo.setMaxMemory ad.algomem else newalgo
      let newalgo := if allowcheck then newalgo.setpoll else newalgo
      .ok newalgo

/-- The arguments of the `setMaxMemory` calls in a call log, in order. -/
def lifealgoCall.maxMemoryArgs (calls : List lifealgoCall) : List Int :=
  calls.filterMap (fun call =>
    match call with
    | .setMaxMemory mem => some mem
    | .setpoll => none)

/-- The number of `setpoll` calls in a call log. -/
def lifealgoCall.numSetpoll (calls : List lifealgoCall) : Nat :=
  calls.count .setpoll

/-- A backend that sets the given name and a creator and nothing else. -/
def sampleBackend (raw : AlgoData) (name : String) : Backend :=
  { raw := raw
    doInitializeAlgoInfo := fun ad =>
      { ad with algoName := some name, creator := some (some ⟨0, []⟩) } }

/-! ## The status bar (`wxstatus.cpp`) -/

/-- The values of a C `int` of 32 bits. -/
def isInt32 (v : Int) : Prop := -2147483648 ≤ v ∧ v ≤ 2147483647

instance (v : Int) : Decidable (isInt32 v) :=
  inferInstanceAs (Decidable (-2147483648 ≤ v ∧ v ≤ 2147483647))

/-- The C expression `1 << k` on `int`: undefined for a negative shift count, for a count of
32 or more, and for the count 31, whose result `2^31` is no `int`. -/
def cshl1 (k : Int) : Except Fault Int :=
  if 0 ≤ k ∧ k < 31 then .ok (2 ^ k.toNat) else .error .overflow

/-- The C expression `a * b` on `int`: undefined when the product is no `int`. -/
def cmul (a b : Int) : Except Fault Int :=
  if isInt32 (a * b) then .ok (a * b) else .error .overflow

/-- The method `int StatusBar::GetCurrentDelay()`.  `mindelay` and `maxdelay` are the globals
declared in `wxprefs.h`, `currexpo` is `currlayer->currexpo`. -/
def StatusBar.GetCurrentDelay (mindelay maxdelay currexpo : Int) : Except Fault Int :=
  match cshl1 (-currexpo - 1) with
  | .error f => .error f
  | .ok pow =>
    match cmul mindelay pow with
    | .error f => .error f
    | .ok gendelay =>
      let gendelay := if gendelay > maxdelay then maxdelay else gendelay
      .ok gendelay

/-- The buffer `static char buf[32]` of `Stringify`. -/
abbrev CharBuf := CArray Char 32

/-- What `sprintf` stores at `buf + i`: the characters given, then a NUL. -/
def CharBuf.sprintf (buf : CharBuf) (i : Int) : List Char → Except Fault CharBuf
  | [] => buf.writeAt i (Char.ofNat 0)
  | c :: cs =>
    match buf.writeAt i c with
    | .error f => .error f
    | .ok buf => CharBuf.sprintf buf (i + 1) cs

/-- The scan of `strlen(buf + p)`, having counted `len` characters; `fuel` bounds the scan,
which leaves the 32 characters of the buffer before the fuel runs out. -/
def CharBuf.strlen (buf : CharBuf) (p : Int) : Nat → Int → Except Fault Int
  | 0, _ => .error .outOfBounds
  | fuel + 1, len =>
    match buf.readAt (p + len) with
    | .error f => .error f
    | .ok c => if c = Char.ofNat 0 then .ok len else CharBuf.strlen buf p fuel (len + 1)

/-- The characters of the C string at `buf + p`, as `wxString(p, wxConvLocal)` reads them. -/
def CharBuf.cstring (buf : CharBuf) (p : Int) : Nat → Except Fault (List Char)
  | 0 => .error .outOfBounds
  | fuel + 1 =>
    match buf.readAt p with
    | .error f => .error f
    | .ok c =>
      if c = Char.ofNat 0 then .ok []
      else
        match CharBuf.cstring buf (p + 1) fuel with
        | .error f => .error f
        | .ok cs => .ok (c :: cs)

/-- The statement `p[--dest] = p[--src];` of `Stringify`, on the state `(buf, dest, src)`. -/
def StatusBar.Stringify.moveChar (p : Int) (st : CharBuf × Int × Int) :
    Except Fault (CharBuf × Int × Int) :=
  let (buf, dest, src) := st
  let src := src - 1
  let dest := dest - 1
  match buf.readAt (p + src) with
  | .error f => .error f
  | .ok c =>
    match buf.writeAt (p + dest) c with
    | .error f => .error f
    | .ok buf => .ok (buf, dest, src)

/-- Body of the loop `while (commas > 0)` of `Stringify`: three characters are moved up,
then `p[--dest] = ',';`. -/
def StatusBar.Stringify.body (p : Int) (_round : Nat) (st : CharBuf × Int × Int) :
    Except Fault (CharBuf × Int × Int) := do
  let st ← StatusBar.Stringify.moveChar p st
  let st ← StatusBar.Stringify.moveChar p st
  let (buf, dest, src) ← StatusBar.Stringify.moveChar p st
  let dest := dest - 1
  let buf ← CArray.writeAt buf (p + dest) ','
  return (buf, dest, src)

/-- The method `wxString StatusBar::Stringify(const bigint& b)`.  `b` is the integer the
`bigint` holds; a `double` represents every integer up to `10^9` in absolute value exactly,
for which `"%.f"` prints the decimal digits.  The text of `sprintf(p, "%g", d)` for the
larger values is the parameter `sprintf_g`; `buf` is what the static buffer holds at the
call; `p` is kept as the offset of the pointer `p` from `buf`. -/
def StatusBar.Stringify (sprintf_g : Int → String) (buf : CharBuf) (b : Int) :
    Except Fault String :=
  let d := b
  if |d| > 1000000000 then .ok (sprintf_g d)
  else do
    let (d, p, buf) ←
      if d < 0 then
        match CArray.writeAt buf 0 '-' with
        | .error f => .error f
        | .ok buf => .ok (-d, (1 : Int), buf)
      else .ok (d, (0 : Int), buf)
    let buf ← CharBuf.sprintf buf p (Nat.toDigits 10 d.toNat)
    let len ← CharBuf.strlen buf p 33 0
    let commas := Int.tdiv (len + 2) 3 - 1
    let dest := len + commas
    let src := len
    let buf ← CArray.writeAt buf (p + dest) (Char.ofNat 0)
    let (buf, _, _) ← forLoop (StatusBar.Stringify.body p) commas.toNat 0 (buf, dest, src)
    let c ← CArray.readAt buf (p - 1)
    let p := if c = '-' then p - 1 else p
    let cs ← CharBuf.cstring buf p 33
    return String.mk cs

/-! ## Sample descriptors -/

/-- A descriptor as a backend can leave it after registration: the given name and creator,
one state per entry of `colours` with that default colour, the given icon tables, and the
values of the `AlgoData` constructor elsewhere. -/
def sampleAlgo (algoName : Option String) (creator : Option (Option lifealgo))
    (colours : List (Nat × Nat × Nat)) (icons7x7 icons15x15 : Option IconTable) : AlgoData where
  id := 0
  algoName := algoName
  creator := creator
  algomem := 0
  algobase := 0
  canhash := false
  maxstates := colours.length
  statusrgb := ⟨0, 0, 0⟩
  statusbrush := none
  icons7x7 := icons7x7
  icons15x15 := icons15x15
  defgradient := false
  defr1 := 0
  defg1 := 0
  defb1 := 0
  defr2 := 0
  defg2 := 0
  defb2 := 0
  defr := fun k => (colours.getD k.val (0, 0, 0)).1
  defg := fun k => (colours.getD k.val (0, 0, 0)).2.1
  defb := fun k => (colours.getD k.val (0, 0, 0)).2.2
  gradient := false
  fromrgb := ⟨0, 0, 0⟩
  torgb := ⟨0, 0, 0⟩
  algor := fun _ => 0
  algog := fun _ => 0
  algob := fun _ => 0

/-- An icon table with an icon of the given size for states 1 to 4 only. -/
def sampleIcons (size : Int) : IconTable :=
  fun k => if 1 ≤ k.val ∧ k.val ≤ 4
    then some (.sub (.ofXpm ⟨size, 4 * size, []⟩ ⟨0, 0, 0⟩) 0 ((k.val - 1 : Nat) * size) size size)
    else none

/-- The nine status bar colours, in the order of the cases of the `switch` in
`InitAlgorithms`. -/
def InitAlgorithms.statusColours : List wxColour :=
  [⟨255, 255, 206⟩, ⟨226, 250, 248⟩, ⟨255, 233, 233⟩, ⟨225, 255, 225⟩, ⟨243, 225, 255⟩,
    ⟨255, 220, 180⟩, ⟨200, 255, 255⟩, ⟨200, 200, 200⟩, ⟨255, 255, 255⟩]

/-- Number of non-NULL entries of an icon table. -/
def IconTable.numIcons (t : IconTable) : Nat :=
  (Finset.univ.filter (fun i : Fin 256 => (t i).isSome)).card

/-! ## Loops -/

theorem forLoop_total {σ ε : Type} (body : Nat → σ → Except ε σ) (P : Nat → σ → Prop) :
    ∀ (count i : Nat) (s : σ), P i s →
      (∀ j t, i ≤ j → j < i + count → P j t → ∃ t', body j t = .ok t' ∧ P (j + 1) t') →
      ∃ s', forLoop body count i s = .ok s' ∧ P (i + count) s'
  | 0, i, s, h, _ => ⟨s, rfl, by simpa using h⟩
  | count + 1, i, s, h, hstep => by
    obtain ⟨t', ht', hP⟩ := hstep i s (le_refl _) (by omega) h
    obtain ⟨s', hs', hP'⟩ := forLoop_total body P count (i + 1) t' hP
      (fun j t hj hlt hPj => hstep j t (by omega) (by omega) hPj)
    refine ⟨s', ?_, ?_⟩
    · simp [forLoop, ht', hs']
    · have hidx : i + (count + 1) = i + 1 + count := by omega
      rw [hidx]
      exact hP'

theorem forLoop_invariant {σ ε : Type} (body : Nat → σ → Except ε σ) (P : Nat → σ → Prop) :
    ∀ (count i : Nat) (s s' : σ), P i s →
      (∀ j t t', i ≤ j → j < i + count → P j t → body j t = .ok t' → P (j + 1) t') →
      forLoop body count i s = .ok s' → P (i + count) s'
  | 0, i, s, s', h, _, hrun => by
    simp only [forLoop, Except.ok.injEq] at hrun
    subst hrun
    simpa using h
  | count + 1, i, s, s', h, hstep, hrun => by
    simp only [forLoop] at hrun
    cases hb : body i s with
    | error e => rw [hb] at hrun; cases hrun
    | ok t =>
      rw [hb] at hrun
      have hP := hstep i s t (le_refl _) (by omega) h hb
      have hidx : i + (count + 1) = i + 1 + count := by omega
      rw [hidx]
      exact forLoop_invariant body P count (i + 1) t s' hP
        (fun j u u' hj hlt hPj hbj => hstep j u u' (by omega) (by omega) hPj hbj) hrun

/-! ## `CreateIconBitmaps` -/

/-- The icon that `CreateIconBitmaps` stores for state `k`. -/
theorem CreateIconBitmaps.loop_spec (allicons : wxBitmap) (wd : Int) (n : Nat) (hn : n ≤ 255) :
    ∃ t, forLoop (CreateIconBitmaps.body allicons wd) n 0 IconTable.allNull = .ok t ∧
      ∀ k : Fin 256, t k =
        if 1 ≤ k.val ∧ k.val ≤ n then some (allicons.sub 0 (((k.val - 1 : Nat) : Int) * wd) wd wd)
        else none := by
  have h := forLoop_total (CreateIconBitmaps.body allicons wd)
    (fun j t => ∀ k : Fin 256, t k =
        if 1 ≤ k.val ∧ k.val ≤ j then some (allicons.sub 0 (((k.val - 1 : Nat) : Int) * wd) wd wd)
        else none) n 0 IconTable.allNull
    (by
      intro k
      have h0 : ¬ (1 ≤ k.val ∧ k.val ≤ 0) := by omega
      rw [if_neg h0]
      rfl)
    (by
      intro j t _ hj hP
      have hj1 : j + 1 < 256 := by omega
      refine ⟨Function.update t ⟨j + 1, hj1⟩ (some (allicons.sub 0 ((j : Int) * wd) wd wd)), ?_, ?_⟩
      · simp [CreateIconBitmaps.body, CArray.write, hj1]
      · intro k
        by_cases hk : k = ⟨j + 1, hj1⟩
        · subst hk
          simp
        · have hkv : k.val ≠ j + 1 := fun h => hk (Fin.ext h)
          rw [Function.update_noteq hk, hP k]
          by_cases h1 : 1 ≤ k.val ∧ k.val ≤ j
          · have h2 : 1 ≤ k.val ∧ k.val ≤ j + 1 := by omega
            rw [if_pos h1, if_pos h2]
          · have h2 : ¬ (1 ≤ k.val ∧ k.val ≤ j + 1) := by omega
            rw [if_neg h1, if_neg h2])
  simpa using h

theorem CreateIconBitmaps_some (data : Xpm) (hw : data.width ≠ 0)
    (hov : ¬ (data.height = -2147483648 ∧ data.width = -1)) :
    ∃ t, CreateIconBitmaps (some data) = .ok (some t) ∧
      ∀ k : Fin 256, t k =
        if 1 ≤ k.val ∧
            k.val ≤ (if Int.tdiv data.height data.width > 255 then 255
                      else Int.tdiv data.height data.width).toNat
        then some ((wxBitmap.ofXpm data ⟨0, 0, 0⟩).sub 0
          (((k.val - 1 : Nat) : Int) * data.width) data.width data.width)
        else none := by
  have hn : (if Int.tdiv data.height data.width > 255 then 255
      else Int.tdiv data.height data.width).toNat ≤ 255 := by
    split <;> omega
  obtain ⟨t, ht, hspec⟩ := CreateIconBitmaps.loop_spec (wxBitmap.ofXpm data ⟨0, 0, 0⟩)
    data.width _ hn
  refine ⟨t, ?_, hspec⟩
  simp only [CreateIconBitmaps, cdiv, wxBitmap.GetWidth, wxBitmap.GetHeight, if_neg hw,
    if_neg hov, forUpTo]
  rw [ht]

/-! ## The default colour table -/

set_option maxRecDepth 20000 in
theorem default_colors_length : default_colors.length = 768 := by rfl

set_option maxRecDepth 20000 in
/-- The first three colours of the table. -/
theorem default_colors_first :
    (default_colors[0]? = some 255 ∧ default_colors[1]? = some 127 ∧
      default_colors[2]? = some 0) ∧
    (default_colors[3]? = some 0 ∧ default_colors[4]? = some 255 ∧
      default_colors[5]? = some 127) ∧
    (default_colors[6]? = some 127 ∧ default_colors[7]? = some 0 ∧
      default_colors[8]? = some 255) :=
  ⟨⟨rfl, rfl, rfl⟩, ⟨rfl, rfl, rfl⟩, ⟨rfl, rfl, rfl⟩⟩

theorem default_colors.read_ok {p v : Nat} (h : default_colors[p]? = some v) :
    default_colors.read p = .ok v := by
  unfold default_colors.read
  rw [h]

theorem default_colors.entry (p : Nat) (hp : p < 768) : ∃ v, default_colors[p]? = some v := by
  have hlen : p < default_colors.length := by rw [default_colors_length]; exact hp
  exact ⟨default_colors[p], List.getElem?_eq_getElem hlen⟩

/-! ## The default colour fallback -/

/-- One round of the fill loop: with the table offset at `rgbptr` and state `c` inside the
arrays, the three bytes at `rgbptr` are stored as the default colour of state `c`. -/
theorem InitAlgorithms.fillBody_ok (c rgbptr : Nat) (ad : AlgoData) (hc : c < 256) (r g b : Nat)
    (hr : default_colors[rgbptr]? = some r) (hg : default_colors[rgbptr + 1]? = some g)
    (hb : default_colors[rgbptr + 2]? = some b) :
    InitAlgorithms.fillBody c (rgbptr, ad) =
      .ok (rgbptr + 3, { ad with defr := Function.update ad.defr ⟨c, hc⟩ r,
                                 defg := Function.update ad.defg ⟨c, hc⟩ g,
                                 defb := Function.update ad.defb ⟨c, hc⟩ b }) := by
  simp [InitAlgorithms.fillBody, default_colors.read_ok hr, default_colors.read_ok hg,
    default_colors.read_ok hb, CArray.write, hc, bind, Except.bind, pure, Except.pure]

/-- The fill loop run for `n ≤ 256` rounds ends normally; it stores table triple `k` as the
default colour of every state `k < n` and changes nothing else. -/
theorem InitAlgorithms.fill_spec (ad : AlgoData) (n : Nat) (hn : n ≤ 256) :
    ∃ p a, forLoop InitAlgorithms.fillBody n 0 (0, ad) = .ok (p, a) ∧
      (∃ r g b, a = { ad with defr := r, defg := g, defb := b }) ∧
      ∀ k : Fin 256,
        (k.val < n → default_colors[3 * k.val]? = some (a.defr k) ∧
          default_colors[3 * k.val + 1]? = some (a.defg k) ∧
          default_colors[3 * k.val + 2]? = some (a.defb k)) ∧
        (n ≤ k.val → a.defr k = ad.defr k ∧ a.defg k = ad.defg k ∧ a.defb k = ad.defb k) := by
  have h := forLoop_total InitAlgorithms.fillBody
    (fun j st => st.1 = 3 * j ∧ (∃ r g b, st.2 = { ad with defr := r, defg := g, defb := b }) ∧
      ∀ k : Fin 256,
        (k.val < j → default_colors[3 * k.val]? = some (st.2.defr k) ∧
          default_colors[3 * k.val + 1]? = some (st.2.defg k) ∧
          default_colors[3 * k.val + 2]? = some (st.2.defb k)) ∧
        (j ≤ k.val → st.2.defr k = ad.defr k ∧ st.2.defg k = ad.defg k ∧
          st.2.defb k = ad.defb k)) n 0 (0, ad)
    ⟨rfl, ⟨ad.defr, ad.defg, ad.defb, rfl⟩, fun k => ⟨fun hk => absurd hk (Nat.not_lt_zero _),
      fun _ => ⟨rfl, rfl, rfl⟩⟩⟩
    (by
      rintro j ⟨p, a⟩ _ hj ⟨hp, ⟨r0, g0, b0, ha⟩, hk⟩
      simp only at hp ha hk
      have hj256 : j < 256 := by omega
      obtain ⟨r, hr⟩ := default_colors.entry (3 * j) (by omega)
      obtain ⟨g, hg⟩ := default_colors.entry (3 * j + 1) (by omega)
      obtain ⟨b, hb⟩ := default_colors.entry (3 * j + 2) (by omega)
      subst hp
      refine ⟨_, InitAlgorithms.fillBody_ok j (3 * j) a hj256 r g b hr hg hb, ?_, ?_, ?_⟩
      · show 3 * j + 3 = 3 * (j + 1)
        omega
      · subst ha
        exact ⟨_, _, _, rfl⟩
      · intro k
        by_cases hkj : k = ⟨j, hj256⟩
        · subst hkj
          refine ⟨fun _ => ?_, fun hle => absurd hle (by simp)⟩
          simp only [Function.update_same]
          exact ⟨hr, hg, hb⟩
        · have hne : k.val ≠ j := fun h => hkj (Fin.ext h)
          simp only [Function.update_noteq hkj]
          exact ⟨fun hlt => (hk k).1 (by omega), fun hle => (hk k).2 (by omega)⟩)
  obtain ⟨⟨p, a⟩, hrun, _, hframe, hvals⟩ := h
  refine ⟨p, a, hrun, hframe, ?_⟩
  simpa using hvals

/-- The default colour step on a descriptor with at most 256 states: it ends normally and
touches only `defr`, `defg`, `defb`; when the colours of states 0 and 1 differ it changes
nothing, otherwise it stores table triple `k` for every state `k < maxstates`. -/
theorem InitAlgorithms.defaultColors_spec (ad : AlgoData) (h256 : ad.maxstates ≤ 256) :
    ∃ a, InitAlgorithms.defaultColors ad = .ok a ∧
      (∃ r g b, a = { ad with defr := r, defg := g, defb := b }) ∧
      (InitAlgorithms.colorsUnset ad = false → a = ad) ∧
      (InitAlgorithms.colorsUnset ad = true → ∀ k : Fin 256,
        ((k.val : Int) < ad.maxstates → default_colors[3 * k.val]? = some (a.defr k) ∧
          default_colors[3 * k.val + 1]? = some (a.defg k) ∧
          default_colors[3 * k.val + 2]? = some (a.defb k)) ∧
        (ad.maxstates ≤ (k.val : Int) → a.defr k = ad.defr k ∧ a.defg k = ad.defg k ∧
          a.defb k = ad.defb k)) := by
  cases hu : InitAlgorithms.colorsUnset ad with
  | false =>
    refine ⟨ad, by simp [InitAlgorithms.defaultColors, hu], ⟨ad.defr, ad.defg, ad.defb, rfl⟩,
      fun _ => rfl, fun h => (by cases h)⟩
  | true =>
    obtain ⟨p, a, hrun, hframe, hvals⟩ :=
      InitAlgorithms.fill_spec ad ad.maxstates.toNat (by omega)
    refine ⟨a, by simp [InitAlgorithms.defaultColors, hu, forUpTo, hrun], hframe,
      fun h => (by cases h), fun _ k => ⟨fun hlt => (hvals k).1 (by omega),
        fun hle => (hvals k).2 (by omega)⟩⟩

theorem InitAlgorithms.fillBody_bound (c : Nat) (st st' : Nat × AlgoData)
    (h : InitAlgorithms.fillBody c st = .ok st') : c < 256 := by
  by_contra hc
  obtain ⟨p, a⟩ := st
  simp only [InitAlgorithms.fillBody, bind, Except.bind] at h
  cases h1 : default_colors.read p with
  | error e => rw [h1] at h; cases h
  | ok r =>
    rw [h1] at h
    simp [CArray.write, hc] at h

/-- A default colour step that ends normally either found the colours of states 0 and 1
different or ran on a descriptor with at most 256 states. -/
theorem InitAlgorithms.defaultColors_bound (ad a : AlgoData)
    (h : InitAlgorithms.defaultColors ad = .ok a) :
    InitAlgorithms.colorsUnset ad = false ∨ ad.maxstates ≤ 256 := by
  cases hu : InitAlgorithms.colorsUnset ad with
  | false => exact Or.inl rfl
  | true =>
    right
    simp only [InitAlgorithms.defaultColors, hu, if_true, forUpTo] at h
    cases hrun : forLoop InitAlgorithms.fillBody ad.maxstates.toNat 0 (0, ad) with
    | error e => rw [hrun] at h; cases h
    | ok st =>
      have hb := forLoop_invariant InitAlgorithms.fillBody (fun j _ => j ≤ 256)
        ad.maxstates.toNat 0 (0, ad) st (Nat.zero_le _)
        (fun j t t' _ _ _ hbody => InitAlgorithms.fillBody_bound j t t' hbody) hrun
      simp only [Nat.zero_add] at hb
      omega

/-! ## The colour scheme snapshot -/

theorem InitAlgorithms.copyBody_ok (c : Nat) (ad : AlgoData) (hc : c < 256) :
    InitAlgorithms.copyBody c ad =
      .ok { ad with algor := Function.update ad.algor ⟨c, hc⟩ (ad.defr ⟨c, hc⟩),
                    algog := Function.update ad.algog ⟨c, hc⟩ (ad.defg ⟨c, hc⟩),
                    algob := Function.update ad.algob ⟨c, hc⟩ (ad.defb ⟨c, hc⟩) } := by
  simp [InitAlgorithms.copyBody, CArray.read, CArray.write, hc, bind, Except.bind, pure,
    Except.pure]

theorem InitAlgorithms.copyBody_bound (c : Nat) (ad ad' : AlgoData)
    (h : InitAlgorithms.copyBody c ad = .ok ad') : c < 256 := by
  by_contra hc
  simp [InitAlgorithms.copyBody, CArray.read, hc, bind, Except.bind] at h

/-- The copy loop run for `n ≤ 256` rounds ends normally; it copies the default colour of
every state `k < n` into the current colours and changes nothing else. -/
theorem InitAlgorithms.copy_spec (ad : AlgoData) (n : Nat) (hn : n ≤ 256) :
    ∃ a, forLoop InitAlgorithms.copyBody n 0 ad = .ok a ∧
      (∃ r g b, a = { ad with algor := r, algog := g, algob := b }) ∧
      ∀ k : Fin 256,
        (k.val < n → a.algor k = ad.defr k ∧ a.algog k = ad.defg k ∧ a.algob k = ad.defb k) ∧
        (n ≤ k.val → a.algor k = ad.algor k ∧ a.algog k = ad.algog k ∧
          a.algob k = ad.algob k) := by
  have h := forLoop_total InitAlgorithms.copyBody
    (fun j a => (∃ r g b, a = { ad with algor := r, algog := g, algob := b }) ∧
      ∀ k : Fin 256,
        (k.val < j → a.algor k = ad.defr k ∧ a.algog k = ad.defg k ∧ a.algob k = ad.defb k) ∧
        (j ≤ k.val → a.algor k = ad.algor k ∧ a.algog k = ad.algog k ∧
          a.algob k = ad.algob k)) n 0 ad
    ⟨⟨ad.algor, ad.algog, ad.algob, rfl⟩, fun k => ⟨fun hk => absurd hk (Nat.not_lt_zero _),
      fun _ => ⟨rfl, rfl, rfl⟩⟩⟩
    (by
      rintro j a _ hj ⟨⟨r0, g0, b0, ha⟩, hk⟩
      have hj256 : j < 256 := by omega
      refine ⟨_, InitAlgorithms.copyBody_ok j a hj256, ?_, ?_⟩
      · subst ha
        exact ⟨_, _, _, rfl⟩
      · intro k
        by_cases hkj : k = ⟨j, hj256⟩
        · subst hkj
          refine ⟨fun _ => ?_, fun hle => absurd hle (by simp)⟩
          simp only [Function.update_same]
          subst ha
          exact ⟨rfl, rfl, rfl⟩
        · have hne : k.val ≠ j := fun h => hkj (Fin.ext h)
          simp only [Function.update_noteq hkj]
          exact ⟨fun hlt => (hk k).1 (by omega), fun hle => (hk k).2 (by omega)⟩)
  obtain ⟨a, hrun, hframe, hvals⟩ := h
  refine ⟨a, hrun, hframe, ?_⟩
  simpa using hvals

/-- The colour scheme step ends normally exactly on descriptors with at most 256 states. -/
theorem InitAlgorithms.colorScheme_bound (ad a : AlgoData)
    (h : InitAlgorithms.colorScheme ad = .ok a) : ad.maxstates ≤ 256 := by
  simp only [InitAlgorithms.colorScheme, forUpTo] at h
  have hb := forLoop_invariant InitAlgorithms.copyBody (fun j _ => j ≤ 256)
    ad.maxstates.toNat 0 _ a (Nat.zero_le _)
    (fun j t t' _ _ _ hbody => InitAlgorithms.copyBody_bound j t t' hbody) h
  simp only [Nat.zero_add] at hb
  omega

/-- The colour scheme step on a descriptor with at most 256 states: the current gradient
settings become the declared ones, the current colour of every state below `maxstates`
becomes its default colour, and nothing else changes. -/
theorem InitAlgorithms.colorScheme_spec (ad : AlgoData) (h256 : ad.maxstates ≤ 256) :
    ∃ a, InitAlgorithms.colorScheme ad = .ok a ∧
      (∃ r g b, a = { ad with gradient := ad.defgradient,
                              fromrgb := ⟨ad.defr1, ad.defg1, ad.defb1⟩,
                              torgb := ⟨ad.defr2, ad.defg2, ad.defb2⟩,
                              algor := r, algog := g, algob := b }) ∧
      ∀ k : Fin 256,
        ((k.val : Int) < ad.maxstates →
          a.algor k = ad.defr k ∧ a.algog k = ad.defg k ∧ a.algob k = ad.defb k) ∧
        (ad.maxstates ≤ (k.val : Int) →
          a.algor k = ad.algor k ∧ a.algog k = ad.algog k ∧ a.algob k = ad.algob k) := by
  obtain ⟨a, hrun, ⟨r, g, b, hframe⟩, hvals⟩ :=
    InitAlgorithms.copy_spec
      { ad with gradient := ad.defgradient, fromrgb := ⟨ad.defr1, ad.defg1, ad.defb1⟩,
                torgb := ⟨ad.defr2, ad.defg2, ad.defb2⟩ } ad.maxstates.toNat (by
        show ad.maxstates.toNat ≤ 256
        omega)
  refine ⟨a, hrun, ⟨r, g, b, hframe⟩, fun k => ⟨fun hlt => (hvals k).1 (by omega),
    fun hle => (hvals k).2 (by omega)⟩⟩

/-! ## Status colour and icon completion -/

/-- The `switch` picks entry `i % 9` of the nine status colours and changes nothing else. -/
theorem InitAlgorithms.setStatusRGB_spec (i : Nat) (ad : AlgoData) :
    ∃ c, InitAlgorithms.setStatusRGB i ad = { ad with statusrgb := c } ∧
      ([⟨255, 255, 206⟩, ⟨226, 250, 248⟩, ⟨255, 233, 233⟩, ⟨225, 255, 225⟩, ⟨243, 225, 255⟩,
        ⟨255, 220, 180⟩, ⟨200, 255, 255⟩, ⟨200, 200, 200⟩, ⟨255, 255, 255⟩]
          : List wxColour)[i % 9]? = some c := by
  have hlt : i % 9 < 9 := Nat.mod_lt _ (by decide)
  unfold InitAlgorithms.setStatusRGB
  generalize i % 9 = m at hlt
  interval_cases m <;> exact ⟨_, rfl, rfl⟩

/-- The icon completion step changes only the two icon tables: a missing 15x15 table
becomes the scaled 7x7 table, then a missing 7x7 table becomes the scaled 15x15 table. -/
theorem InitAlgorithms.scaleIcons_spec (ad : AlgoData) :
    InitAlgorithms.scaleIcons ad =
      { ad with
        icons15x15 :=
          if ad.icons15x15.isNone then ScaleIconBitmaps ad.icons7x7 15 else ad.icons15x15,
        icons7x7 :=
          if ad.icons7x7.isNone then
            ScaleIconBitmaps
              (if ad.icons15x15.isNone then ScaleIconBitmaps ad.icons7x7 15
                else ad.icons15x15) 7
          else ad.icons7x7 } := by
  obtain ⟨id, nm, cr, mem, base, ch, ms, srgb, sb, i7, i15, dg, r1, g1, b1, r2, g2, b2,
    dr, dgr, db, gr, fr, tr, ar, ag, ab⟩ := ad
  cases i7 <;> cases i15 <;> rfl

/-! ## One round of the loop of `InitAlgorithms` -/

/-- What a round of the loop that ends normally has done to the descriptor and the menu. -/
theorem InitAlgorithms.body_ok (ID_ALGO0 : Int) (i : Nat) (ad ad' : AlgoData) (m m' : wxMenu)
    (h : InitAlgorithms.body ID_ALGO0 i ad m = .ok (ad', m')) :
    (∃ name, ad.algoName = some name ∧ m' = m.AppendCheckItem (ID_ALGO0 + i) name) ∧
    (∃ cr, ad.creator = some cr) ∧
    ad.maxstates ≤ 256 ∧
    (∃ c, ([⟨255, 255, 206⟩, ⟨226, 250, 248⟩, ⟨255, 233, 233⟩, ⟨225, 255, 225⟩,
        ⟨243, 225, 255⟩, ⟨255, 220, 180⟩, ⟨200, 255, 255⟩, ⟨200, 200, 200⟩,
        ⟨255, 255, 255⟩] : List wxColour)[i % 9]? = some c ∧
      ad' = { ad with
        canhash := ad.algobase == 8,
        statusrgb := c,
        statusbrush := some ⟨c⟩,
        icons15x15 :=
          if ad.icons15x15.isNone then ScaleIconBitmaps ad.icons7x7 15 else ad.icons15x15,
        icons7x7 :=
          if ad.icons7x7.isNone then
            ScaleIconBitmaps
              (if ad.icons15x15.isNone then ScaleIconBitmaps ad.icons7x7 15
                else ad.icons15x15) 7
          else ad.icons7x7,
        defr := ad'.defr, defg := ad'.defg, defb := ad'.defb,
        gradient := ad.defgradient,
        fromrgb := ⟨ad.defr1, ad.defg1, ad.defb1⟩,
        torgb := ⟨ad.defr2, ad.defg2, ad.defb2⟩,
        algor := ad'.algor, algog := ad'.algog, algob := ad'.algob }) ∧
    (InitAlgorithms.colorsUnset ad = false →
      ad'.defr = ad.defr ∧ ad'.defg = ad.defg ∧ ad'.defb = ad.defb) ∧
    (InitAlgorithms.colorsUnset ad = true → ∀ k : Fin 256,
      ((k.val : Int) < ad.maxstates → default_colors[3 * k.val]? = some (ad'.defr k) ∧
        default_colors[3 * k.val + 1]? = some (ad'.defg k) ∧
        default_colors[3 * k.val + 2]? = some (ad'.defb k)) ∧
      (ad.maxstates ≤ (k.val : Int) → ad'.defr k = ad.defr k ∧ ad'.defg k = ad.defg k ∧
        ad'.defb k = ad.defb k)) ∧
    (∀ k : Fin 256,
      ((k.val : Int) < ad.maxstates →
        ad'.algor k = ad'.defr k ∧ ad'.algog k = ad'.defg k ∧ ad'.algob k = ad'.defb k) ∧
      (ad.maxstates ≤ (k.val : Int) →
        ad'.algor k = ad.algor k ∧ ad'.algog k = ad.algog k ∧ ad'.algob k = ad.algob k)) := by
  unfold InitAlgorithms.body at h
  split at h
  case h_2 => cases h
  case h_1 name cr hname hcr =>
      simp only at h
      obtain ⟨c, hc, hcol⟩ :=
        InitAlgorithms.setStatusRGB_spec i { ad with canhash := ad.algobase == 8 }
      rw [hc, InitAlgorithms.scaleIcons_spec] at h
      simp only at h
      generalize ha0 : ({ ad with
        canhash := ad.algobase == 8, statusrgb := c, statusbrush := some ⟨c⟩,
        icons15x15 :=
          if ad.icons15x15.isNone then ScaleIconBitmaps ad.icons7x7 15 else ad.icons15x15,
        icons7x7 :=
          if ad.icons7x7.isNone then
            ScaleIconBitmaps
              (if ad.icons15x15.isNone then ScaleIconBitmaps ad.icons7x7 15
                else ad.icons15x15) 7
          else ad.icons7x7 } : AlgoData) = a0 at h
      have hms0 : a0.maxstates = ad.maxstates := by rw [← ha0]
      have hun0 : InitAlgorithms.colorsUnset a0 = InitAlgorithms.colorsUnset ad := by
        rw [← ha0]; rfl
      cases hd : InitAlgorithms.defaultColors a0 with
      | error f => rw [hd] at h; cases h
      | ok a1 =>
        rw [hd] at h
        simp only at h
        cases hs : InitAlgorithms.colorScheme a1 with
        | error f => rw [hs] at h; cases h
        | ok a2 =>
          rw [hs] at h
          simp only [Except.ok.injEq, Prod.mk.injEq] at h
          obtain ⟨h2, hm⟩ := h
          subst h2
          have hb1 : a1.maxstates ≤ 256 := InitAlgorithms.colorScheme_bound a1 a2 hs
          have h256 : a0.maxstates ≤ 256 := by
            rcases InitAlgorithms.defaultColors_bound a0 a1 hd with hu | hle
            · have hsame : InitAlgorithms.defaultColors a0 = .ok a0 := by
                simp [InitAlgorithms.defaultColors, hu]
              rw [hsame] at hd
              cases hd
              exact hb1
            · exact hle
          obtain ⟨a1', hd', ⟨r, g, b, hf1⟩, hfalse, htrue⟩ :=
            InitAlgorithms.defaultColors_spec a0 h256
          rw [hd] at hd'
          cases hd'
          obtain ⟨a2', hs', ⟨cr', cg', cb', hf2⟩, hsnap⟩ :=
            InitAlgorithms.colorScheme_spec a1 hb1
          rw [hs] at hs'
          cases hs'
          have hms1 : a1.maxstates = a0.maxstates := by rw [hf1]
          have hdr : a2.defr = a1.defr ∧ a2.defg = a1.defg ∧ a2.defb = a1.defb := by
            rw [hf2]; exact ⟨rfl, rfl, rfl⟩
          have hal1 : a1.algor = ad.algor ∧ a1.algog = ad.algog ∧ a1.algob = ad.algob := by
            rw [hf1, ← ha0]; exact ⟨rfl, rfl, rfl⟩
          have hd0 : a0.defr = ad.defr ∧ a0.defg = ad.defg ∧ a0.defb = ad.defb := by
            rw [← ha0]; exact ⟨rfl, rfl, rfl⟩
          refine ⟨⟨name, hname, hm.symm⟩, ⟨cr, hcr⟩, by omega, ⟨c, hcol, ?_⟩, ?_, ?_, ?_⟩
          · rw [hf2, hf1, ← ha0]
          · intro hu
            have h10 := hfalse (hun0.trans hu)
            rw [hdr.1, hdr.2.1, hdr.2.2, h10]
            exact hd0
          · intro hu k
            obtain ⟨hin, hout⟩ := htrue (hun0.trans hu) k
            rw [hdr.1, hdr.2.1, hdr.2.2, ← hd0.1, ← hd0.2.1, ← hd0.2.2]
            exact ⟨fun hlt => hin (by omega), fun hle => hout (by omega)⟩
          · intro k
            obtain ⟨hin, hout⟩ := hsnap k
            rw [hdr.1, hdr.2.1, hdr.2.2, ← hal1.1, ← hal1.2.1, ← hal1.2.2]
            exact ⟨fun hlt => hin (by omega), fun hle => hout (by omega)⟩

/-- A round of the loop ends normally on every descriptor that has a name, a creator and at
most 256 states. -/
theorem InitAlgorithms.body_total (ID_ALGO0 : Int) (i : Nat) (ad : AlgoData) (m : wxMenu)
    (name : String) (cr : Option lifealgo) (hname : ad.algoName = some name)
    (hcr : ad.creator = some cr) (h256 : ad.maxstates ≤ 256) :
    ∃ ad', InitAlgorithms.body ID_ALGO0 i ad m =
      .ok (ad', m.AppendCheckItem (ID_ALGO0 + i) name) := by
  unfold InitAlgorithms.body
  split
  case h_2 hne => exact absurd hcr (fun h => hne name cr hname h)
  case h_1 name' cr' hname' hcr' =>
    have hn : name' = name := by
      rw [hname] at hname'
      exact (Option.some.inj hname').symm
    subst hn
    simp only
    obtain ⟨c, hc, _⟩ :=
      InitAlgorithms.setStatusRGB_spec i { ad with canhash := ad.algobase == 8 }
    rw [hc, InitAlgorithms.scaleIcons_spec]
    simp only
    generalize ha0 : ({ ad with
      canhash := ad.algobase == 8, statusrgb := c, statusbrush := some ⟨c⟩,
      icons15x15 :=
        if ad.icons15x15.isNone then ScaleIconBitmaps ad.icons7x7 15 else ad.icons15x15,
      icons7x7 :=
        if ad.icons7x7.isNone then
          ScaleIconBitmaps
            (if ad.icons15x15.isNone then ScaleIconBitmaps ad.icons7x7 15
              else ad.icons15x15) 7
        else ad.icons7x7 } : AlgoData) = a0
    have hms0 : a0.maxstates = ad.maxstates := by rw [← ha0]
    obtain ⟨a1, hd, ⟨r, g, b, hf1⟩, _, _⟩ :=
      InitAlgorithms.defaultColors_spec a0 (by omega)
    have hms1 : a1.maxstates = a0.maxstates := by rw [hf1]
    obtain ⟨a2, hs, _, _⟩ := InitAlgorithms.colorScheme_spec a1 (by omega)
    refine ⟨a2, ?_⟩
    rw [hd]
    simp only
    rw [hs]

/-- A round of the loop calls `Fatal` exactly when the name or the creator is missing. -/
theorem InitAlgorithms.body_fatal_iff (ID_ALGO0 : Int) (i : Nat) (ad : AlgoData) (m : wxMenu) :
    (∃ msg, InitAlgorithms.body ID_ALGO0 i ad m = .error (.fatal msg)) ↔
      (ad.algoName = none ∨ ad.creator = none) := by
  unfold InitAlgorithms.body
  constructor
  · rintro ⟨msg, h⟩
    split at h
    case h_1 name cr hname hcr =>
      simp only at h
      split at h
      · cases h
      · split at h <;> cases h
    case h_2 hne =>
      cases hn : ad.algoName with
      | none => exact Or.inl rfl
      | some name =>
        cases hc : ad.creator with
        | none => exact Or.inr rfl
        | some cr => exact absurd hc (hne name cr hn)
  · intro h
    refine ⟨"Algorithm did not set name and/or creator", ?_⟩
    split
    case h_1 name cr hname hcr =>
      rcases h with h | h
      · rw [h] at hname; cases hname
      · rw [h] at hcr; cases hcr
    case h_2 => rfl

/-! ## The whole loop -/

/-- A loop that ends normally: the registry holds the descriptors finished before, followed
by one processed descriptor per remaining input descriptor, each the result of a round of
the loop at its own index; the menu has grown by one check item per remaining descriptor. -/
theorem InitAlgorithms.loop_done (ID_ALGO0 : Int) :
    ∀ (rest : List AlgoData) (i : Nat) (finished : List AlgoData) (m : wxMenu) (reg : Registry),
      InitAlgorithms.loop ID_ALGO0 i finished m rest = .done reg →
      ∃ outs items, reg.algoinfo = finished ++ outs ∧ reg.algomenu = m ++ items ∧
        outs.length = rest.length ∧ items.length = rest.length ∧
        ∀ k (hk : k < rest.length), ∃ ad' name m1,
          outs[k]? = some ad' ∧
          items[k]? = some ⟨ID_ALGO0 + ((i + k : Nat) : Int), name, true⟩ ∧
          InitAlgorithms.body ID_ALGO0 (i + k) (rest[k]) m1 =
            .ok (ad', m1.AppendCheckItem (ID_ALGO0 + ((i + k : Nat) : Int)) name)
  | [], i, finished, m, reg, h => by
    simp only [InitAlgorithms.loop, InitResult.done.injEq] at h
    subst h
    exact ⟨[], [], by simp, by simp, rfl, rfl, fun k hk => absurd hk (Nat.not_lt_zero _)⟩
  | ad :: rest, i, finished, m, reg, h => by
    simp only [InitAlgorithms.loop] at h
    cases hb : InitAlgorithms.body ID_ALGO0 i ad m with
    | error e =>
      rw [hb] at h
      cases e <;> cases h
    | ok out =>
      obtain ⟨ad', m'⟩ := out
      rw [hb] at h
      simp only at h
      obtain ⟨⟨name, _, hm'⟩, _⟩ := InitAlgorithms.body_ok ID_ALGO0 i ad ad' m m' hb
      obtain ⟨outs, items, hinfo, hmenu, hlo, hli, hk⟩ :=
        InitAlgorithms.loop_done ID_ALGO0 rest (i + 1) (finished ++ [ad']) m' reg h
      refine ⟨ad' :: outs, ⟨ID_ALGO0 + i, name, true⟩ :: items, ?_, ?_, ?_, ?_, ?_⟩
      · rw [hinfo]; simp
      · rw [hmenu, hm']; simp [wxMenu.AppendCheckItem]
      · simp [hlo]
      · simp [hli]
      · intro k hk'
        cases k with
        | zero =>
          refine ⟨ad', name, m, by simp, by simp, ?_⟩
          rw [hm'] at hb
          simpa using hb
        | succ k =>
          have hk2 : k < rest.length := by simpa using hk'
          obtain ⟨a, nm, m1, ho, hi, hbody⟩ := hk k hk2
          have hidx : i + 1 + k = i + (k + 1) := by omega
          rw [hidx] at hi hbody
          exact ⟨a, nm, m1, by simpa using ho, by simpa using hi, by simpa using hbody⟩

/-- A loop that ends in `Fatal`: some remaining descriptor lacks its name or creator, all
remaining descriptors before it have both, the descriptor table is as it was for the
remaining part, and the menu has grown by one check item per descriptor before it. -/
theorem InitAlgorithms.loop_fatal (ID_ALGO0 : Int) :
    ∀ (rest : List AlgoData) (i : Nat) (finished : List AlgoData) (m : wxMenu) (msg : String)
      (reg : Registry),
      InitAlgorithms.loop ID_ALGO0 i finished m rest = .fatal msg reg →
      ∃ (n : Nat) (items : List wxMenuItem), ∃ hn : n < rest.length,
        (rest[n].algoName = none ∨ rest[n].creator = none) ∧
        reg.algomenu = m ++ items ∧ items.length = n ∧
        ∀ k (hk : k < n), ∃ name cr,
          (rest[k]).algoName = some name ∧ (rest[k]).creator = some cr ∧
          items[k]? = some ⟨ID_ALGO0 + ((i + k : Nat) : Int), name, true⟩
  | [], i, finished, m, msg, reg, h => by
    simp only [InitAlgorithms.loop] at h
    cases h
  | ad :: rest, i, finished, m, msg, reg, h => by
    simp only [InitAlgorithms.loop] at h
    cases hb : InitAlgorithms.body ID_ALGO0 i ad m with
    | error e =>
      rw [hb] at h
      cases e with
      | fault f => cases h
      | fatal msg' =>
        simp only [InitResult.fatal.injEq] at h
        obtain ⟨_, hreg⟩ := h
        subst hreg
        have hdef := (InitAlgorithms.body_fatal_iff ID_ALGO0 i ad m).1 ⟨msg', hb⟩
        exact ⟨0, [], by simp, by simpa using hdef, by simp, rfl,
          fun k hk => absurd hk (Nat.not_lt_zero _)⟩
    | ok out =>
      obtain ⟨ad', m'⟩ := out
      rw [hb] at h
      simp only at h
      obtain ⟨⟨name, hname, hm'⟩, ⟨cr, hcr⟩, _⟩ :=
        InitAlgorithms.body_ok ID_ALGO0 i ad ad' m m' hb
      obtain ⟨n, items, hn, hdef, hmenu, hli, hk⟩ :=
        InitAlgorithms.loop_fatal ID_ALGO0 rest (i + 1) (finished ++ [ad']) m' msg reg h
      refine ⟨n + 1, ⟨ID_ALGO0 + i, name, true⟩ :: items, by simpa using hn, by simpa using hdef,
        ?_, by simp [hli], ?_⟩
      · rw [hmenu, hm']; simp [wxMenu.AppendCheckItem]
      · intro k hk'
        cases k with
        | zero => exact ⟨name, cr, by simpa using hname, by simpa using hcr, by simp⟩
        | succ k =>
          obtain ⟨nm, c, h1, h2, h3⟩ := hk k (by omega)
          have hidx : i + 1 + k = i + (k + 1) := by omega
          rw [hidx] at h3
          exact ⟨nm, c, by simpa using h1, by simpa using h2, by simpa using h3⟩

/-- The loop ends normally when every remaining descriptor has a name, a creator and at
most 256 states. -/
theorem InitAlgorithms.loop_total (ID_ALGO0 : Int) :
    ∀ (rest : List AlgoData) (i : Nat) (finished : List AlgoData) (m : wxMenu),
      (∀ ad ∈ rest, ad.algoName ≠ none ∧ ad.creator ≠ none ∧ ad.maxstates ≤ 256) →
      ∃ reg, InitAlgorithms.loop ID_ALGO0 i finished m rest = .done reg
  | [], i, finished, m, _ => ⟨⟨m, finished⟩, rfl⟩
  | ad :: rest, i, finished, m, hall => by
    obtain ⟨hn, hc, h256⟩ := hall ad (List.mem_cons_self _ _)
    obtain ⟨name, hname⟩ := Option.ne_none_iff_exists'.1 hn
    obtain ⟨cr, hcr⟩ := Option.ne_none_iff_exists'.1 hc
    obtain ⟨ad', hb⟩ := InitAlgorithms.body_total ID_ALGO0 i ad m name cr hname hcr h256
    obtain ⟨reg, hreg⟩ := InitAlgorithms.loop_total ID_ALGO0 rest (i + 1) (finished ++ [ad'])
      (m.AppendCheckItem (ID_ALGO0 + i) name) (fun a ha => hall a (List.mem_cons_of_mem _ ha))
    exact ⟨reg, by simp only [InitAlgorithms.loop, hb, hreg]⟩

/-- The loop ends in `Fatal` when some remaining descriptor lacks its name or creator and
all remaining descriptors have at most 256 states. -/
theorem InitAlgorithms.loop_fatal_of (ID_ALGO0 : Int) :
    ∀ (rest : List AlgoData) (i : Nat) (finished : List AlgoData) (m : wxMenu),
      (∀ ad ∈ rest, ad.maxstates ≤ 256) →
      (∃ ad ∈ rest, ad.algoName = none ∨ ad.creator = none) →
      ∃ msg reg, InitAlgorithms.loop ID_ALGO0 i finished m rest = .fatal msg reg
  | [], i, finished, m, _, hex => by
    obtain ⟨ad, hmem, _⟩ := hex
    cases hmem
  | ad :: rest, i, finished, m, hall, hex => by
    by_cases hdef : ad.algoName = none ∨ ad.creator = none
    · obtain ⟨msg, hb⟩ := (InitAlgorithms.body_fatal_iff ID_ALGO0 i ad m).2 hdef
      exact ⟨msg, ⟨m, finished ++ ad :: rest⟩, by simp only [InitAlgorithms.loop, hb]⟩
    · have hn : ad.algoName ≠ none := fun h => hdef (Or.inl h)
      have hc : ad.creator ≠ none := fun h => hdef (Or.inr h)
      obtain ⟨name, hname⟩ := Option.ne_none_iff_exists'.1 hn
      obtain ⟨cr, hcr⟩ := Option.ne_none_iff_exists'.1 hc
      obtain ⟨ad', hb⟩ := InitAlgorithms.body_total ID_ALGO0 i ad m name cr hname hcr
        (hall ad (List.mem_cons_self _ _))
      have hex' : ∃ a ∈ rest, a.algoName = none ∨ a.creator = none := by
        obtain ⟨a, hmem, ha⟩ := hex
        rcases List.mem_cons.1 hmem with rfl | hmem'
        · exact absurd ha hdef
        · exact ⟨a, hmem', ha⟩
      obtain ⟨msg, reg, hreg⟩ := InitAlgorithms.loop_fatal_of ID_ALGO0 rest (i + 1)
        (finished ++ [ad']) (m.AppendCheckItem (ID_ALGO0 + i) name)
        (fun a ha => hall a (List.mem_cons_of_mem _ ha)) hex'
      exact ⟨msg, reg, by simp only [InitAlgorithms.loop, hb, hreg]⟩

/-- A pass that ends normally leaves one processed descriptor per registered descriptor,
each the result of a round of the loop at its own index. -/
theorem InitAlgorithms.pass_done (ID_ALGO0 : Int) (algoinfo : List AlgoData) (reg : Registry)
    (h : InitAlgorithms.pass ID_ALGO0 algoinfo = .done reg) :
    reg.algoinfo.length = algoinfo.length ∧
    ∀ k (hk : k < algoinfo.length), ∃ ad' name m1,
      reg.algoinfo[k]? = some ad' ∧
      InitAlgorithms.body ID_ALGO0 k (algoinfo[k]) m1 =
        .ok (ad', m1.AppendCheckItem (ID_ALGO0 + (k : Int)) name) := by
  obtain ⟨outs, items, hinfo, _, hlo, _, hk⟩ :=
    InitAlgorithms.loop_done ID_ALGO0 algoinfo 0 [] [] reg h
  simp only [List.nil_append] at hinfo
  refine ⟨by rw [hinfo, hlo], fun k hk' => ?_⟩
  obtain ⟨ad', name, m1, ho, _, hb⟩ := hk k hk'
  simp only [Nat.zero_add] at hb
  exact ⟨ad', name, m1, by rw [hinfo]; exact ho, hb⟩

/-- Every descriptor of a finished pass came out of a round of the loop. -/
theorem InitAlgorithms.pass_done_mem (ID_ALGO0 : Int) (algoinfo : List AlgoData)
    (reg : Registry) (h : InitAlgorithms.pass ID_ALGO0 algoinfo = .done reg)
    (ad' : AlgoData) (hmem : ad' ∈ reg.algoinfo) :
    ∃ k ad m m', InitAlgorithms.body ID_ALGO0 k ad m = .ok (ad', m') := by
  obtain ⟨hlen, hk⟩ := InitAlgorithms.pass_done ID_ALGO0 algoinfo reg h
  obtain ⟨k, hklt, hget⟩ := List.getElem_of_mem hmem
  obtain ⟨a, name, m1, ha, hb⟩ := hk k (by omega)
  rw [List.getElem?_eq_getElem hklt, hget] at ha
  cases ha
  exact ⟨k, _, m1, _, hb⟩

/-! ## Counting icons -/

theorem IconTable.numIcons_eq (t : IconTable) (n : Nat) (hn : n ≤ 255)
    (h : ∀ k : Fin 256, (t k).isSome ↔ (1 ≤ k.val ∧ k.val ≤ n)) : t.numIcons = n := by
  unfold IconTable.numIcons
  have hmap : (Finset.univ.filter (fun i : Fin 256 => (t i).isSome)).map Fin.valEmbedding =
      Finset.Icc 1 n := by
    ext x
    simp only [Finset.mem_map, Finset.mem_filter, Finset.mem_univ, true_and,
      Fin.valEmbedding_apply, Finset.mem_Icc]
    constructor
    · rintro ⟨k, hk, rfl⟩
      exact (h k).1 hk
    · intro hx
      exact ⟨⟨x, by omega⟩, (h ⟨x, by omega⟩).2 hx, rfl⟩
  rw [← Finset.card_map Fin.valEmbedding, hmap, Nat.card_Icc]
  omega

/-! ## Sample descriptors -/

theorem sampleAlgo_accepted (name : String) (cr : Option lifealgo)
    (colours : List (Nat × Nat × Nat)) (i7 i15 : Option IconTable) (hlen : colours.length ≤ 256) :
    (sampleAlgo (some name) (some cr) colours i7 i15).algoName ≠ none ∧
    (sampleAlgo (some name) (some cr) colours i7 i15).creator ≠ none ∧
    (sampleAlgo (some name) (some cr) colours i7 i15).maxstates ≤ 256 := by
  refine ⟨by simp [sampleAlgo], by simp [sampleAlgo], ?_⟩
  show ((colours.length : Nat) : Int) ≤ 256
  omega

/-- After a pass that ends normally the descriptor at index `i` carries status colour
number `i % 9`. -/
theorem InitAlgorithms.pass_done_status (ID_ALGO0 : Int) (algoinfo : List AlgoData)
    (reg : Registry) (h : InitAlgorithms.pass ID_ALGO0 algoinfo = .done reg) (i : Nat)
    (a : AlgoData) (ha : reg.algoinfo[i]? = some a) :
    InitAlgorithms.statusColours[i % 9]? = some a.statusrgb := by
  obtain ⟨hlen, hall⟩ := InitAlgorithms.pass_done ID_ALGO0 algoinfo reg h
  have hi : i < algoinfo.length := by
    rw [← hlen]
    exact (List.getElem?_eq_some_iff.1 ha).1
  obtain ⟨ad', name, m1, hget, hb⟩ := hall i hi
  rw [ha] at hget
  cases hget
  obtain ⟨_, _, _, ⟨c, hc, hf⟩, _⟩ := InitAlgorithms.body_ok ID_ALGO0 i _ a m1 _ hb
  have hs : a.statusrgb = c := by rw [hf]
  rw [hs]
  exact hc

/-- The table `CreateIconBitmaps` makes from a strip of positive width `w` and height
`k * w`: state `j` holds the square at offset `(j - 1) * w` for `1 ≤ j ≤ min k 255`, and
nothing elsewhere. -/
theorem CreateIconBitmaps_strip (data : Xpm) (k : Nat) (hw : 0 < data.width)
    (hh : data.height = (k : Int) * data.width) :
    ∃ t, CreateIconBitmaps (some data) = .ok (some t) ∧
      ∀ j : Fin 256, t j =
        if 1 ≤ j.val ∧ j.val ≤ min k 255
        then some ((wxBitmap.ofXpm data ⟨0, 0, 0⟩).sub 0
          (((j.val - 1 : Nat) : Int) * data.width) data.width data.width)
        else none := by
  obtain ⟨t, ht, hspec⟩ := CreateIconBitmaps_some data (ne_of_gt hw) (by omega)
  have hdiv : Int.tdiv data.height data.width = (k : Int) := by
    rw [hh]
    exact Int.mul_tdiv_cancel _ (ne_of_gt hw)
  have hcount : (if Int.tdiv data.height data.width > 255 then 255
      else Int.tdiv data.height data.width).toNat = min k 255 := by
    rw [hdiv]
    split <;> omega
  rw [hcount] at hspec
  exact ⟨t, ht, hspec⟩

/-! ## Claims -/

/-- C2: the default colour fallback of the pass triggers if and only if the declared default
colours of state 0 and state 1 agree in all three channels.  For each registered descriptor
of a pass that ends normally: when the two colours differ, every default colour is left as
the backend declared it; when they agree, the default colours of the states below
`maxstates` are replaced by the entries of `default_colors`.  Declared defaults
`[(10,10,10),(20,20,20)]` are preserved, and `[(10,10,10),(10,10,10),(200,1,1)]` triggers
the fallback. -/
theorem fallback_iff_first_two_equal :
    (∀ (ID_ALGO0 : Int) (algoinfo : List AlgoData) (reg : Registry),
      InitAlgorithms.pass ID_ALGO0 algoinfo = .done reg →
      ∀ (k : Nat) (hk : k < algoinfo.length), ∃ ad', reg.algoinfo[k]? = some ad' ∧
        (((algoinfo[k]).defr 0, (algoinfo[k]).defg 0, (algoinfo[k]).defb 0) ≠
            ((algoinfo[k]).defr 1, (algoinfo[k]).defg 1, (algoinfo[k]).defb 1) →
          ad'.defr = (algoinfo[k]).defr ∧ ad'.defg = (algoinfo[k]).defg ∧
            ad'.defb = (algoinfo[k]).defb) ∧
        (((algoinfo[k]).defr 0, (algoinfo[k]).defg 0, (algoinfo[k]).defb 0) =
            ((algoinfo[k]).defr 1, (algoinfo[k]).defg 1, (algoinfo[k]).defb 1) →
          ∀ c : Fin 256, (c.val : Int) < (algoinfo[k]).maxstates →
            default_colors[3 * c.val]? = some (ad'.defr c) ∧
            default_colors[3 * c.val + 1]? = some (ad'.defg c) ∧
            default_colors[3 * c.val + 2]? = some (ad'.defb c))) ∧
    (∀ ad : AlgoData, InitAlgorithms.colorsUnset ad = true ↔
      (ad.defr 0 = ad.defr 1 ∧ ad.defg 0 = ad.defg 1 ∧ ad.defb 0 = ad.defb 1)) ∧
    (∀ (name : Option String) (cr : Option (Option lifealgo)) (i7 i15 : Option IconTable),
      InitAlgorithms.defaultColors (sampleAlgo name cr [(10, 10, 10), (20, 20, 20)] i7 i15) =
        .ok (sampleAlgo name cr [(10, 10, 10), (20, 20, 20)] i7 i15)) ∧
    (∀ (name : Option String) (cr : Option (Option lifealgo)) (i7 i15 : Option IconTable),
      ∃ a, InitAlgorithms.defaultColors
          (sampleAlgo name cr [(10, 10, 10), (10, 10, 10), (200, 1, 1)] i7 i15) = .ok a ∧
        (a.defr 0, a.defg 0, a.defb 0) = (255, 127, 0) ∧
        (a.defr 1, a.defg 1, a.defb 1) = (0, 255, 127) ∧
        (a.defr 2, a.defg 2, a.defb 2) = (127, 0, 255)) := by
  have hiff : ∀ ad : AlgoData, InitAlgorithms.colorsUnset ad = true ↔
      (ad.defr 0 = ad.defr 1 ∧ ad.defg 0 = ad.defg 1 ∧ ad.defb 0 = ad.defb 1) := by
    intro ad
    simp [InitAlgorithms.colorsUnset, and_assoc]
  refine ⟨?_, hiff, ?_, ?_⟩
  · intro ID_ALGO0 algoinfo reg h k hk
    obtain ⟨_, hall⟩ := InitAlgorithms.pass_done ID_ALGO0 algoinfo reg h
    obtain ⟨ad', name, m1, hget, hb⟩ := hall k hk
    obtain ⟨_, _, _, _, hkeep, hfill, _⟩ := InitAlgorithms.body_ok ID_ALGO0 k _ ad' m1 _ hb
    refine ⟨ad', hget, ?_, ?_⟩
    · intro hne
      apply hkeep
      cases hu : InitAlgorithms.colorsUnset algoinfo[k] with
      | false => rfl
      | true =>
        obtain ⟨h1, h2, h3⟩ := (hiff _).1 hu
        exact absurd (by rw [h1, h2, h3]) hne
    · intro heq c hc
      simp only [Prod.mk.injEq] at heq
      exact ((hfill ((hiff _).2 heq)) c).1 hc
  · intro name cr i7 i15
    rfl
  · intro name cr i7 i15
    obtain ⟨a, ha, _, _, hfill⟩ := InitAlgorithms.defaultColors_spec
      (sampleAlgo name cr [(10, 10, 10), (10, 10, 10), (200, 1, 1)] i7 i15) (by
        show ((3 : Nat) : Int) ≤ 256
        decide)
    have hu : InitAlgorithms.colorsUnset
        (sampleAlgo name cr [(10, 10, 10), (10, 10, 10), (200, 1, 1)] i7 i15) = true := rfl
    have hms : ∀ c : Fin 256, c.val < 3 → (c.val : Int) <
        (sampleAlgo name cr [(10, 10, 10), (10, 10, 10), (200, 1, 1)] i7 i15).maxstates := by
      intro c hc
      show (c.val : Int) < ((3 : Nat) : Int)
      omega
    obtain ⟨r0, g0, b0⟩ := (hfill hu 0).1 (hms 0 (by decide))
    obtain ⟨r1, g1, b1⟩ := (hfill hu 1).1 (hms 1 (by decide))
    obtain ⟨r2, g2, b2⟩ := (hfill hu 2).1 (hms 2 (by decide))
    obtain ⟨⟨p0, p1, p2⟩, ⟨p3, p4, p5⟩, ⟨p6, p7, p8⟩⟩ := default_colors_first
    have e0 : some (a.defr 0) = some 255 := r0.symm.trans p0
    have e1 : some (a.defg 0) = some 127 := g0.symm.trans p1
    have e2 : some (a.defb 0) = some 0 := b0.symm.trans p2
    have e3 : some (a.defr 1) = some 0 := r1.symm.trans p3
    have e4 : some (a.defg 1) = some 255 := g1.symm.trans p4
    have e5 : some (a.defb 1) = some 127 := b1.symm.trans p5
    have e6 : some (a.defr 2) = some 127 := r2.symm.trans p6
    have e7 : some (a.defg 2) = some 0 := g2.symm.trans p7
    have e8 : some (a.defb 2) = some 255 := b2.symm.trans p8
    refine ⟨a, ha, ?_, ?_, ?_⟩
    · rw [Option.some.inj e0, Option.some.inj e1, Option.some.inj e2]
    · rw [Option.some.inj e3, Option.some.inj e4, Option.some.inj e5]
    · rw [Option.some.inj e6, Option.some.inj e7, Option.some.inj e8]

/-- Witness for C2: a pass over one descriptor whose first two default colours agree. -/
theorem fallback_iff_first_two_equal_witness :
    ∃ reg, InitAlgorithms.pass 100
        [sampleAlgo (some "QuickLife") (some (some ⟨0, []⟩))
          [(10, 10, 10), (10, 10, 10), (200, 1, 1)] none none] = .done reg ∧
      ∃ ad', reg.algoinfo[0]? = some ad' ∧
        ∀ c : Fin 256, c.val < 3 →
          default_colors[3 * c.val]? = some (ad'.defr c) ∧
          default_colors[3 * c.val + 1]? = some (ad'.defg c) ∧
          default_colors[3 * c.val + 2]? = some (ad'.defb c) := by
  obtain ⟨reg, hreg⟩ := InitAlgorithms.loop_total 100
    [sampleAlgo (some "QuickLife") (some (some ⟨0, []⟩))
      [(10, 10, 10), (10, 10, 10), (200, 1, 1)] none none] 0 [] []
    (by
      intro ad had
      rw [List.mem_singleton] at had
      subst had
      exact sampleAlgo_accepted _ _ _ _ _ (by decide))
  obtain ⟨ad', hget, _, hfill⟩ :=
    fallback_iff_first_two_equal.1 100 _ reg hreg 0 (by decide)
  refine ⟨reg, hreg, ad', hget, fun c hc => hfill rfl c ?_⟩
  show (c.val : Int) < ((3 : Nat) : Int)
  omega

/-- C3: when the default colour fallback triggers for a descriptor with `maxstates = n`
(within the 256 entries of its colour arrays), every state `c` in `0..n-1` gets the default
colour `(default_colors[3c], default_colors[3c+1], default_colors[3c+2])`: the first `n`
consecutive RGB triples of the table, read from its first byte, whatever the backend had
declared for those states.  This holds for the fallback step and for the descriptor that a
round of the loop of `InitAlgorithms` leaves. -/
theorem fallback_fills_from_table (ad : AlgoData) (h256 : ad.maxstates ≤ 256)
    (htrig : (ad.defr 0, ad.defg 0, ad.defb 0) = (ad.defr 1, ad.defg 1, ad.defb 1)) :
    (∃ a, InitAlgorithms.defaultColors ad = .ok a ∧
      ∀ c : Fin 256, (c.val : Int) < ad.maxstates →
        default_colors[3 * c.val]? = some (a.defr c) ∧
        default_colors[3 * c.val + 1]? = some (a.defg c) ∧
        default_colors[3 * c.val + 2]? = some (a.defb c)) ∧
    (∀ (ID_ALGO0 : Int) (i : Nat) (m m' : wxMenu) (ad' : AlgoData),
      InitAlgorithms.body ID_ALGO0 i ad m = .ok (ad', m') →
      ∀ c : Fin 256, (c.val : Int) < ad.maxstates →
        default_colors[3 * c.val]? = some (ad'.defr c) ∧
        default_colors[3 * c.val + 1]? = some (ad'.defg c) ∧
        default_colors[3 * c.val + 2]? = some (ad'.defb c)) := by
  have hu : InitAlgorithms.colorsUnset ad = true := by
    simp only [Prod.mk.injEq] at htrig
    simp [InitAlgorithms.colorsUnset, htrig.1, htrig.2.1, htrig.2.2]
  constructor
  · obtain ⟨a, ha, _, _, hfill⟩ := InitAlgorithms.defaultColors_spec ad h256
    exact ⟨a, ha, fun c hc => ((hfill hu) c).1 hc⟩
  · intro ID_ALGO0 i m m' ad' hb c hc
    obtain ⟨_, _, _, _, _, hfill, _⟩ := InitAlgorithms.body_ok ID_ALGO0 i ad ad' m m' hb
    exact ((hfill hu) c).1 hc

/-- Witness for C3: three declared states, the first two of the same colour. -/
theorem fallback_fills_from_table_witness :
    (sampleAlgo (some "QuickLife") (some (some ⟨0, []⟩))
        [(10, 10, 10), (10, 10, 10), (200, 1, 1)] none none).maxstates ≤ 256 ∧
    ∃ a, InitAlgorithms.defaultColors
        (sampleAlgo (some "QuickLife") (some (some ⟨0, []⟩))
          [(10, 10, 10), (10, 10, 10), (200, 1, 1)] none none) = .ok a ∧
      ∀ c : Fin 256, (c.val : Int) < 3 →
        default_colors[3 * c.val]? = some (a.defr c) ∧
        default_colors[3 * c.val + 1]? = some (a.defg c) ∧
        default_colors[3 * c.val + 2]? = some (a.defb c) :=
  ⟨by decide,
    (fallback_fills_from_table
      (sampleAlgo (some "QuickLife") (some (some ⟨0, []⟩))
        [(10, 10, 10), (10, 10, 10), (200, 1, 1)] none none) (by decide) rfl).1⟩

/-- C4: after the pass the status colour of the descriptor at index `i` is entry `i % 9` of
the table (255,255,206), (226,250,248), (255,233,233), (225,255,225), (243,225,255),
(255,220,180), (200,255,255), (200,200,200), (255,255,255).  It depends on the index only:
two passes over any two descriptor lists give the same colour at the same index.  The nine
entries are pairwise distinct, and indices `i` and `i + 9` receive the same colour. -/
theorem status_colour_by_index (ID_ALGO0 : Int) (algoinfo : List AlgoData) (reg : Registry)
    (h : InitAlgorithms.pass ID_ALGO0 algoinfo = .done reg) :
    (∀ i, i < algoinfo.length → ∃ ad', reg.algoinfo[i]? = some ad' ∧
      ([⟨255, 255, 206⟩, ⟨226, 250, 248⟩, ⟨255, 233, 233⟩, ⟨225, 255, 225⟩, ⟨243, 225, 255⟩,
        ⟨255, 220, 180⟩, ⟨200, 255, 255⟩, ⟨200, 200, 200⟩, ⟨255, 255, 255⟩]
          : List wxColour)[i % 9]? = some ad'.statusrgb) ∧
    (∀ (ID_ALGO0' : Int) (algoinfo' : List AlgoData) (reg' : Registry),
      InitAlgorithms.pass ID_ALGO0' algoinfo' = .done reg' →
      ∀ (i : Nat) (a b : AlgoData), reg.algoinfo[i]? = some a → reg'.algoinfo[i]? = some b →
        a.statusrgb = b.statusrgb) ∧
    ([⟨255, 255, 206⟩, ⟨226, 250, 248⟩, ⟨255, 233, 233⟩, ⟨225, 255, 225⟩, ⟨243, 225, 255⟩,
        ⟨255, 220, 180⟩, ⟨200, 255, 255⟩, ⟨200, 200, 200⟩, ⟨255, 255, 255⟩]
          : List wxColour).Nodup ∧
    (∀ (i : Nat) (a b : AlgoData), reg.algoinfo[i]? = some a →
      reg.algoinfo[i + 9]? = some b → a.statusrgb = b.statusrgb) := by
  refine ⟨?_, ?_, by decide, ?_⟩
  · intro i hi
    obtain ⟨hlen, _⟩ := InitAlgorithms.pass_done ID_ALGO0 algoinfo reg h
    have hi' : i < reg.algoinfo.length := by omega
    exact ⟨reg.algoinfo[i], List.getElem?_eq_getElem hi',
      InitAlgorithms.pass_done_status ID_ALGO0 algoinfo reg h i _
        (List.getElem?_eq_getElem hi')⟩
  · intro ID_ALGO0' algoinfo' reg' h' i a b ha hb
    have h1 := InitAlgorithms.pass_done_status ID_ALGO0 algoinfo reg h i a ha
    have h2 := InitAlgorithms.pass_done_status ID_ALGO0' algoinfo' reg' h' i b hb
    rw [h1] at h2
    exact Option.some.inj h2
  · intro i a b ha hb
    have h1 := InitAlgorithms.pass_done_status ID_ALGO0 algoinfo reg h i a ha
    have h2 := InitAlgorithms.pass_done_status ID_ALGO0 algoinfo reg h (i + 9) b hb
    rw [Nat.add_mod_right, h1] at h2
    exact Option.some.inj h2

/-- Witness for C4: a pass over ten descriptors. -/
theorem status_colour_by_index_witness :
    ∃ reg, InitAlgorithms.pass 100
        (List.replicate 10 (sampleAlgo (some "QuickLife") (some (some ⟨0, []⟩))
          [(10, 10, 10), (20, 20, 20)] none none)) = .done reg ∧
      ∀ (i : Nat) (a b : AlgoData), reg.algoinfo[i]? = some a →
        reg.algoinfo[i + 9]? = some b → a.statusrgb = b.statusrgb := by
  obtain ⟨reg, hreg⟩ := InitAlgorithms.loop_total 100
    (List.replicate 10 (sampleAlgo (some "QuickLife") (some (some ⟨0, []⟩))
      [(10, 10, 10), (20, 20, 20)] none none)) 0 [] []
    (by
      intro ad had
      rw [List.eq_of_mem_replicate had]
      exact sampleAlgo_accepted _ _ _ _ _ (by decide))
  exact ⟨reg, hreg, (status_colour_by_index 100 _ reg hreg).2.2.2⟩

/-- Counterexample to C5: the second of two registered descriptors lacks its creator; the
pass ends in `Fatal` with the menu entry of the first descriptor already appended. -/
theorem menu_empty_at_abort_counterexample :
    (sampleAlgo (some "HashLife") none [(10, 10, 10), (20, 20, 20)] none none).creator = none ∧
    ∃ msg reg, InitAlgorithms.pass 100
        [sampleAlgo (some "QuickLife") (some (some ⟨0, []⟩)) [(10, 10, 10), (20, 20, 20)]
            none none,
          sampleAlgo (some "HashLife") none [(10, 10, 10), (20, 20, 20)] none none] =
        .fatal msg reg ∧
      reg.algomenu = [⟨100, "QuickLife", true⟩] :=
  ⟨rfl, _, _, rfl, rfl⟩

/-- C5, amended: if some registered descriptor lacks a name or a creator (all descriptors
having at most 256 states), the pass ends in the fatal error, and at that point the menu
holds exactly one check item for each descriptor before the first defective one, labelled
with its name and with id `ID_ALGO0 + index`; the menu is empty exactly when the defective
descriptor has index 0. -/
theorem menu_at_abort (ID_ALGO0 : Int) (algoinfo : List AlgoData)
    (h256 : ∀ ad ∈ algoinfo, ad.maxstates ≤ 256)
    (hdef : ∃ ad ∈ algoinfo, ad.algoName = none ∨ ad.creator = none) :
    ∃ (msg : String) (reg : Registry) (n : Nat), ∃ hn : n < algoinfo.length,
      InitAlgorithms.pass ID_ALGO0 algoinfo = .fatal msg reg ∧
      ((algoinfo[n]).algoName = none ∨ (algoinfo[n]).creator = none) ∧
      (∀ k (hk : k < n), (algoinfo[k]).algoName ≠ none ∧ (algoinfo[k]).creator ≠ none) ∧
      reg.algomenu.length = n ∧
      (∀ k (hk : k < n), ∃ name, (algoinfo[k]).algoName = some name ∧
        reg.algomenu[k]? = some ⟨ID_ALGO0 + (k : Int), name, true⟩) ∧
      (reg.algomenu = [] ↔ n = 0) := by
  obtain ⟨msg, reg, hrun⟩ := InitAlgorithms.loop_fatal_of ID_ALGO0 algoinfo 0 [] [] h256 hdef
  obtain ⟨n, items, hn, hbad, hmenu, hlen, hitems⟩ :=
    InitAlgorithms.loop_fatal ID_ALGO0 algoinfo 0 [] [] msg reg hrun
  simp only [List.nil_append] at hmenu
  refine ⟨msg, reg, n, hn, hrun, hbad, ?_, by rw [hmenu, hlen], ?_, ?_⟩
  · intro k hk
    obtain ⟨name, cr, h1, h2, _⟩ := hitems k hk
    rw [h1, h2]
    exact ⟨by simp, by simp⟩
  · intro k hk
    obtain ⟨name, cr, h1, _, h3⟩ := hitems k hk
    simp only [Nat.zero_add] at h3
    exact ⟨name, h1, by rw [hmenu]; exact h3⟩
  · rw [hmenu, ← hlen]
    exact List.length_eq_zero.symm

/-- Witness for C5, amended: the second of two descriptors lacks its creator. -/
theorem menu_at_abort_witness :
    ∃ (msg : String) (reg : Registry) (n : Nat),
      InitAlgorithms.pass 100
        [sampleAlgo (some "QuickLife") (some (some ⟨0, []⟩)) [(10, 10, 10), (20, 20, 20)]
            none none,
          sampleAlgo (some "HashLife") none [(10, 10, 10), (20, 20, 20)] none none] =
        .fatal msg reg ∧ reg.algomenu.length = n ∧ (reg.algomenu = [] ↔ n = 0) := by
  obtain ⟨msg, reg, n, _, hrun, _, _, hlen, _, hempty⟩ := menu_at_abort 100
    [sampleAlgo (some "QuickLife") (some (some ⟨0, []⟩)) [(10, 10, 10), (20, 20, 20)]
        none none,
      sampleAlgo (some "HashLife") none [(10, 10, 10), (20, 20, 20)] none none]
    (by
      intro ad had
      simp only [List.mem_cons, List.mem_singleton, List.not_mem_nil, or_false] at had
      rcases had with rfl | rfl <;> decide)
    ⟨_, List.mem_cons_of_mem _ (List.mem_singleton_self _), Or.inr rfl⟩
  exact ⟨msg, reg, n, hrun, hlen, hempty⟩

/-- Counterexample to C6: a descriptor whose name is the empty string passes the check of
the pass, which ends normally and leaves a descriptor with an empty name. -/
theorem pass_completes_iff_nonempty_counterexample :
    (sampleAlgo (some "") (some (some ⟨0, []⟩)) [(10, 10, 10), (20, 20, 20)] none
      none).algoName = some "" ∧
    ∃ reg, InitAlgorithms.pass 100
        [sampleAlgo (some "") (some (some ⟨0, []⟩)) [(10, 10, 10), (20, 20, 20)] none none] =
        .done reg ∧
      ∃ ad, reg.algoinfo = [ad] ∧ ad.algoName = some "" :=
  ⟨rfl, _, rfl, _, rfl, rfl⟩

/-- C6, amended: for registered descriptors with at most 256 states each, the pass ends
normally if and only if every descriptor has a non-null name and a non-null creator (an
empty string is a name), and ends in the fatal error if and only if some descriptor lacks
one of them; after a pass that ended normally every descriptor has a non-null name and a
non-null creator. -/
theorem pass_completes_iff (ID_ALGO0 : Int) (algoinfo : List AlgoData)
    (h256 : ∀ ad ∈ algoinfo, ad.maxstates ≤ 256) :
    ((∃ reg, InitAlgorithms.pass ID_ALGO0 algoinfo = .done reg) ↔
      ∀ ad ∈ algoinfo, ad.algoName ≠ none ∧ ad.creator ≠ none) ∧
    ((∃ msg reg, InitAlgorithms.pass ID_ALGO0 algoinfo = .fatal msg reg) ↔
      ∃ ad ∈ algoinfo, ad.algoName = none ∨ ad.creator = none) ∧
    (∀ reg, InitAlgorithms.pass ID_ALGO0 algoinfo = .done reg →
      ∀ ad ∈ reg.algoinfo, ad.algoName ≠ none ∧ ad.creator ≠ none) := by
  refine ⟨⟨?_, ?_⟩, ⟨?_, ?_⟩, ?_⟩
  · rintro ⟨reg, hrun⟩ ad hmem
    obtain ⟨k, hk, hget⟩ := List.getElem_of_mem hmem
    obtain ⟨_, hall⟩ := InitAlgorithms.pass_done ID_ALGO0 algoinfo reg hrun
    obtain ⟨ad', name, m1, _, hb⟩ := hall k hk
    obtain ⟨⟨nm, hname, _⟩, ⟨cr, hcr⟩, _⟩ := InitAlgorithms.body_ok ID_ALGO0 k _ ad' m1 _ hb
    rw [hget] at hname hcr
    rw [hname, hcr]
    exact ⟨by simp, by simp⟩
  · intro hall
    exact InitAlgorithms.loop_total ID_ALGO0 algoinfo 0 [] []
      (fun ad hmem => ⟨(hall ad hmem).1, (hall ad hmem).2, h256 ad hmem⟩)
  · rintro ⟨msg, reg, hrun⟩
    obtain ⟨n, _, hn, hbad, _⟩ := InitAlgorithms.loop_fatal ID_ALGO0 algoinfo 0 [] [] msg reg hrun
    exact ⟨algoinfo[n], List.getElem_mem hn, hbad⟩
  · intro hdef
    exact InitAlgorithms.loop_fatal_of ID_ALGO0 algoinfo 0 [] [] h256 hdef
  · intro reg hrun ad' hmem
    obtain ⟨k, ad, m, m', hb⟩ := InitAlgorithms.pass_done_mem ID_ALGO0 algoinfo reg hrun ad' hmem
    obtain ⟨⟨nm, hname, _⟩, ⟨cr, hcr⟩, _, ⟨c, _, hf⟩, _⟩ :=
      InitAlgorithms.body_ok ID_ALGO0 k ad ad' m m' hb
    have h1 : ad'.algoName = ad.algoName := by rw [hf]
    have h2 : ad'.creator = ad.creator := by rw [hf]
    rw [h1, h2, hname, hcr]
    exact ⟨by simp, by simp⟩

/-- Witness for C6, amended: one descriptor with name and creator. -/
theorem pass_completes_iff_witness :
    (∃ reg, InitAlgorithms.pass 100
        [sampleAlgo (some "QuickLife") (some (some ⟨0, []⟩)) [(10, 10, 10), (20, 20, 20)]
          none none] = .done reg) ↔
      ∀ ad ∈ [sampleAlgo (some "QuickLife") (some (some ⟨0, []⟩)) [(10, 10, 10), (20, 20, 20)]
          none none], ad.algoName ≠ none ∧ ad.creator ≠ none :=
  (pass_completes_iff 100
    [sampleAlgo (some "QuickLife") (some (some ⟨0, []⟩)) [(10, 10, 10), (20, 20, 20)]
      none none]
    (by
      intro ad had
      rw [List.mem_singleton] at had
      subst had
      decide)).1

/-- C7: the icon completion step as a function of what the backend supplied.  Only a 15x15
table: the 7x7 table becomes the 15x15 table rescaled to size 7, the 15x15 table is
unchanged.  Only a 7x7 table: the 15x15 table becomes the 7x7 table rescaled to size 15, the
7x7 table is unchanged.  Both: both unchanged.  Neither: both stay absent.  After a pass
that ends normally every descriptor carries the tables this step computes from the ones
registered. -/
theorem icon_completion_policy :
    (∀ (ad : AlgoData) (t15 : IconTable),
      (InitAlgorithms.scaleIcons { ad with icons7x7 := none, icons15x15 := some t15 }).icons7x7 =
          ScaleIconBitmaps (some t15) 7 ∧
      (InitAlgorithms.scaleIcons
          { ad with icons7x7 := none, icons15x15 := some t15 }).icons15x15 = some t15) ∧
    (∀ (ad : AlgoData) (t7 : IconTable),
      (InitAlgorithms.scaleIcons { ad with icons7x7 := some t7, icons15x15 := none }).icons15x15 =
          ScaleIconBitmaps (some t7) 15 ∧
      (InitAlgorithms.scaleIcons
          { ad with icons7x7 := some t7, icons15x15 := none }).icons7x7 = some t7) ∧
    (∀ (ad : AlgoData) (t7 t15 : IconTable),
      (InitAlgorithms.scaleIcons
          { ad with icons7x7 := some t7, icons15x15 := some t15 }).icons7x7 = some t7 ∧
      (InitAlgorithms.scaleIcons
          { ad with icons7x7 := some t7, icons15x15 := some t15 }).icons15x15 = some t15) ∧
    (∀ ad : AlgoData,
      (InitAlgorithms.scaleIcons { ad with icons7x7 := none, icons15x15 := none }).icons7x7 =
          none ∧
      (InitAlgorithms.scaleIcons { ad with icons7x7 := none, icons15x15 := none }).icons15x15 =
          none) ∧
    (∀ (ID_ALGO0 : Int) (algoinfo : List AlgoData) (reg : Registry),
      InitAlgorithms.pass ID_ALGO0 algoinfo = .done reg →
      ∀ (k : Nat) (hk : k < algoinfo.length), ∃ ad', reg.algoinfo[k]? = some ad' ∧
        ad'.icons7x7 = (InitAlgorithms.scaleIcons (algoinfo[k])).icons7x7 ∧
        ad'.icons15x15 = (InitAlgorithms.scaleIcons (algoinfo[k])).icons15x15) := by
  refine ⟨fun _ _ => ⟨rfl, rfl⟩, fun _ _ => ⟨rfl, rfl⟩, fun _ _ _ => ⟨rfl, rfl⟩,
    fun _ => ⟨rfl, rfl⟩, ?_⟩
  intro ID_ALGO0 algoinfo reg h k hk
  obtain ⟨_, hall⟩ := InitAlgorithms.pass_done ID_ALGO0 algoinfo reg h
  obtain ⟨ad', name, m1, hget, hb⟩ := hall k hk
  obtain ⟨_, _, _, ⟨c, _, hf⟩, _⟩ := InitAlgorithms.body_ok ID_ALGO0 k _ ad' m1 _ hb
  refine ⟨ad', hget, ?_, ?_⟩
  · rw [InitAlgorithms.scaleIcons_spec, hf]
  · rw [InitAlgorithms.scaleIcons_spec, hf]

/-- Witness for C7: a pass over a descriptor with 15x15 icons only. -/
theorem icon_completion_policy_witness :
    ∃ reg, InitAlgorithms.pass 100
        [sampleAlgo (some "QuickLife") (some (some ⟨0, []⟩)) [(10, 10, 10), (20, 20, 20)] none
          (some (sampleIcons 15))] = .done reg ∧
      ∃ ad', reg.algoinfo[0]? = some ad' ∧
        ad'.icons7x7 = ScaleIconBitmaps (some (sampleIcons 15)) 7 ∧
        ad'.icons15x15 = some (sampleIcons 15) := by
  obtain ⟨reg, hreg⟩ := InitAlgorithms.loop_total 100
    [sampleAlgo (some "QuickLife") (some (some ⟨0, []⟩)) [(10, 10, 10), (20, 20, 20)] none
      (some (sampleIcons 15))] 0 [] []
    (by
      intro ad had
      rw [List.mem_singleton] at had
      subst had
      exact sampleAlgo_accepted _ _ _ _ _ (by decide))
  obtain ⟨ad', hget, h7, h15⟩ := icon_completion_policy.2.2.2.2 100 _ reg hreg 0 (by decide)
  exact ⟨reg, hreg, ad', hget, h7, h15⟩

/-- C8: `ScaleIconBitmaps` applied to a present table returns a 256-slot table in which slot
`i` is present exactly when source slot `i` is, every present slot being the source image
scaled to `size` x `size`; applied to an absent table it returns an absent table.  So for a
backend that supplied only a 15x15 strip of 4 square images the derived 7x7 table is present
at states 1 to 4 only, each a 7x7 image, and that is the table the descriptor has after a
round of the loop of `InitAlgorithms`. -/
theorem rescale_keeps_slots :
    (∀ (src : IconTable) (size : Int), ∃ t, ScaleIconBitmaps (some src) size = some t ∧
      ∀ i : Fin 256, ((t i).isSome ↔ (src i).isSome) ∧
        t i = (src i).map (fun b => b.scaled size size) ∧
        ∀ b, t i = some b → b.GetWidth = size ∧ b.GetHeight = size) ∧
    (∀ size : Int, ScaleIconBitmaps none size = none) ∧
    (∀ (ad : AlgoData) (rows : List String), ∃ ad1 t7,
      AlgoData.createIconBitmaps { ad with icons7x7 := none, icons15x15 := none } 15
          (some ⟨15, 60, rows⟩) = .ok ad1 ∧
      ad1.icons7x7 = none ∧
      (InitAlgorithms.scaleIcons ad1).icons7x7 = some t7 ∧
      (∀ j : Fin 256, ((t7 j).isSome ↔ (1 ≤ j.val ∧ j.val ≤ 4)) ∧
        ∀ b, t7 j = some b → b.GetWidth = 7 ∧ b.GetHeight = 7) ∧
      (∀ (ID_ALGO0 : Int) (i : Nat) (m m' : wxMenu) (ad' : AlgoData),
        InitAlgorithms.body ID_ALGO0 i ad1 m = .ok (ad', m') → ad'.icons7x7 = some t7)) := by
  have hscale : ∀ (src : IconTable) (size : Int), ∃ t, ScaleIconBitmaps (some src) size = some t ∧
      ∀ i : Fin 256, ((t i).isSome ↔ (src i).isSome) ∧
        t i = (src i).map (fun b => b.scaled size size) ∧
        ∀ b, t i = some b → b.GetWidth = size ∧ b.GetHeight = size := by
    intro src size
    refine ⟨_, rfl, fun i => ?_⟩
    cases hsrc : src i with
    | none => simp [hsrc]
    | some b0 =>
      refine ⟨by simp [hsrc], by simp [hsrc], ?_⟩
      intro b hb
      simp only [hsrc, Option.some.injEq] at hb
      subst hb
      exact ⟨rfl, rfl⟩
  refine ⟨hscale, fun _ => rfl, ?_⟩
  intro ad rows
  obtain ⟨t15, ht15, hspec⟩ := CreateIconBitmaps_strip ⟨15, 60, rows⟩ 4
    (show (0 : Int) < 15 by decide) (show (60 : Int) = ((4 : Nat) : Int) * 15 by decide)
  obtain ⟨t7, ht7, hslots⟩ := hscale t15 7
  have h7 : (InitAlgorithms.scaleIcons
      { ad with icons7x7 := none, icons15x15 := some t15 }).icons7x7 = some t7 := ht7
  refine ⟨{ ad with icons7x7 := none, icons15x15 := some t15 }, t7, ?_, rfl, h7, ?_, ?_⟩
  · simp [AlgoData.createIconBitmaps, ht15]
  · intro j
    obtain ⟨hsome, _, hsize⟩ := hslots j
    refine ⟨?_, hsize⟩
    rw [hsome, hspec j]
    have hmin : min 4 255 = 4 := by decide
    rw [hmin]
    by_cases hj : 1 ≤ j.val ∧ j.val ≤ 4
    · simp [hj]
    · simp [hj]
  · intro ID_ALGO0 i m m' ad' hb
    obtain ⟨_, _, _, ⟨c, _, hf⟩, _⟩ := InitAlgorithms.body_ok ID_ALGO0 i _ ad' m m' hb
    rw [← h7, InitAlgorithms.scaleIcons_spec, hf]

/-- C9: `CreateIconBitmaps` on a strip of width `w > 0` and height `k * w` returns a
256-slot table whose slot 0 is absent, whose slot `i + 1` for each extracted index `i`
(`i < k`, as far as the table reaches) is the `w` x `w` square sub-image at vertical offset
`i * w` of the strip, and whose slots beyond the last extracted state are absent. -/
theorem slice_strip_squares (data : Xpm) (k : Nat) (hw : 0 < data.width)
    (hh : data.height = (k : Int) * data.width) :
    ∃ t, CreateIconBitmaps (some data) = .ok (some t) ∧
      t 0 = none ∧
      (∀ (i : Nat) (hi : i + 1 < 256), i < k →
        t ⟨i + 1, hi⟩ = some ((wxBitmap.ofXpm data ⟨0, 0, 0⟩).sub 0 ((i : Int) * data.width)
          data.width data.width)) ∧
      (∀ j : Fin 256, min k 255 < j.val → t j = none) ∧
      (∀ (j : Fin 256) (b : wxBitmap), t j = some b →
        b.GetWidth = data.width ∧ b.GetHeight = data.width) := by
  obtain ⟨t, ht, hspec⟩ := CreateIconBitmaps_strip data k hw hh
  refine ⟨t, ht, ?_, ?_, ?_, ?_⟩
  · rw [hspec 0]
    simp
  · intro i hi hik
    rw [hspec ⟨i + 1, hi⟩]
    have hcond : 1 ≤ i + 1 ∧ i + 1 ≤ min k 255 := by
      refine ⟨by omega, ?_⟩
      rw [Nat.le_min]
      omega
    simp only [hcond, and_self, if_true, Nat.add_sub_cancel]
  · intro j hj
    rw [hspec j]
    have hcond : ¬ (1 ≤ j.val ∧ j.val ≤ min k 255) := by omega
    rw [if_neg hcond]
  · intro j b hb
    rw [hspec j] at hb
    split at hb
    · cases hb
      exact ⟨rfl, rfl⟩
    · cases hb

/-- Witness for C9: a 15 x 60 strip. -/
theorem slice_strip_squares_witness :
    ∃ t, CreateIconBitmaps (some ⟨15, 60, []⟩) = .ok (some t) ∧
      t 0 = none ∧
      (∀ (i : Nat) (hi : i + 1 < 256), i < 4 →
        t ⟨i + 1, hi⟩ = some ((wxBitmap.ofXpm ⟨15, 60, []⟩ ⟨0, 0, 0⟩).sub 0 ((i : Int) * 15)
          15 15)) ∧
      (∀ j : Fin 256, min 4 255 < j.val → t j = none) ∧
      (∀ (j : Fin 256) (b : wxBitmap), t j = some b → b.GetWidth = 15 ∧ b.GetHeight = 15) :=
  slice_strip_squares ⟨15, 60, []⟩ 4 (show (0 : Int) < 15 by decide)
    (show (60 : Int) = ((4 : Nat) : Int) * 15 by decide)

/-- Counterexample to C10: a strip of 300 squares (more than 254) yields 255 icons, the one
for state 255 among them, not 254. -/
theorem slice_cap_254_counterexample :
    ∃ t, CreateIconBitmaps (some ⟨15, 4500, []⟩) = .ok (some t) ∧
      t.numIcons = 255 ∧ (t 255).isSome = true := by
  obtain ⟨t, ht, hspec⟩ := CreateIconBitmaps_strip ⟨15, 4500, []⟩ 300
    (show (0 : Int) < 15 by decide) (show (4500 : Int) = ((300 : Nat) : Int) * 15 by decide)
  have hmin : min 300 255 = 255 := by decide
  rw [hmin] at hspec
  refine ⟨t, ht, ?_, ?_⟩
  · apply IconTable.numIcons_eq t 255 (le_refl _)
    intro j
    rw [hspec j]
    by_cases hj : 1 ≤ j.val ∧ j.val ≤ 255
    · simp [hj]
    · simp [hj]
  · rw [hspec 255]
    rfl

/-- C10, amended: `CreateIconBitmaps` extracts at most 255 states.  A strip of positive
width holding `k` squares yields `min k 255` icons, for the states 1 to `min k 255`; so a
strip with more than 255 squares yields exactly 255 icons (states 1 to 255) and the excess
images are dropped without notice. -/
theorem slice_cap_255 (data : Xpm) (k : Nat) (hw : 0 < data.width)
    (hh : data.height = (k : Int) * data.width) :
    ∃ t, CreateIconBitmaps (some data) = .ok (some t) ∧
      t.numIcons = min k 255 ∧
      (∀ j : Fin 256, (t j).isSome ↔ (1 ≤ j.val ∧ j.val ≤ min k 255)) ∧
      (255 < k → t.numIcons = 255 ∧ ∀ j : Fin 256, (t j).isSome ↔ 1 ≤ j.val) := by
  obtain ⟨t, ht, hspec⟩ := CreateIconBitmaps_strip data k hw hh
  have hslots : ∀ j : Fin 256, (t j).isSome ↔ (1 ≤ j.val ∧ j.val ≤ min k 255) := by
    intro j
    rw [hspec j]
    by_cases hj : 1 ≤ j.val ∧ j.val ≤ min k 255
    · simp [hj]
    · simp [hj]
  have hcount : t.numIcons = min k 255 :=
    IconTable.numIcons_eq t (min k 255) (Nat.min_le_right _ _) hslots
  refine ⟨t, ht, hcount, hslots, fun hk => ?_⟩
  have hmin : min k 255 = 255 := by omega
  refine ⟨by rw [hcount, hmin], fun j => ?_⟩
  rw [hslots j, hmin]
  have hj : j.val ≤ 255 := by omega
  exact ⟨fun h => h.1, fun h => ⟨h, hj⟩⟩

/-- Witness for C10, amended: a strip of 300 squares. -/
theorem slice_cap_255_witness :
    ∃ t, CreateIconBitmaps (some ⟨15, 4500, []⟩) = .ok (some t) ∧
      t.numIcons = min 300 255 ∧
      (∀ j : Fin 256, (t j).isSome ↔ (1 ≤ j.val ∧ j.val ≤ min 300 255)) ∧
      (255 < 300 → t.numIcons = 255 ∧ ∀ j : Fin 256, (t j).isSome ↔ 1 ≤ j.val) :=
  slice_cap_255 ⟨15, 4500, []⟩ 300 (show (0 : Int) < 15 by decide)
    (show (4500 : Int) = ((300 : Nat) : Int) * 15 by decide)

/-! ## Further facts about the icon strip, the fill loop and the menu -/

/-- A strip of negative width and non-negative height gives a table with no icon. -/
theorem CreateIconBitmaps_negative_width (data : Xpm) (hw : data.width < 0)
    (hh : 0 ≤ data.height) : CreateIconBitmaps (some data) = .ok (some IconTable.allNull) := by
  obtain ⟨t, ht, hspec⟩ := CreateIconBitmaps_some data (ne_of_lt hw) (by omega)
  have hdiv : Int.tdiv data.height data.width ≤ 0 := Int.tdiv_nonpos hh (le_of_lt hw)
  have hcount : (if Int.tdiv data.height data.width > 255 then 255
      else Int.tdiv data.height data.width).toNat = 0 := by
    split <;> omega
  have hall : t = IconTable.allNull := by
    funext k
    rw [hspec k, hcount]
    have hk : ¬ (1 ≤ k.val ∧ k.val ≤ 0) := by omega
    rw [if_neg hk]
    rfl
  rw [ht, hall]

/-- The division by the strip width overflows for height `INT_MIN` and width -1. -/
theorem CreateIconBitmaps_overflow (data : Xpm)
    (hov : data.height = -2147483648 ∧ data.width = -1) :
    CreateIconBitmaps (some data) = .error .overflow := by
  have hw : data.width ≠ 0 := by omega
  simp only [CreateIconBitmaps, cdiv, wxBitmap.GetWidth, wxBitmap.GetHeight, if_neg hw,
    if_pos hov]

/-- The division by the strip width is evaluated with a zero divisor exactly for width 0. -/
theorem CreateIconBitmaps_fault_iff (data : Xpm) :
    CreateIconBitmaps (some data) = .error .divByZero ↔ data.width = 0 := by
  constructor
  · intro h
    by_contra hw
    by_cases hov : data.height = -2147483648 ∧ data.width = -1
    · rw [CreateIconBitmaps_overflow data hov] at h
      cases h
    · obtain ⟨t, ht, _⟩ := CreateIconBitmaps_some data hw hov
      rw [ht] at h
      cases h
  · intro hw
    simp [CreateIconBitmaps, cdiv, wxBitmap.GetWidth, hw]

/-- The division by the strip width overflows exactly for height `INT_MIN` and width -1. -/
theorem CreateIconBitmaps_overflow_iff (data : Xpm) :
    CreateIconBitmaps (some data) = .error .overflow ↔
      (data.height = -2147483648 ∧ data.width = -1) := by
  constructor
  · intro h
    by_contra hov
    by_cases hw : data.width = 0
    · rw [(CreateIconBitmaps_fault_iff data).2 hw] at h
      cases h
    · obtain ⟨t, ht, _⟩ := CreateIconBitmaps_some data hw hov
      rw [ht] at h
      cases h
  · exact CreateIconBitmaps_overflow data

/-- Before round `n` of the fill loop the pointer `rgbptr` is `3 * n` bytes into the
table. -/
theorem InitAlgorithms.fill_offset (ad : AlgoData) (n : Nat) (hn : n ≤ 256) :
    ∃ a, forLoop InitAlgorithms.fillBody n 0 (0, ad) = .ok (3 * n, a) := by
  have h := forLoop_total InitAlgorithms.fillBody (fun j st => st.1 = 3 * j) n 0 (0, ad) rfl
    (by
      rintro j ⟨p, a⟩ _ hj hp
      simp only at hp
      subst hp
      obtain ⟨r, hr⟩ := default_colors.entry (3 * j) (by omega)
      obtain ⟨g, hg⟩ := default_colors.entry (3 * j + 1) (by omega)
      obtain ⟨b, hb⟩ := default_colors.entry (3 * j + 2) (by omega)
      refine ⟨_, InitAlgorithms.fillBody_ok j (3 * j) a (by omega) r g b hr hg hb, ?_⟩
      show 3 * j + 3 = 3 * (j + 1)
      omega)
  obtain ⟨⟨p, a⟩, hrun, hp⟩ := h
  simp only [Nat.zero_add] at hp
  subst hp
  exact ⟨a, hrun⟩

/-- After a pass that ends normally the menu holds, at position `k`, the check item of the
descriptor registered at index `k`. -/
theorem InitAlgorithms.pass_done_menu (ID_ALGO0 : Int) (algoinfo : List AlgoData)
    (reg : Registry) (h : InitAlgorithms.pass ID_ALGO0 algoinfo = .done reg) :
    reg.algomenu.length = algoinfo.length ∧
    ∀ k (hk : k < algoinfo.length), ∃ name, (algoinfo[k]).algoName = some name ∧
      reg.algomenu[k]? = some ⟨ID_ALGO0 + (k : Int), name, true⟩ := by
  obtain ⟨outs, items, _, hmenu, _, hli, hk⟩ :=
    InitAlgorithms.loop_done ID_ALGO0 algoinfo 0 [] [] reg h
  simp only [List.nil_append] at hmenu
  refine ⟨by rw [hmenu, hli], fun k hk' => ?_⟩
  obtain ⟨ad', name, m1, _, hitem, hb⟩ := hk k hk'
  simp only [Nat.zero_add] at hitem hb
  obtain ⟨⟨name', hname', hm'⟩, _⟩ := InitAlgorithms.body_ok ID_ALGO0 k _ ad' m1 _ hb
  have hsame : name = name' := by
    simp only [wxMenu.AppendCheckItem, List.append_cancel_left_eq, List.cons.injEq,
      wxMenuItem.mk.injEq, and_true, true_and] at hm'
    exact hm'
  subst hsame
  exact ⟨name, hname', by rw [hmenu]; exact hitem⟩

/-! ## Claims, continued -/

/-- Counterexample to C11: for a strip of width 0 the division of the strip height by the
width is evaluated with a zero divisor and no table is returned; and a negative width alone
does not give an empty result: with width -1 and height -3 the quotient is 3 and the slots
of states 1 to 3 are filled, and with width -1 and height `INT_MIN` the division itself
overflows. -/
theorem slice_zero_width_counterexample :
    (CreateIconBitmaps (some ⟨0, 300, []⟩) = .error .divByZero ∧
      cdiv 300 (wxBitmap.ofXpm ⟨0, 300, []⟩ ⟨0, 0, 0⟩).GetWidth = .error .divByZero) ∧
    (∃ t, CreateIconBitmaps (some ⟨-1, -3, []⟩) = .ok (some t) ∧
      (t 1).isSome = true ∧ (t 2).isSome = true ∧ (t 3).isSome = true) ∧
    CreateIconBitmaps (some ⟨-1, -2147483648, []⟩) = .error .overflow :=
  ⟨⟨rfl, rfl⟩, ⟨_, rfl, rfl, rfl, rfl⟩, rfl⟩

/-- C11, amended: `CreateIconBitmaps` on a strip whose width is negative and whose height
is not negative yields an empty result, no icon in any slot, instead of failing.  A width
of 0 is not guarded against: the division of the strip height by the width is evaluated
with a zero divisor exactly when the width is 0; and the division overflows exactly for
height `INT_MIN` and width -1. -/
theorem slice_negative_width_empty (data : Xpm) :
    (data.width < 0 → 0 ≤ data.height →
      CreateIconBitmaps (some data) = .ok (some IconTable.allNull) ∧
      IconTable.allNull.numIcons = 0 ∧ ∀ k : Fin 256, IconTable.allNull k = none) ∧
    (CreateIconBitmaps (some data) = .error .divByZero ↔ data.width = 0) ∧
    (CreateIconBitmaps (some data) = .error .overflow ↔
      (data.height = -2147483648 ∧ data.width = -1)) := by
  refine ⟨fun hw hh => ⟨CreateIconBitmaps_negative_width data hw hh, ?_, fun _ => rfl⟩,
    CreateIconBitmaps_fault_iff data, CreateIconBitmaps_overflow_iff data⟩
  have h0 := IconTable.numIcons_eq IconTable.allNull 0 (by decide) (fun k => by
    have hk : ¬ (1 ≤ k.val ∧ k.val ≤ 0) := by omega
    exact ⟨fun hsome => by simp [IconTable.allNull] at hsome, fun h => absurd h hk⟩)
  exact h0

/-- Witness for C11, amended: a strip of width -1 and height 300. -/
theorem slice_negative_width_empty_witness :
    CreateIconBitmaps (some ⟨-1, 300, []⟩) = .ok (some IconTable.allNull) ∧
    IconTable.allNull.numIcons = 0 ∧ ∀ k : Fin 256, IconTable.allNull k = none :=
  (slice_negative_width_empty ⟨-1, 300, []⟩).1 (show (-1 : Int) < 0 by decide)
    (show (0 : Int) ≤ 300 by decide)

/-- C12: after the pass, for every descriptor and every state `c` below `maxstates` the
current colour `(algor[c], algog[c], algob[c])` equals the default colour
`(defr[c], defg[c], defb[c])` the descriptor has after the fallback, and the current
gradient flag and the two current gradient end colours equal the declared defaults
`defgradient`, `(defr1, defg1, defb1)`, `(defr2, defg2, defb2)`, which are those the backend
registered. -/
theorem current_colours_snapshot (ID_ALGO0 : Int) (algoinfo : List AlgoData) (reg : Registry)
    (h : InitAlgorithms.pass ID_ALGO0 algoinfo = .done reg) :
    ∀ (k : Nat) (hk : k < algoinfo.length), ∃ ad', reg.algoinfo[k]? = some ad' ∧
      (∀ c : Fin 256, (c.val : Int) < ad'.maxstates →
        ad'.algor c = ad'.defr c ∧ ad'.algog c = ad'.defg c ∧ ad'.algob c = ad'.defb c) ∧
      ad'.gradient = ad'.defgradient ∧
      ad'.fromrgb = ⟨ad'.defr1, ad'.defg1, ad'.defb1⟩ ∧
      ad'.torgb = ⟨ad'.defr2, ad'.defg2, ad'.defb2⟩ ∧
      ad'.maxstates = (algoinfo[k]).maxstates ∧
      ad'.defgradient = (algoinfo[k]).defgradient ∧
      (ad'.defr1, ad'.defg1, ad'.defb1) =
        ((algoinfo[k]).defr1, (algoinfo[k]).defg1, (algoinfo[k]).defb1) ∧
      (ad'.defr2, ad'.defg2, ad'.defb2) =
        ((algoinfo[k]).defr2, (algoinfo[k]).defg2, (algoinfo[k]).defb2) := by
  intro k hk
  obtain ⟨_, hall⟩ := InitAlgorithms.pass_done ID_ALGO0 algoinfo reg h
  obtain ⟨ad', name, m1, hget, hb⟩ := hall k hk
  obtain ⟨_, _, _, ⟨c, _, hf⟩, _, _, hsnap⟩ := InitAlgorithms.body_ok ID_ALGO0 k _ ad' m1 _ hb
  have hms : ad'.maxstates = (algoinfo[k]).maxstates := by rw [hf]
  have hgr : ad'.gradient = (algoinfo[k]).defgradient := by rw [hf]
  have hdg : ad'.defgradient = (algoinfo[k]).defgradient := by rw [hf]
  have hfrom : ad'.fromrgb = ⟨(algoinfo[k]).defr1, (algoinfo[k]).defg1, (algoinfo[k]).defb1⟩ := by
    rw [hf]
  have hto : ad'.torgb = ⟨(algoinfo[k]).defr2, (algoinfo[k]).defg2, (algoinfo[k]).defb2⟩ := by
    rw [hf]
  have h1 : (ad'.defr1, ad'.defg1, ad'.defb1) =
      ((algoinfo[k]).defr1, (algoinfo[k]).defg1, (algoinfo[k]).defb1) := by rw [hf]
  have h2 : (ad'.defr2, ad'.defg2, ad'.defb2) =
      ((algoinfo[k]).defr2, (algoinfo[k]).defg2, (algoinfo[k]).defb2) := by rw [hf]
  refine ⟨ad', hget, fun c hc => (hsnap c).1 (by rw [← hms]; exact hc), ?_, ?_, ?_, hms, hdg,
    h1, h2⟩
  · rw [hgr, hdg]
  · simp only [Prod.mk.injEq] at h1
    rw [hfrom, h1.1, h1.2.1, h1.2.2]
  · simp only [Prod.mk.injEq] at h2
    rw [hto, h2.1, h2.2.1, h2.2.2]

/-- Witness for C12: a pass over one descriptor with three states. -/
theorem current_colours_snapshot_witness :
    ∃ reg, InitAlgorithms.pass 100
        [sampleAlgo (some "QuickLife") (some (some ⟨0, []⟩))
          [(10, 10, 10), (20, 20, 20), (200, 1, 1)] none none] = .done reg ∧
      ∃ ad', reg.algoinfo[0]? = some ad' ∧
        (∀ c : Fin 256, (c.val : Int) < ad'.maxstates →
          ad'.algor c = ad'.defr c ∧ ad'.algog c = ad'.defg c ∧ ad'.algob c = ad'.defb c) ∧
        ad'.gradient = ad'.defgradient := by
  obtain ⟨reg, hreg⟩ := InitAlgorithms.loop_total 100
    [sampleAlgo (some "QuickLife") (some (some ⟨0, []⟩))
      [(10, 10, 10), (20, 20, 20), (200, 1, 1)] none none] 0 [] []
    (by
      intro ad had
      rw [List.mem_singleton] at had
      subst had
      exact sampleAlgo_accepted _ _ _ _ _ (by decide))
  obtain ⟨ad', hget, hcol, hgr, _⟩ := current_colours_snapshot 100 _ reg hreg 0 (by decide)
  exact ⟨reg, hreg, ad', hget, hcol, hgr⟩

/-- C13: for every descriptor whose `maxstates` lies in 2..256 the default colour fallback
reads only bytes inside `default_colors`: the table holds 768 bytes (256 RGB triples), at
least `3 * maxstates`; in the round for state `c` the pointer stands at byte `3 * c` and the
three reads of that round succeed, so the fallback never takes the out-of-bounds branch and
ends normally. -/
theorem fallback_reads_inside_table (ad : AlgoData) (h2 : 2 ≤ ad.maxstates)
    (h256 : ad.maxstates ≤ 256) :
    default_colors.length = 768 ∧
    3 * ad.maxstates ≤ (default_colors.length : Int) ∧
    (∃ a, InitAlgorithms.defaultColors ad = .ok a) ∧
    (∀ c : Nat, (c : Int) < ad.maxstates →
      (∃ a, forLoop InitAlgorithms.fillBody c 0 (0, ad) = .ok (3 * c, a)) ∧
      3 * c + 2 < default_colors.length ∧
      ∃ r g b, default_colors.read (3 * c) = .ok r ∧ default_colors.read (3 * c + 1) = .ok g ∧
        default_colors.read (3 * c + 2) = .ok b) := by
  have _h2 := h2
  refine ⟨default_colors_length, ?_, ?_, ?_⟩
  · rw [default_colors_length]
    omega
  · obtain ⟨a, ha, _⟩ := InitAlgorithms.defaultColors_spec ad h256
    exact ⟨a, ha⟩
  · intro c hc
    have hc256 : c < 256 := by omega
    obtain ⟨r, hr⟩ := default_colors.entry (3 * c) (by omega)
    obtain ⟨g, hg⟩ := default_colors.entry (3 * c + 1) (by omega)
    obtain ⟨b, hb⟩ := default_colors.entry (3 * c + 2) (by omega)
    refine ⟨InitAlgorithms.fill_offset ad c (by omega), ?_, r, g, b,
      default_colors.read_ok hr, default_colors.read_ok hg, default_colors.read_ok hb⟩
    rw [default_colors_length]
    omega

/-- Witness for C13: a descriptor with three states. -/
theorem fallback_reads_inside_table_witness :
    default_colors.length = 768 ∧
    ∃ a, InitAlgorithms.defaultColors
      (sampleAlgo (some "QuickLife") (some (some ⟨0, []⟩))
        [(10, 10, 10), (10, 10, 10), (200, 1, 1)] none none) = .ok a :=
  ⟨(fallback_reads_inside_table
      (sampleAlgo (some "QuickLife") (some (some ⟨0, []⟩))
        [(10, 10, 10), (10, 10, 10), (200, 1, 1)] none none) (by decide) (by decide)).1,
    (fallback_reads_inside_table
      (sampleAlgo (some "QuickLife") (some (some ⟨0, []⟩))
        [(10, 10, 10), (10, 10, 10), (200, 1, 1)] none none) (by decide) (by decide)).2.2.1⟩

/-- C14: after a pass of `InitAlgorithms` that ended normally the algorithm menu contains
exactly one check item per registered descriptor, in index order: the item at position `i`
is checkable, is labelled with the name of the descriptor at index `i` and has the id
`ID_ALGO0 + i`. -/
theorem menu_item_per_descriptor (ID_ALGO0 : Int) (algoinfo : List AlgoData) (reg : Registry)
    (h : InitAlgorithms.pass ID_ALGO0 algoinfo = .done reg) :
    reg.algomenu.length = algoinfo.length ∧
    reg.algoinfo.length = algoinfo.length ∧
    ∀ (i : Nat) (hi : i < algoinfo.length), ∃ name ad',
      (algoinfo[i]).algoName = some name ∧
      reg.algoinfo[i]? = some ad' ∧ ad'.algoName = some name ∧
      reg.algomenu[i]? = some { id := ID_ALGO0 + (i : Int), label := name, checkable := true } := by
  obtain ⟨hlen, hitems⟩ := InitAlgorithms.pass_done_menu ID_ALGO0 algoinfo reg h
  obtain ⟨hlen', hall⟩ := InitAlgorithms.pass_done ID_ALGO0 algoinfo reg h
  refine ⟨hlen, hlen', fun i hi => ?_⟩
  obtain ⟨name, hname, hitem⟩ := hitems i hi
  obtain ⟨ad', _, m1, hget, hb⟩ := hall i hi
  obtain ⟨_, _, _, ⟨c, _, hf⟩, _⟩ := InitAlgorithms.body_ok ID_ALGO0 i _ ad' m1 _ hb
  have hn : ad'.algoName = (algoinfo[i]).algoName := by rw [hf]
  exact ⟨name, ad', hname, hget, by rw [hn, hname], hitem⟩

/-- Witness for C14: a pass over two descriptors. -/
theorem menu_item_per_descriptor_witness :
    ∃ reg, InitAlgorithms.pass 100
        [sampleAlgo (some "QuickLife") (some (some ⟨0, []⟩)) [(10, 10, 10), (20, 20, 20)]
            none none,
          sampleAlgo (some "HashLife") (some (some ⟨1, []⟩)) [(10, 10, 10), (20, 20, 20)]
            none none] = .done reg ∧
      reg.algomenu.length = 2 := by
  obtain ⟨reg, hreg⟩ := InitAlgorithms.loop_total 100
    [sampleAlgo (some "QuickLife") (some (some ⟨0, []⟩)) [(10, 10, 10), (20, 20, 20)]
        none none,
      sampleAlgo (some "HashLife") (some (some ⟨1, []⟩)) [(10, 10, 10), (20, 20, 20)]
        none none] 0 [] []
    (by
      intro ad had
      simp only [List.mem_cons, List.mem_singleton, List.not_mem_nil, or_false] at had
      rcases had with rfl | rfl <;> exact sampleAlgo_accepted _ _ _ _ _ (by decide))
  exact ⟨reg, hreg, (menu_item_per_descriptor 100 _ reg hreg).1⟩

/-! ## Registration -/

/-- A call of `tick` with the counter at `n`, inside the array: a new object with `id = n`
is made, its address is stored at `algoinfo[n]` and returned, the counter becomes `n + 1`,
and the other entries of `algoinfo` and the older objects stay as they are. -/
theorem AlgoData.tick_ok {MAX_ALGOS : Nat} (raw : AlgoData) (t : AlgoTable MAX_ALGOS) (n : Nat)
    (hn : t.nextAlgoId = (n : Int)) (hM : n < MAX_ALGOS) :
    AlgoData.tick raw t =
      .ok (t.heap.length,
        { nextAlgoId := ((n + 1 : Nat) : Int),
          heap := t.heap ++ [(AlgoData.new raw (n : Int)).1],
          pointers := Function.update t.pointers ⟨n, hM⟩ (some t.heap.length) }) := by
  have hneg : ¬ ((n : Int) < 0) := by omega
  simp [AlgoData.tick, AlgoData.new, staticAlgoInfo.new, CArray.writeAt, CArray.write, hn,
    hneg, hM]

/-- One registration with the counter at `n`, inside the array: the object made by `tick`,
filled in by the backend, is the one `algoinfo[n]` points to, and the counter becomes
`n + 1`. -/
theorem InitAlgorithms.register_ok {MAX_ALGOS : Nat} (backend : Backend)
    (t : AlgoTable MAX_ALGOS) (n : Nat) (hn : t.nextAlgoId = (n : Int)) (hM : n < MAX_ALGOS) :
    InitAlgorithms.register backend t =
      .ok { nextAlgoId := ((n + 1 : Nat) : Int),
            heap := t.heap ++
              [backend.doInitializeAlgoInfo (AlgoData.new backend.raw (n : Int)).1],
            pointers := Function.update t.pointers ⟨n, hM⟩ (some t.heap.length) } := by
  unfold InitAlgorithms.register
  rw [AlgoData.tick_ok backend.raw t n hn hM]
  simp only [List.getElem?_concat_length]
  rw [List.set_append_right _ _ (le_refl _)]
  simp

/-- A run of registrations that starts with counter and number of objects both at `n`, and
fits into the array, ends normally: counter and number of objects have grown by the number
of registrations, registration `j` has put the address `n + j` into `algoinfo[n + j]`, the
object at that address is the descriptor as its backend left it, and the older objects and
the other entries of `algoinfo` are as before. -/
theorem InitAlgorithms.registerAll_spec {MAX_ALGOS : Nat} :
    ∀ (bs : List Backend) (n : Nat) (t : AlgoTable MAX_ALGOS),
      t.nextAlgoId = (n : Int) → t.heap.length = n → n + bs.length ≤ MAX_ALGOS →
      ∃ t', InitAlgorithms.registerAll bs t = .ok t' ∧
        t'.nextAlgoId = ((n + bs.length : Nat) : Int) ∧
        t'.heap.length = n + bs.length ∧
        (∀ i : Fin MAX_ALGOS, t'.pointers i =
          if n ≤ i.val ∧ i.val < n + bs.length then some i.val else t.pointers i) ∧
        (∀ a : Nat, t'.heap[a]? =
          if a < n then t.heap[a]?
          else (bs[a - n]?).map
            (fun b => b.doInitializeAlgoInfo (AlgoData.new b.raw (a : Int)).1))
  | [], n, t, hn, hheap, _ => by
    refine ⟨t, rfl, by simpa using hn, by simpa using hheap, fun i => ?_, fun a => ?_⟩
    · have hi : ¬ (n ≤ i.val ∧ i.val < n + ([] : List Backend).length) := by
        simp only [List.length_nil, Nat.add_zero]
        omega
      rw [if_neg hi]
    · by_cases ha : a < n
      · rw [if_pos ha]
      · rw [if_neg ha]
        simp only [List.getElem?_nil, Option.map_none']
        exact List.getElem?_eq_none_iff.2 (by omega)
  | b :: bs, n, t, hn, hheap, hlen => by
    have hM : n < MAX_ALGOS := by
      simp only [List.length_cons] at hlen
      omega
    have hreg := InitAlgorithms.register_ok b t n hn hM
    obtain ⟨t', hrun, hnext, hlen', hptr, hobj⟩ := InitAlgorithms.registerAll_spec bs (n + 1)
      { nextAlgoId := ((n + 1 : Nat) : Int),
        heap := t.heap ++ [b.doInitializeAlgoInfo (AlgoData.new b.raw (n : Int)).1],
        pointers := Function.update t.pointers ⟨n, hM⟩ (some t.heap.length) } rfl
      (by simp [hheap])
      (by simp only [List.length_cons] at hlen; omega)
    refine ⟨t', by simp only [InitAlgorithms.registerAll, hreg, hrun], ?_, ?_, fun i => ?_,
      fun a => ?_⟩
    · rw [hnext]
      simp only [List.length_cons]
      congr 1
      omega
    · rw [hlen']
      simp only [List.length_cons]
      omega
    · rw [hptr i]
      simp only [List.length_cons]
      by_cases hi : i = ⟨n, hM⟩
      · subst hi
        have h1 : ¬ (n + 1 ≤ n ∧ n < n + 1 + bs.length) := by omega
        have h2 : n ≤ n ∧ n < n + (bs.length + 1) := by omega
        simp only [h1, h2, if_false, and_self, if_true, Function.update_same, hheap]
      · have hne : i.val ≠ n := fun h => hi (Fin.ext h)
        by_cases hin : n + 1 ≤ i.val ∧ i.val < n + 1 + bs.length
        · have h2 : n ≤ i.val ∧ i.val < n + (bs.length + 1) := by omega
          rw [if_pos hin, if_pos h2]
        · have h2 : ¬ (n ≤ i.val ∧ i.val < n + (bs.length + 1)) := by omega
          rw [if_neg hin, if_neg h2, Function.update_noteq hi]
    · rw [hobj a]
      by_cases ha : a < n
      · have ha1 : a < n + 1 := by omega
        rw [if_pos ha, if_pos ha1]
        exact List.getElem?_append_left (by omega)
      · rw [if_neg ha]
        by_cases han : a = n
        · subst han
          have ha1 : a < a + 1 := by omega
          rw [if_pos ha1]
          simp only [Nat.sub_self, List.getElem?_cons_zero, Option.map_some']
          rw [← hheap]
          exact List.getElem?_concat_length _ _
        · have ha1 : ¬ (a < n + 1) := by omega
          have hidx : a - n = (a - (n + 1)) + 1 := by omega
          rw [if_neg ha1, hidx, List.getElem?_cons_succ]

/-- Registrations from the start of the program: the state they leave. -/
theorem InitAlgorithms.registerAll_initial (MAX_ALGOS : Nat) (bs : List Backend)
    (hlen : bs.length ≤ MAX_ALGOS) :
    ∃ t, InitAlgorithms.registerAll bs (AlgoTable.initial MAX_ALGOS) = .ok t ∧
      NumAlgos t = (bs.length : Int) ∧
      (∀ (j : Nat) (hj : j < bs.length) (hM : j < MAX_ALGOS),
        t.algoinfo ⟨j, hM⟩ =
          some ((bs[j]).doInitializeAlgoInfo (AlgoData.new (bs[j]).raw (j : Int)).1)) ∧
      (∀ i : Fin MAX_ALGOS, bs.length ≤ i.val → t.algoinfo i = none) := by
  obtain ⟨t, hrun, hnext, _, hptr, hobj⟩ :=
    InitAlgorithms.registerAll_spec bs 0 (AlgoTable.initial MAX_ALGOS) rfl rfl (by omega)
  refine ⟨t, hrun, ?_, ?_, ?_⟩
  · show t.nextAlgoId = (bs.length : Int)
    rw [hnext]
    congr 1
    omega
  · intro j hj hM
    have hin : 0 ≤ j ∧ j < 0 + bs.length := by omega
    have hp : t.pointers ⟨j, hM⟩ = some j := by
      rw [hptr ⟨j, hM⟩, if_pos hin]
    have hnot : ¬ (j < 0) := by omega
    have ho : t.heap[j]? =
        some ((bs[j]).doInitializeAlgoInfo (AlgoData.new (bs[j]).raw (j : Int)).1) := by
      rw [hobj j, if_neg hnot]
      simp only [Nat.sub_zero, List.getElem?_eq_getElem hj, Option.map_some']
    simp only [AlgoTable.algoinfo, hp]
    exact ho
  · intro i hi
    have hout : ¬ (0 ≤ i.val ∧ i.val < 0 + bs.length) := by omega
    have hp : t.pointers i = none := by
      rw [hptr i, if_neg hout]
      rfl
    simp only [AlgoTable.algoinfo, hp]

/-- C15: registration through `AlgoData::tick` assigns dense zero-based indices in
registration order.  A call of `tick` with the counter at `n` stores the address of the
object it makes at `algoinfo[n]`, returns that same object, leaves every other entry of
`algoinfo` alone and moves `NumAlgos()` to `n + 1`.  After `k` registrations (that fit into
`algoinfo`) `NumAlgos()` is `k`, `algoinfo[j]` leads to the descriptor of registration `j`
as its backend filled it in, and the entries from `k` on are still NULL.  The registrations
of `InitAlgorithms` are exactly 7, and its first two, qlife and hlife, occupy indices 0 and
1 whatever the backends write into their descriptors. -/
theorem registration_dense_indices (MAX_ALGOS : Nat) :
    (∀ (raw : AlgoData) (t : AlgoTable MAX_ALGOS) (n : Nat) (hM : n < MAX_ALGOS),
      t.nextAlgoId = (n : Int) →
      ∃ r t', AlgoData.tick raw t = .ok (r, t') ∧
        t'.pointers ⟨n, hM⟩ = some r ∧
        t'.heap[r]? = some (AlgoData.new raw (n : Int)).1 ∧
        t'.algoinfo ⟨n, hM⟩ = some (AlgoData.new raw (n : Int)).1 ∧
        (∀ i : Fin MAX_ALGOS, i.val ≠ n → t'.pointers i = t.pointers i) ∧
        NumAlgos t' = (n : Int) + 1) ∧
    (∀ bs : List Backend, bs.length ≤ MAX_ALGOS →
      ∃ t, InitAlgorithms.registerAll bs (AlgoTable.initial MAX_ALGOS) = .ok t ∧
        NumAlgos t = (bs.length : Int) ∧
        (∀ (j : Nat) (hj : j < bs.length) (hM : j < MAX_ALGOS),
          t.pointers ⟨j, hM⟩ ≠ none ∧
          t.algoinfo ⟨j, hM⟩ =
            some ((bs[j]).doInitializeAlgoInfo (AlgoData.new (bs[j]).raw (j : Int)).1)) ∧
        (∀ i : Fin MAX_ALGOS, bs.length ≤ i.val → t.pointers i = none ∧ t.algoinfo i = none)) ∧
    (∀ (qlifealgo hlifealgo generationsalgo jvnalgo ruletable_algo slifealgo wwalgo : Backend)
      (h0 : 0 < MAX_ALGOS) (h1 : 1 < MAX_ALGOS), 7 ≤ MAX_ALGOS →
      ∃ t, InitAlgorithms.registrations qlifealgo hlifealgo generationsalgo jvnalgo
          ruletable_algo slifealgo wwalgo (AlgoTable.initial MAX_ALGOS) = .ok t ∧
        NumAlgos t = 7 ∧
        t.algoinfo ⟨0, h0⟩ =
          some (qlifealgo.doInitializeAlgoInfo (AlgoData.new qlifealgo.raw 0).1) ∧
        t.algoinfo ⟨1, h1⟩ =
          some (hlifealgo.doInitializeAlgoInfo (AlgoData.new hlifealgo.raw 1).1)) := by
  refine ⟨?_, ?_, ?_⟩
  · intro raw t n hM hn
    refine ⟨_, _, AlgoData.tick_ok raw t n hn hM, ?_, ?_, ?_, ?_, ?_⟩
    · simp only [Function.update_same]
    · exact List.getElem?_concat_length _ _
    · simp only [AlgoTable.algoinfo, Function.update_same]
      exact List.getElem?_concat_length _ _
    · intro i hi
      have hne : i ≠ ⟨n, hM⟩ := fun h => hi (by rw [h])
      simp only [Function.update_noteq hne]
    · show ((n + 1 : Nat) : Int) = (n : Int) + 1
      omega
  · intro bs hlen
    obtain ⟨t, hrun, hnum, hslots, hnull⟩ :=
      InitAlgorithms.registerAll_initial MAX_ALGOS bs hlen
    refine ⟨t, hrun, hnum, fun j hj hM => ⟨fun hp => ?_, hslots j hj hM⟩,
      fun i hi => ⟨?_, hnull i hi⟩⟩
    · have h := hslots j hj hM
      simp only [AlgoTable.algoinfo, hp] at h
      cases h
    · obtain ⟨t2, hrun2, _, _, hptr, _⟩ :=
        InitAlgorithms.registerAll_spec bs 0 (AlgoTable.initial MAX_ALGOS) rfl rfl (by omega)
      rw [hrun] at hrun2
      cases hrun2
      have hout : ¬ (0 ≤ i.val ∧ i.val < 0 + bs.length) := by omega
      rw [hptr i, if_neg hout]
      rfl
  · intro q h g j r s w h0 h1 h7
    obtain ⟨t, hrun, hnum, hslots, _⟩ :=
      InitAlgorithms.registerAll_initial MAX_ALGOS [q, h, g, j, r, s, w] h7
    exact ⟨t, hrun, hnum, hslots 0 (by simp) h0, hslots 1 (by simp) h1⟩

/-- Witness for C15: two registrations into an array of 50 entries. -/
theorem registration_dense_indices_witness :
    ∃ t, InitAlgorithms.registerAll
        [sampleBackend (sampleAlgo none none [] none none) "QuickLife",
          sampleBackend (sampleAlgo none none [] none none) "HashLife"]
        (AlgoTable.initial 50) = .ok t ∧
      NumAlgos t = 2 :=
  let ⟨t, hrun, hnum, _⟩ := (registration_dense_indices 50).2.1
    [sampleBackend (sampleAlgo none none [] none none) "QuickLife",
      sampleBackend (sampleAlgo none none [] none none) "HashLife"] (by decide)
  ⟨t, hrun, hnum⟩

/-! ## `CreateNewUniverse` and `GetAlgoName` -/

/-- What `CreateNewUniverse` returns when the descriptor exists and its creator yields an
instance: that instance, with the calls made on it appended to its log. -/
theorem CreateNewUniverse_ok {MAX_ALGOS : Nat} (algoinfo : CArray (Option AlgoData) MAX_ALGOS)
    (algotype : Int) (allowcheck : Bool) (ad : AlgoData) (inst : lifealgo)
    (had : algoinfoAt algoinfo algotype = .ok ad) (hcr : ad.creator = some (some inst)) :
    CreateNewUniverse algoinfo algotype allowcheck =
      .ok { tag := inst.tag,
            calls := inst.calls ++
              ((if ad.algomem ≥ 0 then [lifealgoCall.setMaxMemory ad.algomem] else []) ++
                (if allowcheck then [lifealgoCall.setpoll] else [])) } := by
  unfold CreateNewUniverse
  rw [had]
  simp only [hcr]
  by_cases hm : ad.algomem ≥ 0 <;> cases allowcheck <;>
    simp [hm, lifealgo.setMaxMemory, lifealgo.setpoll]

theorem algoinfoAt_some {MAX_ALGOS : Nat} (algoinfo : CArray (Option AlgoData) MAX_ALGOS)
    (i : Nat) (hi : i < MAX_ALGOS) (ad : AlgoData) (had : algoinfo ⟨i, hi⟩ = some ad) :
    algoinfoAt algoinfo (i : Int) = .ok ad := by
  have hneg : ¬ ((i : Int) < 0) := by omega
  simp [algoinfoAt, CArray.readAt, CArray.read, hneg, hi, had]

theorem algoinfoAt_null {MAX_ALGOS : Nat} (algoinfo : CArray (Option AlgoData) MAX_ALGOS)
    (i : Nat) (hi : i < MAX_ALGOS) (had : algoinfo ⟨i, hi⟩ = none) :
    algoinfoAt algoinfo (i : Int) = .error .nullPointer := by
  have hneg : ¬ ((i : Int) < 0) := by omega
  simp [algoinfoAt, CArray.readAt, CArray.read, hneg, hi, had]

theorem algoinfoAt_outside {MAX_ALGOS : Nat} (algoinfo : CArray (Option AlgoData) MAX_ALGOS)
    (i : Int) (hi : i < 0 ∨ (MAX_ALGOS : Int) ≤ i) :
    algoinfoAt algoinfo i = .error .outOfBounds := by
  by_cases hneg : i < 0
  · simp [algoinfoAt, CArray.readAt, hneg]
  · have hbig : ¬ (i.toNat < MAX_ALGOS) := by omega
    simp [algoinfoAt, CArray.readAt, CArray.read, hneg, hbig]

/-- After a pass that ends normally the descriptor at index `i` has the name, creator and
memory setting it was registered with. -/
theorem InitAlgorithms.pass_done_kept (ID_ALGO0 : Int) (algoinfo : List AlgoData)
    (reg : Registry) (h : InitAlgorithms.pass ID_ALGO0 algoinfo = .done reg) (i : Nat)
    (hi : i < algoinfo.length) :
    ∃ ad', reg.algoinfo[i]? = some ad' ∧ ad'.algoName = (algoinfo[i]).algoName ∧
      ad'.creator = (algoinfo[i]).creator ∧ ad'.algomem = (algoinfo[i]).algomem := by
  obtain ⟨_, hall⟩ := InitAlgorithms.pass_done ID_ALGO0 algoinfo reg h
  obtain ⟨ad', _, m1, hget, hb⟩ := hall i hi
  obtain ⟨_, _, _, ⟨c, _, hf⟩, _⟩ := InitAlgorithms.body_ok ID_ALGO0 i _ ad' m1 _ hb
  exact ⟨ad', hget, by rw [hf], by rw [hf], by rw [hf]⟩

/-- C16: `CreateNewUniverse`, on a descriptor whose creator yields an instance, calls
`setMaxMemory` on the new instance exactly once, with the descriptor's `algomem`, when
`algomem` is not negative, and never when it is negative, in particular when it is -1. -/
theorem memory_budget_applied_once {MAX_ALGOS : Nat}
    (algoinfo : CArray (Option AlgoData) MAX_ALGOS) (algotype : Int) (allowcheck : Bool)
    (ad : AlgoData) (inst : lifealgo) (had : algoinfoAt algoinfo algotype = .ok ad)
    (hcr : ad.creator = some (some inst)) :
    ∃ inst' new, CreateNewUniverse algoinfo algotype allowcheck = .ok inst' ∧
      inst'.calls = inst.calls ++ new ∧
      (0 ≤ ad.algomem → lifealgoCall.maxMemoryArgs new = [ad.algomem]) ∧
      (ad.algomem < 0 → lifealgoCall.maxMemoryArgs new = []) ∧
      (ad.algomem = -1 → lifealgoCall.maxMemoryArgs new = []) := by
  have hneg : ad.algomem < 0 →
      lifealgoCall.maxMemoryArgs
        ((if ad.algomem ≥ 0 then [lifealgoCall.setMaxMemory ad.algomem] else []) ++
          (if allowcheck then [lifealgoCall.setpoll] else [])) = [] := by
    intro hm
    have hm' : ¬ (ad.algomem ≥ 0) := by omega
    cases allowcheck <;> simp [lifealgoCall.maxMemoryArgs, hm']
  refine ⟨_, _, CreateNewUniverse_ok algoinfo algotype allowcheck ad inst had hcr, rfl, ?_,
    hneg, fun h1 => hneg (by omega)⟩
  intro hm
  have hm' : ad.algomem ≥ 0 := hm
  cases allowcheck <;> simp [lifealgoCall.maxMemoryArgs, hm']

/-- Witness for C16: a descriptor with a memory setting of 300. -/
theorem memory_budget_applied_once_witness :
    ∃ inst' new,
      CreateNewUniverse
        (Registry.table 50 ⟨[], [{ sampleAlgo (some "HashLife") (some (some ⟨7, []⟩))
          [(10, 10, 10), (20, 20, 20)] none none with algomem := 300 }]⟩) 0 true = .ok inst' ∧
      inst'.calls = [] ++ new ∧ lifealgoCall.maxMemoryArgs new = [300] :=
  let ⟨inst', new, hrun, hcalls, hpos, _⟩ := memory_budget_applied_once
    (Registry.table 50 ⟨[], [{ sampleAlgo (some "HashLife") (some (some ⟨7, []⟩))
      [(10, 10, 10), (20, 20, 20)] none none with algomem := 300 }]⟩) 0 true
    { sampleAlgo (some "HashLife") (some (some ⟨7, []⟩))
      [(10, 10, 10), (20, 20, 20)] none none with algomem := 300 } ⟨7, []⟩ rfl rfl
  ⟨inst', new, hrun, hcalls, hpos (by decide)⟩

/-- C17: `CreateNewUniverse` ends in the fatal error exactly when the creator of the
descriptor yields no instance; then no instance is returned, so neither `setMaxMemory` nor
`setpoll` is applied to anything.  In every other case, the creator having yielded an
instance, that instance is the one returned. -/
theorem create_fatal_iff_no_instance {MAX_ALGOS : Nat}
    (algoinfo : CArray (Option AlgoData) MAX_ALGOS) (algotype : Int) (allowcheck : Bool) :
    ((∃ msg, CreateNewUniverse algoinfo algotype allowcheck = .error (.fatal msg)) ↔
      ∃ ad, algoinfoAt algoinfo algotype = .ok ad ∧ ad.creator = some none) ∧
    (∀ ad, algoinfoAt algoinfo algotype = .ok ad → ad.creator = some none →
      CreateNewUniverse algoinfo algotype allowcheck =
          .error (.fatal "Failed to create new universe!") ∧
        ∀ inst', CreateNewUniverse algoinfo algotype allowcheck ≠ .ok inst') ∧
    (∀ ad inst, algoinfoAt algoinfo algotype = .ok ad → ad.creator = some (some inst) →
      ∃ inst' new, CreateNewUniverse algoinfo algotype allowcheck = .ok inst' ∧
        inst'.tag = inst.tag ∧ inst'.calls = inst.calls ++ new) := by
  have hfatal : ∀ ad, algoinfoAt algoinfo algotype = .ok ad → ad.creator = some none →
      CreateNewUniverse algoinfo algotype allowcheck =
        .error (.fatal "Failed to create new universe!") := by
    intro ad had hcr
    unfold CreateNewUniverse
    rw [had]
    simp only [hcr]
  refine ⟨⟨?_, ?_⟩, ?_, ?_⟩
  · rintro ⟨msg, h⟩
    cases had : algoinfoAt algoinfo algotype with
    | error f =>
      unfold CreateNewUniverse at h
      rw [had] at h
      cases h
    | ok ad =>
      refine ⟨ad, rfl, ?_⟩
      cases hcr : ad.creator with
      | none =>
        unfold CreateNewUniverse at h
        rw [had] at h
        simp only [hcr] at h
        cases h
      | some cr =>
        cases cr with
        | none => rfl
        | some inst =>
          rw [CreateNewUniverse_ok algoinfo algotype allowcheck ad inst had hcr] at h
          cases h
  · rintro ⟨ad, had, hcr⟩
    exact ⟨_, hfatal ad had hcr⟩
  · intro ad had hcr
    refine ⟨hfatal ad had hcr, fun inst' h => ?_⟩
    rw [hfatal ad had hcr] at h
    cases h
  · intro ad inst had hcr
    exact ⟨_, _, CreateNewUniverse_ok algoinfo algotype allowcheck ad inst had hcr, rfl, rfl⟩

theorem GetAlgoName_some {MAX_ALGOS : Nat} (algoinfo : CArray (Option AlgoData) MAX_ALGOS)
    (i : Nat) (hi : i < MAX_ALGOS) (ad : AlgoData) (had : algoinfo ⟨i, hi⟩ = some ad) :
    GetAlgoName algoinfo (i : Int) = .ok ad.algoName := by
  unfold GetAlgoName
  rw [algoinfoAt_some algoinfo i hi ad had]

theorem GetAlgoName_null {MAX_ALGOS : Nat} (algoinfo : CArray (Option AlgoData) MAX_ALGOS)
    (i : Nat) (hi : i < MAX_ALGOS) (had : algoinfo ⟨i, hi⟩ = none) :
    GetAlgoName algoinfo (i : Int) = .error .nullPointer := by
  unfold GetAlgoName
  rw [algoinfoAt_null algoinfo i hi had]

theorem GetAlgoName_outside {MAX_ALGOS : Nat} (algoinfo : CArray (Option AlgoData) MAX_ALGOS)
    (i : Int) (hi : i < 0 ∨ (MAX_ALGOS : Int) ≤ i) :
    GetAlgoName algoinfo i = .error .outOfBounds := by
  unfold GetAlgoName
  rw [algoinfoAt_outside algoinfo i hi]

/-- Counterexample to C18: with two descriptors registered in an array of 50 entries,
`GetAlgoName` at the indices 2, -1 and 50 makes no test and reports no error: it reads
`algoinfo[algotype]->algoName`, a null pointer dereference for index 2 and an out-of-bounds
array read for -1 and 50, which is undefined behaviour. -/
theorem name_query_unchecked_counterexample :
    ∃ t, InitAlgorithms.registerAll
        [sampleBackend (sampleAlgo none none [] none none) "QuickLife",
          sampleBackend (sampleAlgo none none [] none none) "HashLife"]
        (AlgoTable.initial 50) = .ok t ∧
      NumAlgos t = 2 ∧
      GetAlgoName t.algoinfo 2 = .error .nullPointer ∧
      GetAlgoName t.algoinfo (-1) = .error .outOfBounds ∧
      GetAlgoName t.algoinfo 50 = .error .outOfBounds :=
  ⟨_, rfl, rfl, rfl, rfl, rfl⟩

/-- C18, amended: `GetAlgoName` returns, for every index `i` with `0 <= i < NumAlgos()`,
the name the backend of registration `i` set on its descriptor, right after the
registrations and after the pass of `InitAlgorithms` as well.  It does not test its
argument: for an index outside that range it reads `algoinfo[i]->algoName` all the same,
which is undefined behaviour (an out-of-bounds array read for `i < 0` or
`i >= MAX_ALGOS`, a null pointer dereference for `NumAlgos() <= i < MAX_ALGOS`) and not an
error that the function reports; the index is neither clamped nor wrapped. -/
theorem name_query_in_range (MAX_ALGOS : Nat) :
    (∀ bs : List Backend, bs.length ≤ MAX_ALGOS →
      ∃ t, InitAlgorithms.registerAll bs (AlgoTable.initial MAX_ALGOS) = .ok t ∧
        NumAlgos t = (bs.length : Int) ∧
        (∀ (i : Nat) (hi : i < bs.length), GetAlgoName t.algoinfo (i : Int) =
          .ok ((bs[i]).doInitializeAlgoInfo (AlgoData.new (bs[i]).raw (i : Int)).1).algoName) ∧
        (∀ i : Int, NumAlgos t ≤ i → i < (MAX_ALGOS : Int) →
          GetAlgoName t.algoinfo i = .error .nullPointer) ∧
        (∀ i : Int, i < 0 ∨ (MAX_ALGOS : Int) ≤ i →
          GetAlgoName t.algoinfo i = .error .outOfBounds)) ∧
    (∀ (ID_ALGO0 : Int) (algoinfo : List AlgoData) (reg : Registry),
      InitAlgorithms.pass ID_ALGO0 algoinfo = .done reg → algoinfo.length ≤ MAX_ALGOS →
      (∀ (i : Nat) (hi : i < algoinfo.length),
        GetAlgoName (reg.table MAX_ALGOS) (i : Int) = .ok (algoinfo[i]).algoName) ∧
      (∀ i : Int, (algoinfo.length : Int) ≤ i → i < (MAX_ALGOS : Int) →
        GetAlgoName (reg.table MAX_ALGOS) i = .error .nullPointer) ∧
      (∀ i : Int, i < 0 ∨ (MAX_ALGOS : Int) ≤ i →
        GetAlgoName (reg.table MAX_ALGOS) i = .error .outOfBounds)) := by
  constructor
  · intro bs hlen
    obtain ⟨t, hrun, hnum, hslots, hnull⟩ :=
      InitAlgorithms.registerAll_initial MAX_ALGOS bs hlen
    refine ⟨t, hrun, hnum, ?_, ?_, fun i hi => GetAlgoName_outside t.algoinfo i hi⟩
    · intro i hi
      exact GetAlgoName_some t.algoinfo i (by omega) _ (hslots i hi (by omega))
    · intro i hlo hhi
      rw [hnum] at hlo
      have hi0 : 0 ≤ i := by omega
      obtain ⟨n, rfl⟩ := Int.eq_ofNat_of_zero_le hi0
      have hn : n < MAX_ALGOS := by omega
      exact GetAlgoName_null t.algoinfo n hn (hnull ⟨n, hn⟩ (by
        show bs.length ≤ n
        omega))
  · intro ID_ALGO0 algoinfo reg h hlen
    obtain ⟨hreglen, _⟩ := InitAlgorithms.pass_done ID_ALGO0 algoinfo reg h
    refine ⟨?_, ?_, fun i hi => GetAlgoName_outside _ i hi⟩
    · intro i hi
      obtain ⟨ad', hget, hname, _⟩ := InitAlgorithms.pass_done_kept ID_ALGO0 algoinfo reg h i hi
      rw [GetAlgoName_some (reg.table MAX_ALGOS) i (by omega) ad' hget, hname]
    · intro i hlo hhi
      have hi0 : 0 ≤ i := by omega
      obtain ⟨n, rfl⟩ := Int.eq_ofNat_of_zero_le hi0
      have hn : n < MAX_ALGOS := by omega
      refine GetAlgoName_null (reg.table MAX_ALGOS) n hn ?_
      show reg.algoinfo[n]? = none
      rw [List.getElem?_eq_none_iff]
      omega

/-- Witness for C18, amended: two registrations into an array of 50 entries. -/
theorem name_query_in_range_witness :
    ∃ t, InitAlgorithms.registerAll
        [sampleBackend (sampleAlgo none none [] none none) "QuickLife",
          sampleBackend (sampleAlgo none none [] none none) "HashLife"]
        (AlgoTable.initial 50) = .ok t ∧
      GetAlgoName t.algoinfo 0 = .ok (some "QuickLife") ∧
      GetAlgoName t.algoinfo 1 = .ok (some "HashLife") :=
  let ⟨t, hrun, _, hname, _⟩ := (name_query_in_range 50).1
    [sampleBackend (sampleAlgo none none [] none none) "QuickLife",
      sampleBackend (sampleAlgo none none [] none none) "HashLife"] (by decide)
  ⟨t, hrun, hname 0 (by decide), hname 1 (by decide)⟩

/-- C19: `CreateNewUniverse`, on a descriptor whose creator yields an instance, calls
`setpoll` on the new instance exactly once when `allowcheck` is true and never when it is
false, whatever the descriptor's `algomem`. -/
theorem poller_wired_iff_allowcheck {MAX_ALGOS : Nat}
    (algoinfo : CArray (Option AlgoData) MAX_ALGOS) (algotype : Int) (allowcheck : Bool)
    (ad : AlgoData) (inst : lifealgo) (had : algoinfoAt algoinfo algotype = .ok ad)
    (hcr : ad.creator = some (some inst)) :
    ∃ inst' new, CreateNewUniverse algoinfo algotype allowcheck = .ok inst' ∧
      inst'.calls = inst.calls ++ new ∧
      (allowcheck = true → lifealgoCall.numSetpoll new = 1) ∧
      (allowcheck = false → lifealgoCall.numSetpoll new = 0) ∧
      lifealgoCall.numSetpoll new = (if allowcheck then 1 else 0) := by
  have hcount : lifealgoCall.numSetpoll
      ((if ad.algomem ≥ 0 then [lifealgoCall.setMaxMemory ad.algomem] else []) ++
        (if allowcheck then [lifealgoCall.setpoll] else [])) = (if allowcheck then 1 else 0) := by
    by_cases hm : ad.algomem ≥ 0 <;> cases allowcheck <;>
      simp [lifealgoCall.numSetpoll, hm]
  refine ⟨_, _, CreateNewUniverse_ok algoinfo algotype allowcheck ad inst had hcr, rfl, ?_, ?_,
    hcount⟩
  · intro ht
    rw [hcount, ht]
    rfl
  · intro hf
    rw [hcount, hf]
    rfl

/-- Witness for C19: a descriptor with memory setting -1, created with `allowcheck`. -/
theorem poller_wired_iff_allowcheck_witness :
    ∃ inst' new,
      CreateNewUniverse
        (Registry.table 50 ⟨[], [{ sampleAlgo (some "QuickLife") (some (some ⟨7, []⟩))
          [(10, 10, 10), (20, 20, 20)] none none with algomem := -1 }]⟩) 0 true = .ok inst' ∧
      inst'.calls = [] ++ new ∧ lifealgoCall.numSetpoll new = 1 :=
  let ⟨inst', new, hrun, hcalls, hpos, _⟩ := poller_wired_iff_allowcheck
    (Registry.table 50 ⟨[], [{ sampleAlgo (some "QuickLife") (some (some ⟨7, []⟩))
      [(10, 10, 10), (20, 20, 20)] none none with algomem := -1 }]⟩) 0 true
    { sampleAlgo (some "QuickLife") (some (some ⟨7, []⟩))
      [(10, 10, 10), (20, 20, 20)] none none with algomem := -1 } ⟨7, []⟩ rfl rfl
  ⟨inst', new, hrun, hcalls, hpos rfl⟩

/-- The test of the fallback holds exactly when the default colours of states 0 and 1
agree in all three channels. -/
theorem InitAlgorithms.colorsUnset_iff (ad : AlgoData) :
    InitAlgorithms.colorsUnset ad = true ↔
      (ad.defr 0, ad.defg 0, ad.defb 0) = (ad.defr 1, ad.defg 1, ad.defb 1) := by
  simp [InitAlgorithms.colorsUnset, and_assoc]

/-- C20: after the pass, for every descriptor with `maxstates >= 2` the default colours of
state 0 and state 1 differ in at least one channel: either the defaults the backend
registered already differed and are unchanged, or the fallback has installed the table
entries (255,127,0) and (0,255,127).  So the fallback step run once more on such a
descriptor changes nothing. -/
theorem first_two_defaults_differ (ID_ALGO0 : Int) (algoinfo : List AlgoData) (reg : Registry)
    (h : InitAlgorithms.pass ID_ALGO0 algoinfo = .done reg) :
    ∀ (k : Nat) (hk : k < algoinfo.length), ∃ ad', reg.algoinfo[k]? = some ad' ∧
      (2 ≤ ad'.maxstates →
        (ad'.defr 0, ad'.defg 0, ad'.defb 0) ≠ (ad'.defr 1, ad'.defg 1, ad'.defb 1) ∧
        ((((algoinfo[k]).defr 0, (algoinfo[k]).defg 0, (algoinfo[k]).defb 0) ≠
              ((algoinfo[k]).defr 1, (algoinfo[k]).defg 1, (algoinfo[k]).defb 1) ∧
            ad'.defr = (algoinfo[k]).defr ∧ ad'.defg = (algoinfo[k]).defg ∧
            ad'.defb = (algoinfo[k]).defb) ∨
          ((ad'.defr 0, ad'.defg 0, ad'.defb 0) = (255, 127, 0) ∧
            (ad'.defr 1, ad'.defg 1, ad'.defb 1) = (0, 255, 127))) ∧
        InitAlgorithms.defaultColors ad' = .ok ad') := by
  intro k hk
  obtain ⟨_, hall⟩ := InitAlgorithms.pass_done ID_ALGO0 algoinfo reg h
  obtain ⟨ad', name, m1, hget, hb⟩ := hall k hk
  obtain ⟨_, _, _, ⟨c, _, hf⟩, hkeep, hfill, _⟩ :=
    InitAlgorithms.body_ok ID_ALGO0 k _ ad' m1 _ hb
  have hms : ad'.maxstates = (algoinfo[k]).maxstates := by rw [hf]
  refine ⟨ad', hget, fun h2 => ?_⟩
  have hidem : (ad'.defr 0, ad'.defg 0, ad'.defb 0) ≠ (ad'.defr 1, ad'.defg 1, ad'.defb 1) →
      InitAlgorithms.defaultColors ad' = .ok ad' := by
    intro hne
    have hu : InitAlgorithms.colorsUnset ad' = false := by
      cases hc : InitAlgorithms.colorsUnset ad' with
      | false => rfl
      | true => exact absurd ((InitAlgorithms.colorsUnset_iff ad').1 hc) hne
    simp [InitAlgorithms.defaultColors, hu]
  cases hu : InitAlgorithms.colorsUnset algoinfo[k] with
  | false =>
    obtain ⟨hr, hg, hb'⟩ := hkeep hu
    have hne0 : ((algoinfo[k]).defr 0, (algoinfo[k]).defg 0, (algoinfo[k]).defb 0) ≠
        ((algoinfo[k]).defr 1, (algoinfo[k]).defg 1, (algoinfo[k]).defb 1) := by
      intro heq
      rw [(InitAlgorithms.colorsUnset_iff _).2 heq] at hu
      cases hu
    have hne : (ad'.defr 0, ad'.defg 0, ad'.defb 0) ≠ (ad'.defr 1, ad'.defg 1, ad'.defb 1) := by
      rw [hr, hg, hb']
      exact hne0
    exact ⟨hne, Or.inl ⟨hne0, hr, hg, hb'⟩, hidem hne⟩
  | true =>
    have hlt : ∀ c : Fin 256, c.val < 2 → (c.val : Int) < (algoinfo[k]).maxstates := by
      intro c hc
      omega
    obtain ⟨r0, g0, b0⟩ := (hfill hu 0).1 (hlt 0 (by decide))
    obtain ⟨r1, g1, b1⟩ := (hfill hu 1).1 (hlt 1 (by decide))
    obtain ⟨⟨p0, p1, p2⟩, ⟨p3, p4, p5⟩, _⟩ := default_colors_first
    have e0 : some (ad'.defr 0) = some 255 := r0.symm.trans p0
    have e1 : some (ad'.defg 0) = some 127 := g0.symm.trans p1
    have e2 : some (ad'.defb 0) = some 0 := b0.symm.trans p2
    have e3 : some (ad'.defr 1) = some 0 := r1.symm.trans p3
    have e4 : some (ad'.defg 1) = some 255 := g1.symm.trans p4
    have e5 : some (ad'.defb 1) = some 127 := b1.symm.trans p5
    have hs0 : (ad'.defr 0, ad'.defg 0, ad'.defb 0) = (255, 127, 0) := by
      rw [Option.some.inj e0, Option.some.inj e1, Option.some.inj e2]
    have hs1 : (ad'.defr 1, ad'.defg 1, ad'.defb 1) = (0, 255, 127) := by
      rw [Option.some.inj e3, Option.some.inj e4, Option.some.inj e5]
    have hne : (ad'.defr 0, ad'.defg 0, ad'.defb 0) ≠ (ad'.defr 1, ad'.defg 1, ad'.defb 1) := by
      rw [hs0, hs1]
      decide
    exact ⟨hne, Or.inr ⟨hs0, hs1⟩, hidem hne⟩

/-- Witness for C20: a pass over one descriptor whose first two declared colours agree. -/
theorem first_two_defaults_differ_witness :
    ∃ reg, InitAlgorithms.pass 100
        [sampleAlgo (some "QuickLife") (some (some ⟨0, []⟩))
          [(10, 10, 10), (10, 10, 10), (200, 1, 1)] none none] = .done reg ∧
      ∃ ad', reg.algoinfo[0]? = some ad' ∧
        (2 ≤ ad'.maxstates →
          (ad'.defr 0, ad'.defg 0, ad'.defb 0) ≠ (ad'.defr 1, ad'.defg 1, ad'.defb 1) ∧
          InitAlgorithms.defaultColors ad' = .ok ad') := by
  obtain ⟨reg, hreg⟩ := InitAlgorithms.loop_total 100
    [sampleAlgo (some "QuickLife") (some (some ⟨0, []⟩))
      [(10, 10, 10), (10, 10, 10), (200, 1, 1)] none none] 0 [] []
    (by
      intro ad had
      rw [List.mem_singleton] at had
      subst had
      exact sampleAlgo_accepted _ _ _ _ _ (by decide))
  obtain ⟨ad', hget, hall⟩ := first_two_defaults_differ 100 _ reg hreg 0 (by decide)
  exact ⟨reg, hreg, ad', hget, fun h2 => ⟨(hall h2).1, (hall h2).2.2⟩⟩

/-- C21: after the pass a descriptor's flag `canhash` is true if and only if its `algobase`
equals 8.  It depends on no other field: two descriptors with the same `algobase` get the
same flag, whatever else they hold and wherever they stand.  The constructor of `AlgoData`
sets `algobase` to 0, so a descriptor whose backend leaves `algobase` alone gets
`canhash = false`. -/
theorem canhash_iff_algobase_eight :
    (∀ (ID_ALGO0 : Int) (algoinfo : List AlgoData) (reg : Registry),
      InitAlgorithms.pass ID_ALGO0 algoinfo = .done reg →
      ∀ (k : Nat) (hk : k < algoinfo.length), ∃ ad', reg.algoinfo[k]? = some ad' ∧
        (ad'.canhash = true ↔ (algoinfo[k]).algobase = 8) ∧
        ad'.algobase = (algoinfo[k]).algobase) ∧
    (∀ (ID1 ID2 : Int) (i1 i2 : Nat) (m1 m1' m2 m2' : wxMenu) (ad1 ad2 ad1' ad2' : AlgoData),
      InitAlgorithms.body ID1 i1 ad1 m1 = .ok (ad1', m1') →
      InitAlgorithms.body ID2 i2 ad2 m2 = .ok (ad2', m2') →
      ad1.algobase = ad2.algobase → ad1'.canhash = ad2'.canhash) ∧
    (∀ (raw : AlgoData) (id : Int), (AlgoData.new raw id).1.algobase = 0) ∧
    (∀ (backend : Backend) (id ID_ALGO0 : Int) (i : Nat) (m m' : wxMenu) (ad' : AlgoData),
      (backend.doInitializeAlgoInfo (AlgoData.new backend.raw id).1).algobase =
        (AlgoData.new backend.raw id).1.algobase →
      InitAlgorithms.body ID_ALGO0 i
        (backend.doInitializeAlgoInfo (AlgoData.new backend.raw id).1) m = .ok (ad', m') →
      ad'.canhash = false) := by
  have hflag : ∀ (ID_ALGO0 : Int) (i : Nat) (m m' : wxMenu) (ad ad' : AlgoData),
      InitAlgorithms.body ID_ALGO0 i ad m = .ok (ad', m') →
      ad'.canhash = (ad.algobase == 8) ∧ ad'.algobase = ad.algobase := by
    intro ID_ALGO0 i m m' ad ad' hb
    obtain ⟨_, _, _, ⟨c, _, hf⟩, _⟩ := InitAlgorithms.body_ok ID_ALGO0 i ad ad' m m' hb
    exact ⟨by rw [hf], by rw [hf]⟩
  refine ⟨?_, ?_, fun _ _ => rfl, ?_⟩
  · intro ID_ALGO0 algoinfo reg h k hk
    obtain ⟨_, hall⟩ := InitAlgorithms.pass_done ID_ALGO0 algoinfo reg h
    obtain ⟨ad', name, m1, hget, hb⟩ := hall k hk
    obtain ⟨hc, hbase⟩ := hflag ID_ALGO0 k m1 _ _ ad' hb
    refine ⟨ad', hget, ?_, hbase⟩
    rw [hc]
    exact beq_iff_eq
  · intro ID1 ID2 i1 i2 m1 m1' m2 m2' ad1 ad2 ad1' ad2' hb1 hb2 hsame
    rw [(hflag ID1 i1 m1 m1' ad1 ad1' hb1).1, (hflag ID2 i2 m2 m2' ad2 ad2' hb2).1, hsame]
  · intro backend id ID_ALGO0 i m m' ad' hkeep hb
    rw [(hflag ID_ALGO0 i m m' _ ad' hb).1, hkeep]
    rfl

/-- Witness for C21: a pass over a descriptor with `algobase` 8 and one with `algobase` 0. -/
theorem canhash_iff_algobase_eight_witness :
    ∃ reg, InitAlgorithms.pass 100
        [{ sampleAlgo (some "HashLife") (some (some ⟨0, []⟩)) [(10, 10, 10), (20, 20, 20)]
            none none with algobase := 8 },
          sampleAlgo (some "QuickLife") (some (some ⟨1, []⟩)) [(10, 10, 10), (20, 20, 20)]
            none none] = .done reg ∧
      (∃ ad', reg.algoinfo[0]? = some ad' ∧ ad'.canhash = true) ∧
      (∃ ad', reg.algoinfo[1]? = some ad' ∧ ad'.canhash = false) := by
  obtain ⟨reg, hreg⟩ := InitAlgorithms.loop_total 100
    [{ sampleAlgo (some "HashLife") (some (some ⟨0, []⟩)) [(10, 10, 10), (20, 20, 20)]
        none none with algobase := 8 },
      sampleAlgo (some "QuickLife") (some (some ⟨1, []⟩)) [(10, 10, 10), (20, 20, 20)]
        none none] 0 [] []
    (by
      intro ad had
      simp only [List.mem_cons, List.mem_singleton, List.not_mem_nil, or_false] at had
      rcases had with rfl | rfl <;> decide)
  obtain ⟨a0, hget0, hiff0, _⟩ := canhash_iff_algobase_eight.1 100 _ reg hreg 0 (by decide)
  obtain ⟨a1, hget1, hiff1, _⟩ := canhash_iff_algobase_eight.1 100 _ reg hreg 1 (by decide)
  refine ⟨reg, hreg, ⟨a0, hget0, hiff0.2 rfl⟩, ⟨a1, hget1, ?_⟩⟩
  cases hc : a1.canhash with
  | false => rfl
  | true => exact absurd (hiff1.1 hc) (by decide)

/-! ## The status bar -/

/-- When `GetCurrentDelay` returns, and what: the exponent is negative and at least -31, the
product is an `int`, and the result is the smaller of the product and `maxdelay`. -/
theorem StatusBar.GetCurrentDelay_ok_iff (mindelay maxdelay currexpo r : Int) :
    StatusBar.GetCurrentDelay mindelay maxdelay currexpo = .ok r ↔
      (currexpo < 0 ∧ -31 ≤ currexpo ∧ isInt32 (mindelay * 2 ^ (-currexpo - 1).toNat) ∧
        r = min (mindelay * 2 ^ (-currexpo - 1).toNat) maxdelay) := by
  unfold StatusBar.GetCurrentDelay cshl1 cmul
  by_cases hk : 0 ≤ -currexpo - 1 ∧ -currexpo - 1 < 31
  · rw [if_pos hk]
    simp only
    by_cases hfit : isInt32 (mindelay * 2 ^ (-currexpo - 1).toNat)
    · rw [if_pos hfit]
      simp only [Except.ok.injEq]
      have hmin : (if mindelay * 2 ^ (-currexpo - 1).toNat > maxdelay then maxdelay
          else mindelay * 2 ^ (-currexpo - 1).toNat) =
          min (mindelay * 2 ^ (-currexpo - 1).toNat) maxdelay := by
        split
        · rw [min_eq_right (by omega)]
        · rw [min_eq_left (by omega)]
      rw [hmin]
      constructor
      · intro h
        exact ⟨by omega, by omega, hfit, h.symm⟩
      · intro h
        exact h.2.2.2.symm
    · rw [if_neg hfit]
      constructor
      · intro h
        cases h
      · intro h
        exact absurd h.2.2.1 hfit
  · rw [if_neg hk]
    constructor
    · intro h
      cases h
    · intro h
      exact absurd ⟨by omega, by omega⟩ hk

/-- Counterexample to C23: with `mindelay = 0` and `currexpo = -33` the product
`mindelay * 2^32` is 0 and overflows nothing, yet the code evaluates `1 << 32`, a shift of
an `int` by its full width, which is undefined, and so does not return `min(0, maxdelay)`. -/
theorem current_delay_shift_counterexample :
    (-33 : Int) < 0 ∧ isInt32 (0 * 2 ^ (-(-33 : Int) - 1).toNat) ∧
    cshl1 (-(-33 : Int) - 1) = .error .overflow ∧
    StatusBar.GetCurrentDelay 0 5000 (-33) = .error .overflow ∧
    StatusBar.GetCurrentDelay 0 5000 (-33) ≠ .ok (min (0 * 2 ^ (-(-33 : Int) - 1).toNat) 5000) := by
  refine ⟨by decide, by decide, rfl, rfl, ?_⟩
  intro h
  have h' : StatusBar.GetCurrentDelay 0 5000 (-33) = .error .overflow := rfl
  rw [h'] at h
  cases h

/-- C23, amended: for every negative step exponent `currexpo` not below -31 (so that the
shift count `-currexpo-1` is at most 30, which is automatic when `mindelay >= 1`) for which
`mindelay * 2^(-currexpo-1)` does not overflow a 32-bit `int`, `GetCurrentDelay` returns
`min(mindelay * 2^(-currexpo-1), maxdelay)`.  The result never exceeds `maxdelay`, it
equals `mindelay` at `currexpo = -1` whenever `mindelay <= maxdelay`, and for
`mindelay >= 0` it is non-decreasing as `currexpo` decreases. -/
theorem current_delay_capped (mindelay maxdelay currexpo : Int) (hneg : currexpo < 0)
    (hshift : -31 ≤ currexpo)
    (hfit : isInt32 (mindelay * 2 ^ (-currexpo - 1).toNat)) :
    StatusBar.GetCurrentDelay mindelay maxdelay currexpo =
      .ok (min (mindelay * 2 ^ (-currexpo - 1).toNat) maxdelay) ∧
    min (mindelay * 2 ^ (-currexpo - 1).toNat) maxdelay ≤ maxdelay ∧
    (currexpo = -1 → mindelay ≤ maxdelay →
      StatusBar.GetCurrentDelay mindelay maxdelay currexpo = .ok mindelay) ∧
    (∀ lower r r' : Int, 0 ≤ mindelay → lower ≤ currexpo →
      StatusBar.GetCurrentDelay mindelay maxdelay currexpo = .ok r →
      StatusBar.GetCurrentDelay mindelay maxdelay lower = .ok r' → r ≤ r') ∧
    (∀ e : Int, 1 ≤ mindelay → e < 0 → isInt32 (mindelay * 2 ^ (-e - 1).toNat) → -31 ≤ e) := by
  have hrun := (StatusBar.GetCurrentDelay_ok_iff mindelay maxdelay currexpo
    (min (mindelay * 2 ^ (-currexpo - 1).toNat) maxdelay)).2 ⟨hneg, hshift, hfit, rfl⟩
  refine ⟨hrun, min_le_right _ _, ?_, ?_, ?_⟩
  · intro h1 hle
    rw [hrun]
    subst h1
    have hpow : (-(-1 : Int) - 1).toNat = 0 := by decide
    rw [hpow, pow_zero, mul_one, min_eq_left hle]
  · intro lower r r' hm hlow h1 h2
    obtain ⟨_, _, _, hr⟩ := (StatusBar.GetCurrentDelay_ok_iff _ _ _ _).1 h1
    obtain ⟨hl0, _, _, hr'⟩ := (StatusBar.GetCurrentDelay_ok_iff _ _ _ _).1 h2
    rw [hr, hr']
    have hexp : (-currexpo - 1).toNat ≤ (-lower - 1).toNat := by omega
    have hpow : (2 : Int) ^ (-currexpo - 1).toNat ≤ 2 ^ (-lower - 1).toNat :=
      pow_le_pow_right₀ (by norm_num) hexp
    exact min_le_min (mul_le_mul_of_nonneg_left hpow hm) (le_refl _)
  · intro e hm he hfit'
    by_contra hlt
    have hbig : 31 ≤ (-e - 1).toNat := by omega
    have hpow : (2 : Int) ^ 31 ≤ 2 ^ (-e - 1).toNat := pow_le_pow_right₀ (by norm_num) hbig
    have hpos : (0 : Int) ≤ 2 ^ (-e - 1).toNat := by positivity
    have hprod : (2 : Int) ^ (-e - 1).toNat ≤ mindelay * 2 ^ (-e - 1).toNat := by
      nlinarith
    have hle := hfit'.2
    have h31 : (2 : Int) ^ 31 = 2147483648 := by norm_num
    omega

/-- Witness for C23, amended: `mindelay = 250`, `maxdelay = 5000`, `currexpo = -3`. -/
theorem current_delay_capped_witness :
    StatusBar.GetCurrentDelay 250 5000 (-3) = .ok (min (250 * 2 ^ (-(-3 : Int) - 1).toNat) 5000) ∧
    min (250 * 2 ^ (-(-3 : Int) - 1).toNat) 5000 ≤ (5000 : Int) :=
  ⟨(current_delay_capped 250 5000 (-3) (by decide) (by decide) (by decide)).1,
    (current_delay_capped 250 5000 (-3) (by decide) (by decide) (by decide)).2.1⟩

/-- C22, the code at failing inputs: for 0, 1000 and 1000000000, the three examples of the
claim, `Stringify` has written no sign, `p` still points at the start of `buf`, and the
final test `p[-1] == '-'` reads the byte in front of the buffer: the call leaves defined
behaviour instead of returning "0", "1,000" and "1,000,000,000".  For the negative numbers
of the same size the sign is in `buf[0]`, the read is inside the buffer and the text is
the one the claim describes. -/
theorem stringify_reads_before_buffer (sprintf_g : Int → String) (buf : CharBuf) :
    StatusBar.Stringify sprintf_g buf 0 = .error .outOfBounds ∧
    StatusBar.Stringify sprintf_g buf 1000 = .error .outOfBounds ∧
    StatusBar.Stringify sprintf_g buf 1000000000 = .error .outOfBounds ∧
    StatusBar.Stringify sprintf_g buf (-7) = .ok "-7" ∧
    StatusBar.Stringify sprintf_g buf (-42) = .ok "-42" ∧
    StatusBar.Stringify sprintf_g buf (-999) = .ok "-999" ∧
    StatusBar.Stringify sprintf_g buf (-1000) = .ok "-1,000" ∧
    StatusBar.Stringify sprintf_g buf (-12345) = .ok "-12,345" ∧
    StatusBar.Stringify sprintf_g buf (-123456) = .ok "-123,456" ∧
    StatusBar.Stringify sprintf_g buf (-1234567) = .ok "-1,234,567" ∧
    StatusBar.Stringify sprintf_g buf (-12345678) = .ok "-12,345,678" ∧
    StatusBar.Stringify sprintf_g buf (-123456789) = .ok "-123,456,789" ∧
    StatusBar.Stringify sprintf_g buf (-1000000000) = .ok "-1,000,000,000" :=
  ⟨rfl, rfl, rfl, rfl, rfl, rfl, rfl, rfl, rfl, rfl, rfl, rfl, rfl⟩

/-! ## `Stringify` on a number that is not negative -/

theorem CArray.writeAt_error {α : Type} {n : Nat} (a : CArray α n) (i : Int) (v : α) (f : Fault)
    (h : CArray.writeAt a i v = .error f) : f = .outOfBounds := by
  unfold CArray.writeAt CArray.write at h
  split at h
  · cases h
    rfl
  · split at h
    · cases h
    · cases h
      rfl

theorem CArray.readAt_error {α : Type} {n : Nat} (a : CArray α n) (i : Int) (f : Fault)
    (h : CArray.readAt a i = .error f) : f = .outOfBounds := by
  unfold CArray.readAt CArray.read at h
  split at h
  · cases h
    rfl
  · split at h
    · cases h
    · cases h
      rfl

theorem CharBuf.sprintf_error :
    ∀ (cs : List Char) (buf : CharBuf) (i : Int) (f : Fault),
      CharBuf.sprintf buf i cs = .error f → f = .outOfBounds
  | [], buf, i, f, h => CArray.writeAt_error buf i _ f h
  | c :: cs, buf, i, f, h => by
    simp only [CharBuf.sprintf] at h
    cases hw : CArray.writeAt buf i c with
    | error e =>
      rw [hw] at h
      cases h
      exact CArray.writeAt_error buf i c _ hw
    | ok buf' =>
      rw [hw] at h
      exact CharBuf.sprintf_error cs buf' (i + 1) f h

theorem CharBuf.strlen_error (buf : CharBuf) (p : Int) :
    ∀ (fuel : Nat) (len : Int) (f : Fault),
      CharBuf.strlen buf p fuel len = .error f → f = .outOfBounds
  | 0, _, f, h => by
    cases h
    rfl
  | fuel + 1, len, f, h => by
    simp only [CharBuf.strlen] at h
    cases hr : CArray.readAt buf (p + len) with
    | error e =>
      rw [hr] at h
      cases h
      exact CArray.readAt_error buf _ _ hr
    | ok c =>
      rw [hr] at h
      simp only at h
      split at h
      · cases h
      · exact CharBuf.strlen_error buf p fuel (len + 1) f h

theorem StatusBar.Stringify.moveChar_error (p : Int) (st : CharBuf × Int × Int) (f : Fault)
    (h : StatusBar.Stringify.moveChar p st = .error f) : f = .outOfBounds := by
  obtain ⟨buf, dest, src⟩ := st
  simp only [StatusBar.Stringify.moveChar] at h
  cases hr : CArray.readAt buf (p + (src - 1)) with
  | error e =>
    rw [hr] at h
    cases h
    exact CArray.readAt_error buf _ _ hr
  | ok c =>
    rw [hr] at h
    simp only at h
    cases hw : CArray.writeAt buf (p + (dest - 1)) c with
    | error e =>
      rw [hw] at h
      cases h
      exact CArray.writeAt_error buf _ _ _ hw
    | ok buf' =>
      rw [hw] at h
      cases h

/-- A sequence of two steps ends in the fault `e0` when the first step can fail in no other
way and the second step, run on whatever the first returns, ends in `e0`. -/
theorem bind_error_of {α β : Type} (x : Except Fault α) (g : α → Except Fault β) (e0 : Fault)
    (hx : ∀ e, x = .error e → e = e0) (hg : ∀ a, x = .ok a → g a = .error e0) :
    (x >>= g) = .error e0 := by
  cases x with
  | error e =>
    rw [hx e rfl]
    rfl
  | ok a => exact hg a rfl

/-- A sequence of two steps can fail only with the fault `e0` when that holds of both. -/
theorem bind_error_kind {α β : Type} (x : Except Fault α) (g : α → Except Fault β)
    (e0 f : Fault) (hx : ∀ e, x = .error e → e = e0) (hg : ∀ a e, g a = .error e → e = e0)
    (h : (x >>= g) = .error f) : f = e0 := by
  cases x with
  | error e =>
    cases h
    exact hx _ rfl
  | ok a => exact hg a f h

theorem StatusBar.Stringify.body_error (p : Int) (j : Nat) (st : CharBuf × Int × Int)
    (f : Fault) (h : StatusBar.Stringify.body p j st = .error f) : f = .outOfBounds := by
  unfold StatusBar.Stringify.body at h
  refine bind_error_kind _ _ _ f (StatusBar.Stringify.moveChar_error p st) ?_ h
  intro st1 e1 h1
  refine bind_error_kind _ _ _ e1 (StatusBar.Stringify.moveChar_error p st1) ?_ h1
  intro st2 e2 h2
  refine bind_error_kind _ _ _ e2 (StatusBar.Stringify.moveChar_error p st2) ?_ h2
  rintro ⟨buf, dest, src⟩ e3 h3
  simp only at h3
  refine bind_error_kind _ _ _ e3 (CArray.writeAt_error buf _ _) ?_ h3
  intro buf' e4 h4
  cases h4

theorem forLoop_error_kind {σ : Type} (body : Nat → σ → Except Fault σ) (e0 : Fault)
    (hbody : ∀ j s e, body j s = .error e → e = e0) :
    ∀ (count i : Nat) (s : σ) (f : Fault), forLoop body count i s = .error f → f = e0
  | 0, _, _, _, h => by cases h
  | count + 1, i, s, f, h => by
    simp only [forLoop] at h
    cases hb : body i s with
    | error e =>
      rw [hb] at h
      cases h
      exact hbody i s _ hb
    | ok s' =>
      rw [hb] at h
      exact forLoop_error_kind body e0 hbody count (i + 1) s' f h

/-- For every number from 0 to 10^9 `Stringify` leaves defined behaviour: whatever the digits
are, no sign has been stored, `p` is `buf`, and `p[-1]` is read in front of the buffer. -/
theorem StatusBar.Stringify_nonneg (sprintf_g : Int → String) (buf : CharBuf) (n : Int)
    (h0 : 0 ≤ n) (h9 : n ≤ 1000000000) :
    StatusBar.Stringify sprintf_g buf n = .error .outOfBounds := by
  have habs : ¬ (|n| > 1000000000) := by
    rw [abs_of_nonneg h0]
    omega
  have hneg : ¬ (n < 0) := by omega
  unfold StatusBar.Stringify
  simp only [if_neg habs, if_neg hneg]
  refine bind_error_of _ _ _ (fun e h => by cases h) ?_
  rintro ⟨d, p, buf1⟩ ha
  cases ha
  dsimp only
  refine bind_error_of _ _ _ (CharBuf.sprintf_error _ _ _) ?_
  intro buf2 _
  refine bind_error_of _ _ _ (CharBuf.strlen_error _ _ _ _) ?_
  intro len _
  dsimp only
  refine bind_error_of _ _ _ (CArray.writeAt_error _ _ _) ?_
  intro buf3 _
  refine bind_error_of _ _ _
    (forLoop_error_kind _ _ (StatusBar.Stringify.body_error 0) _ _ _) ?_
  rintro ⟨buf4, dest4, src4⟩ _
  dsimp only
  refine bind_error_of _ _ _ (CArray.readAt_error _ _) ?_
  intro c hc
  simp [CArray.readAt] at hc

end Golly
